import Mathlib

/-!
# Wallet API: ledger and asynchronous transfer settlement

A shallow embedding of `internal/usecase/transaction_usecase.go` together with the
repository and queue operations it calls
(`internal/repository/user_repository.go`,
`internal/repository/transaction_repository.go`, `pkg/queue/asynq.go`).

Modelling conventions.

* Monetary amounts are `float64` in the source.  They are embedded as `F64`, a model of
  IEEE 754 binary64 with round-to-nearest-even addition and subtraction, both zeros, both
  infinities and NaN; `+`, `-`, `<` and `≤` on `F64` are Go's operators on `float64`.
* Clock readings are natural numbers.  The ORM stamps `updated_at` with a clock reading
  of its own on every `Save` and `Update`; these readings are part of the environment.
* A `uuid.UUID` is embedded as a natural number.  `uuid.Nil` is `0`, and `uuid.New()`
  is `uuidNew seed` for a seed supplied by the environment; it is never `uuid.Nil`.
* The database and the queue are explicit state (`State`).  Every store or queue call can
  fail: the environment of an operation (`Env`) carries, for each call the operation makes,
  either `none` (the call goes through) or `some e` (the call returns the error `e` and
  changes nothing).
* A usecase operation returns its Go result together with the state it leaves behind, so
  that what a failed operation leaves in the store can be stated.
-/

namespace Wallet

/-! ## Identifiers and errors -/

/-- A `uuid.UUID`. -/
abbrev UUID := Nat

/-- The zero identifier `uuid.Nil`. -/
def uuidNil : UUID := 0

/-- The identifier produced by `uuid.New()` from the randomness `seed`; never `uuid.Nil`. -/
def uuidNew (seed : Nat) : UUID := seed + 1

/-- An identifier in its textual form, as carried by a task payload: either text that
`uuid.Parse` accepts, standing for an identifier, or text that it rejects. -/
inductive IDText where
  | wellFormed (id : UUID)
  | malformed
  deriving DecidableEq, Repr

/-- Go `error` values that occur in the ledger code. -/
inductive Err where
  /-- The value `errors.New(msg)`. -/
  | text (msg : String)
  /-- The value `gorm.ErrRecordNotFound`, returned by `First` when no row matches. -/
  | recordNotFound
  /-- A primary-key violation reported by the database on insert. -/
  | duplicatedKey
  /-- Any other failure reported by the database or the queue backend. -/
  | backend (code : Nat)
  /-- The error of `uuid.Parse` on malformed text. -/
  | invalidUUID
  /-- The `*json.UnsupportedValueError` of `json.Marshal` on the number printed as `value`. -/
  | unsupportedValue (value : String)
  /-- The value `fmt.Errorf(msg + ": %w", cause)`. -/
  | wrap (msg : String) (cause : Err)
  deriving DecidableEq, Repr

deriving instance DecidableEq for Except

/-- The method `UUID.String`. -/
def uuidString (id : UUID) : IDText := IDText.wellFormed id

/-- The function `uuid.Parse`. -/
def uuidParse : IDText → Except Err UUID
  | IDText.wellFormed id => Except.ok id
  | IDText.malformed => Except.error Err.invalidUUID

/-! ## Amounts (`float64`) -/

/-- A Go `float64` (IEEE 754 binary64).  Every finite `float64` is an integer multiple of
`2^-1074`: `finite n` is the number `n · 2^-1074`, and `finite 0` is `+0`.  The finite
`float64` values are the `finite n` whose `n` has at most 53 significant bits and
magnitude below `2^2098`; the operations below produce such values from such values.  All
NaNs are one value. -/
inductive F64 where
  | finite (n : Int)
  | negZero
  | posInf
  | negInf
  | nan
  deriving DecidableEq, Repr

/-- The integer that stands for `1.0`: `2^1074`. -/
def F64.unitsPerOne : Nat := 1 <<< 1074

/-- The integer that stands for `2^1024`, the least magnitude that overflows: `2^2098`. -/
def F64.overflowBound : Nat := 1 <<< 2098

/-- Binary search, over the `i` low bits of the answer, for the largest `k` with
`2^(52 + k) ≤ m`. -/
def dropBitsFrom : Nat → Nat → Nat → Nat
  | 0, k, _ => k
  | i + 1, k, m =>
    if 1 <<< (52 + k + (1 <<< i)) ≤ m then dropBitsFrom i (k + (1 <<< i)) m
    else dropBitsFrom i k m

/-- The number of low bits that do not fit in a 53-bit significand: for
`2^52 ≤ m < 2^2100`, the `k` with `2^(52 + k) ≤ m < 2^(53 + k)`. -/
def dropBits (m : Nat) : Nat := dropBitsFrom 11 0 m

/-- Rounding of a magnitude to 53 significant bits, to nearest, ties to the even
significand. -/
def roundNat (m : Nat) : Nat :=
  if m < 1 <<< 53 then m
  else
    let k := dropBits m
    let q := m >>> k
    let r := m - (q <<< k)
    let q2 := if 1 <<< (k - 1) < r ∨ (r = 1 <<< (k - 1) ∧ q % 2 = 1) then q + 1 else q
    q2 <<< k

/-- The `float64` nearest to the exact number `n · 2^-1074` (ties to even); an infinity
when the rounded magnitude reaches `2^1024`. -/
def F64.round (n : Int) : F64 :=
  if F64.overflowBound ≤ n.natAbs ∨ F64.overflowBound ≤ roundNat n.natAbs then
    (if n < 0 then F64.negInf else F64.posInf)
  else F64.finite (if n < 0 then -(roundNat n.natAbs : Int) else (roundNat n.natAbs : Int))

/-- The operator `+` on `float64`. -/
def F64.add : F64 → F64 → F64
  | nan, _ => nan
  | _, nan => nan
  | posInf, negInf => nan
  | negInf, posInf => nan
  | posInf, _ => posInf
  | _, posInf => posInf
  | negInf, _ => negInf
  | _, negInf => negInf
  | negZero, negZero => negZero
  | negZero, finite n => finite n
  | finite n, negZero => finite n
  | finite a, finite b => F64.round (a + b)

/-- The unary operator `-` on `float64`. -/
def F64.neg : F64 → F64
  | finite n => if n = 0 then negZero else finite (-n)
  | negZero => finite 0
  | posInf => negInf
  | negInf => posInf
  | nan => nan

/-- The operator `-` on `float64`: `x - y` is `x + (-y)`. -/
def F64.sub (x y : F64) : F64 := F64.add x (F64.neg y)

/-- The place of a number on the extended line: `none` for NaN, otherwise `-1`, `0` or `1`
for minus infinity, a finite number, plus infinity, and the finite number itself (both
zeros are `0`). -/
def F64.rank : F64 → Option (Int × Int)
  | finite n => some (0, n)
  | negZero => some (0, 0)
  | posInf => some (1, 0)
  | negInf => some (-1, 0)
  | nan => none

/-- The operator `<` on `float64`; false when an operand is NaN. -/
def F64.lt (x y : F64) : Bool :=
  match x.rank, y.rank with
  | some a, some b => decide (a.1 < b.1 ∨ (a.1 = b.1 ∧ a.2 < b.2))
  | _, _ => false

/-- The operator `<=` on `float64`; false when an operand is NaN. -/
def F64.le (x y : F64) : Bool :=
  match x.rank, y.rank with
  | some a, some b => decide (a.1 < b.1 ∨ (a.1 = b.1 ∧ a.2 ≤ b.2))
  | _, _ => false

/-- The conversion `float64(k)` of a natural number. -/
def F64.ofNat (k : Nat) : F64 := F64.round ((k * F64.unitsPerOne : Nat) : Int)

/-- Neither an infinity nor NaN. -/
def F64.isFinite : F64 → Bool
  | finite _ => true
  | negZero => true
  | _ => false

instance : Add F64 := ⟨F64.add⟩

instance : Neg F64 := ⟨F64.neg⟩

instance : Sub F64 := ⟨F64.sub⟩

instance : LT F64 := ⟨fun x y => F64.lt x y = true⟩

instance : LE F64 := ⟨fun x y => F64.le x y = true⟩

instance (x y : F64) : Decidable (x < y) := inferInstanceAs (Decidable (F64.lt x y = true))

instance (x y : F64) : Decidable (x ≤ y) := inferInstanceAs (Decidable (F64.le x y = true))

instance (k : Nat) : OfNat F64 k := ⟨F64.ofNat k⟩

/-- The largest finite `float64`, `math.MaxFloat64`: `(2^53 - 1) · 2^971`. -/
def F64.maxFloat64 : F64 := F64.finite ((((1 <<< 53) - 1) <<< 2045 : Nat) : Int)

/-- The error of `json.Marshal` on a `float64`: none for a finite number. -/
def jsonMarshalErr : F64 → Option Err
  | F64.nan => some (Err.unsupportedValue "NaN")
  | F64.posInf => some (Err.unsupportedValue "+Inf")
  | F64.negInf => some (Err.unsupportedValue "-Inf")
  | _ => none

/-! ## Domain (`internal/domain`) -/

/-- The type `domain.TransactionType`. -/
inductive TransactionType where
  | Credit
  | Debit
  deriving DecidableEq, Repr

/-- The type `domain.TransactionStatus`. -/
inductive TransactionStatus where
  | Success
  | Failed
  | Pending
  deriving DecidableEq, Repr

/-- The struct `domain.Transaction`.  Its field `Type` is called `TxType` here, `Type`
being a reserved word. -/
structure Transaction where
  ID : UUID
  UserID : UUID
  TxType : TransactionType
  Status : TransactionStatus
  Amount : F64
  Remarks : String := ""
  BalanceBefore : F64 := 0
  BalanceAfter : F64 := 0
  ReferenceID : UUID := uuidNil
  ReferenceType : String := ""
  TargetUserID : Option UUID := none
  CreatedAt : Nat
  UpdatedAt : Nat
  deriving DecidableEq, Repr

/-- The struct `domain.User`. -/
structure User where
  ID : UUID
  FirstName : String := ""
  LastName : String := ""
  PhoneNumber : String := ""
  Address : String := ""
  Pin : String := ""
  Balance : F64 := 0
  CreatedAt : Nat := 0
  UpdatedAt : Nat := 0
  deriving DecidableEq, Repr

/-- The struct `queue.TransferPayload`. -/
structure TransferPayload where
  TransactionID : IDText
  FromUserID : IDText
  ToUserID : IDText
  Amount : F64
  deriving DecidableEq, Repr

/-! ## Stores and queue -/

/-- The `users` table, the `transactions` table and the tasks waiting in the queue (oldest
first). -/
structure State where
  users : List User := []
  transactions : List Transaction := []
  queue : List TransferPayload := []
  deriving DecidableEq, Repr

/-- What the outside world contributes to one usecase call: randomness for `uuid.New()`,
clock readings for `time.Now()`, and the outcome of each store or queue call.  A fault
field is `none` when the call goes through and `some e` when it returns `e`. -/
structure Env where
  /-- Randomness of the `uuid.New()` in the usecase. -/
  idSeed : Nat := 0
  /-- Randomness of the `uuid.New()` in `transactionRepository.Create`. -/
  repoIdSeed : Nat := 0
  /-- The reading of `time.Now()` stored in `CreatedAt`. -/
  createdAt : Nat := 0
  /-- The reading of `time.Now()` stored in `UpdatedAt`. -/
  updatedAt : Nat := 0
  /-- Fault of `userRepo.GetByID`. -/
  userGetErr : Option Err := none
  /-- Fault of `transactionRepo.GetByID`. -/
  txGetErr : Option Err := none
  /-- Fault of `transactionRepo.Create`. -/
  txCreateErr : Option Err := none
  /-- Fault of `transactionRepo.Update`. -/
  txUpdateErr : Option Err := none
  /-- Fault of the first `userRepo.UpdateBalance` of the call. -/
  balanceWriteErr : Option Err := none
  /-- Fault of the second `userRepo.UpdateBalance` of the call (the recipient's, in
  `ProcessTransfer`). -/
  balanceWrite2Err : Option Err := none
  /-- Fault of `client.Enqueue`. -/
  enqueueErr : Option Err := none
  /-- The clock reading stamped on `updated_at` by the first `userRepo.UpdateBalance`. -/
  balanceWriteAt : Nat := 0
  /-- The clock reading stamped on `updated_at` by the second `userRepo.UpdateBalance`. -/
  balanceWrite2At : Nat := 0
  /-- The clock reading stamped on `updated_at` by `transactionRepo.Update`. -/
  txUpdateAt : Nat := 0
  deriving DecidableEq, Repr

/-- The first user row with the given id. -/
def findUser (s : State) (id : UUID) : Option User :=
  s.users.find? (fun u => decide (u.ID = id))

/-- The first transaction row with the given id. -/
def findTx (s : State) (id : UUID) : Option Transaction :=
  s.transactions.find? (fun t => decide (t.ID = id))

/-- The stored balance of an account, if the account exists. -/
def balanceOf (s : State) (id : UUID) : Option F64 :=
  (findUser s id).map (fun u => u.Balance)

/-- The stored status of a ledger entry, if the entry exists. -/
def statusOf (s : State) (id : UUID) : Option TransactionStatus :=
  (findTx s id).map (fun t => t.Status)

/-- The method `userRepository.GetByID`: `First` on `id = ?`. -/
def userGetByID (fault : Option Err) (s : State) (id : UUID) : Except Err User :=
  match fault with
  | some e => Except.error e
  | none =>
    match findUser s id with
    | some u => Except.ok u
    | none => Except.error Err.recordNotFound

/-- The effect of `UPDATE users SET balance = amount, updated_at = now WHERE id = userID`
on one row. -/
def setBalance (userID : UUID) (amount : F64) (now : Nat) (u : User) : User :=
  if u.ID = userID then { u with Balance := amount, UpdatedAt := now } else u

/-- The method `userRepository.UpdateBalance`: sets the `balance` column of the rows with
`id = ?` to `amount`; the ORM stamps `updated_at` with `now` in the same statement.
Matching no row is not an error. -/
def userUpdateBalance (fault : Option Err) (now : Nat) (s : State) (userID : UUID)
    (amount : F64) : Except Err State :=
  match fault with
  | some e => Except.error e
  | none => Except.ok { s with users := s.users.map (setBalance userID amount now) }

/-- The method `transactionRepository.Create`: gives the entry a new id when it has none,
then inserts it.  The id is the primary key, so inserting an id that is already stored
fails.  Returns the entry as the caller sees it afterwards (the entry is passed by
pointer) and the new state. -/
def txCreate (fault : Option Err) (repoIdSeed : Nat) (s : State) (tx : Transaction) :
    Except Err (Transaction × State) :=
  let tx := if tx.ID = uuidNil then { tx with ID := uuidNew repoIdSeed } else tx
  match fault with
  | some e => Except.error e
  | none =>
    match findTx s tx.ID with
    | some _ => Except.error Err.duplicatedKey
    | none => Except.ok (tx, { s with transactions := s.transactions ++ [tx] })

/-- The method `transactionRepository.GetByID`: `First` on `id = ?`. -/
def txGetByID (fault : Option Err) (s : State) (id : UUID) : Except Err Transaction :=
  match fault with
  | some e => Except.error e
  | none =>
    match findTx s id with
    | some t => Except.ok t
    | none => Except.error Err.recordNotFound

/-- The effect on one row of writing every field of `tx` over the rows with its id. -/
def replaceTx (tx t : Transaction) : Transaction :=
  if t.ID = tx.ID then tx else t

/-- The method `transactionRepository.Update`: `Save`, which stamps `UpdatedAt` with
`now`, writes every field of the entry over the stored row with the same id, and inserts
the entry when there is no such row. -/
def txUpdate (fault : Option Err) (now : Nat) (s : State) (tx : Transaction) :
    Except Err State :=
  let tx := { tx with UpdatedAt := now }
  match fault with
  | some e => Except.error e
  | none =>
    match findTx s tx.ID with
    | some _ => Except.ok { s with transactions := s.transactions.map (replaceTx tx) }
    | none => Except.ok { s with transactions := s.transactions ++ [tx] }

/-- The method `transactionRepository.GetByUserID`: the entries of the account, newest
first by creation time. -/
def txGetByUserID (fault : Option Err) (s : State) (userID : UUID) :
    Except Err (List Transaction) :=
  match fault with
  | some e => Except.error e
  | none =>
    Except.ok
      ((s.transactions.filter (fun t => decide (t.UserID = userID))).insertionSort
        (fun a b => b.CreatedAt ≤ a.CreatedAt))

/-- The method `QueueService.EnqueueTransfer`: marshals the payload, which fails on an
amount that is NaN or infinite, hands it to the queue client, and wraps either error. -/
def EnqueueTransfer (fault : Option Err) (s : State) (payload : TransferPayload) :
    Except Err State :=
  match jsonMarshalErr payload.Amount with
  | some e => Except.error (Err.wrap "failed to marshal transfer payload" e)
  | none =>
    match fault with
    | some e => Except.error (Err.wrap "failed to enqueue transfer task" e)
    | none => Except.ok { s with queue := s.queue ++ [payload] }

/-! ## Usecase (`internal/usecase/transaction_usecase.go`) -/

/-- The method `TransactionUsecase.TopUp`. -/
def TopUp (env : Env) (s : State) (userID : UUID) (amount : F64) :
    Except Err Transaction × State :=
  match userGetByID env.userGetErr s userID with
  | Except.error e => (Except.error e, s)
  | Except.ok user =>
    let tx : Transaction :=
      { ID := uuidNew env.idSeed
        UserID := userID
        TxType := TransactionType.Credit
        Status := TransactionStatus.Success
        Amount := amount
        BalanceBefore := user.Balance
        BalanceAfter := user.Balance + amount
        CreatedAt := env.createdAt
        UpdatedAt := env.updatedAt }
    match txCreate env.txCreateErr env.repoIdSeed s tx with
    | Except.error e => (Except.error e, s)
    | Except.ok (tx, s1) =>
      match userUpdateBalance env.balanceWriteErr env.balanceWriteAt s1 userID
            tx.BalanceAfter with
      | Except.error e => (Except.error e, s1)
      | Except.ok s2 => (Except.ok tx, s2)

/-- The method `TransactionUsecase.Payment`. -/
def Payment (env : Env) (s : State) (userID : UUID) (amount : F64) (remarks : String) :
    Except Err Transaction × State :=
  match userGetByID env.userGetErr s userID with
  | Except.error e => (Except.error e, s)
  | Except.ok user =>
    if user.Balance < amount then
      (Except.error (Err.text "balance is not enough"), s)
    else
      let tx : Transaction :=
        { ID := uuidNew env.idSeed
          UserID := userID
          TxType := TransactionType.Debit
          Status := TransactionStatus.Success
          Amount := amount
          Remarks := remarks
          BalanceBefore := user.Balance
          BalanceAfter := user.Balance - amount
          CreatedAt := env.createdAt
          UpdatedAt := env.updatedAt }
      match txCreate env.txCreateErr env.repoIdSeed s tx with
      | Except.error e => (Except.error e, s)
      | Except.ok (tx, s1) =>
        match userUpdateBalance env.balanceWriteErr env.balanceWriteAt s1 userID
            tx.BalanceAfter with
        | Except.error e => (Except.error e, s1)
        | Except.ok s2 => (Except.ok tx, s2)

/-- The method `TransactionUsecase.Transfer`. -/
def Transfer (env : Env) (s : State) (fromUserID toUserID : UUID) (amount : F64)
    (remarks : String) : Except Err Transaction × State :=
  match userGetByID env.userGetErr s fromUserID with
  | Except.error e => (Except.error e, s)
  | Except.ok fromUser =>
    if fromUser.Balance < amount then
      (Except.error (Err.text "balance is not enough"), s)
    else
      let tx : Transaction :=
        { ID := uuidNew env.idSeed
          UserID := fromUserID
          TxType := TransactionType.Debit
          Status := TransactionStatus.Pending
          Amount := amount
          Remarks := remarks
          BalanceBefore := fromUser.Balance
          BalanceAfter := fromUser.Balance - amount
          TargetUserID := some toUserID
          CreatedAt := env.createdAt
          UpdatedAt := env.updatedAt }
      match txCreate env.txCreateErr env.repoIdSeed s tx with
      | Except.error e => (Except.error e, s)
      | Except.ok (tx, s1) =>
        match EnqueueTransfer env.enqueueErr s1
            { TransactionID := uuidString tx.ID
              FromUserID := uuidString fromUserID
              ToUserID := uuidString toUserID
              Amount := amount } with
        | Except.error e => (Except.error e, s1)
        | Except.ok s2 => (Except.ok tx, s2)

/-- The method `TransactionUsecase.GetTransactionsByUserID`. -/
def GetTransactionsByUserID (env : Env) (s : State) (userID : UUID) :
    Except Err (List Transaction) :=
  txGetByUserID env.txGetErr s userID

/-- The method `TransactionUsecase.ProcessTransfer`.  The result is the returned `error`
(`none` for `nil`) and the state left behind. -/
def ProcessTransfer (env : Env) (s : State) (transactionID fromUserID toUserID : IDText)
    (amount : F64) : Option Err × State :=
  match uuidParse transactionID with
  | Except.error e => (some e, s)
  | Except.ok txID =>
  match uuidParse fromUserID with
  | Except.error e => (some e, s)
  | Except.ok fromUID =>
  match uuidParse toUserID with
  | Except.error e => (some e, s)
  | Except.ok toUID =>
  match txGetByID env.txGetErr s txID with
  | Except.error e => (some e, s)
  | Except.ok tx =>
  match userUpdateBalance env.balanceWriteErr env.balanceWriteAt s fromUID tx.BalanceAfter with
  | Except.error e =>
    let tx := { tx with Status := TransactionStatus.Failed }
    match txUpdate env.txUpdateErr env.txUpdateAt s tx with
    | Except.error _ => (some e, s)
    | Except.ok s1 => (some e, s1)
  | Except.ok s1 =>
    let recipientTx : Transaction :=
      { ID := uuidNew env.idSeed
        UserID := toUID
        TxType := TransactionType.Credit
        Status := TransactionStatus.Success
        Amount := amount
        Remarks := tx.Remarks
        ReferenceID := tx.ID
        ReferenceType := "transfer"
        CreatedAt := env.createdAt
        UpdatedAt := env.updatedAt }
    match userGetByID env.userGetErr s1 toUID with
    | Except.error e => (some e, s1)
    | Except.ok toUser =>
      let recipientTx :=
        { recipientTx with
          BalanceBefore := toUser.Balance
          BalanceAfter := toUser.Balance + amount }
      match txCreate env.txCreateErr env.repoIdSeed s1 recipientTx with
      | Except.error e => (some e, s1)
      | Except.ok (recipientTx, s2) =>
        match userUpdateBalance env.balanceWrite2Err env.balanceWrite2At s2 toUID
            recipientTx.BalanceAfter with
        | Except.error e => (some e, s2)
        | Except.ok s3 =>
          let tx := { tx with Status := TransactionStatus.Success }
          match txUpdate env.txUpdateErr env.txUpdateAt s3 tx with
          | Except.error e => (some e, s3)
          | Except.ok s4 => (none, s4)

/-- The worker callback of `cmd/api/main.go`: settles a dequeued payload. -/
def processPayload (env : Env) (s : State) (p : TransferPayload) : Option Err × State :=
  ProcessTransfer env s p.TransactionID p.FromUserID p.ToUserID p.Amount

/-! ## A concrete scenario -/

/-- Two accounts: account `1` with balance 100 and account `2` with balance 50. -/
def demoState : State :=
  { users := [{ ID := 1, Balance := 100 }, { ID := 2, Balance := 50 }] }

/-- The first account of `demoState`. -/
def demoSender : User := { ID := 1, Balance := 100 }

/-- The second account of `demoState`. -/
def demoRecipient : User := { ID := 2, Balance := 50 }

/-- An environment without faults whose new entry gets the id `seed + 1`. -/
def demoEnv (seed : Nat) : Env := { idSeed := seed }

/-- The state after `Transfer` of 30 from account `1` to account `2` in `demoState`: the
PENDING debit entry has id `1`. -/
def demoPending : State := (Transfer (demoEnv 0) demoState 1 2 30 "rent").2

/-- The task enqueued by that transfer. -/
def demoTask : TransferPayload :=
  { TransactionID := uuidString 1, FromUserID := uuidString 1, ToUserID := uuidString 2
    Amount := 30 }

/-- The state after the task was settled once, every call going through. -/
def demoSettled : State := (processPayload (demoEnv 1) demoPending demoTask).2

/-- The state after a settlement attempt whose sender balance write failed. -/
def demoFailed : State :=
  (processPayload { idSeed := 1, balanceWriteErr := some (Err.backend 1) } demoPending
    demoTask).2

/-- Two accounts where neighbouring `float64` values are 2 apart: account `1` with
balance `2^53` and account `2` with balance `2^53 + 2`. -/
def demoLarge : State :=
  { users := [{ ID := 1, Balance := 9007199254740992 }, { ID := 2, Balance := 9007199254740994 }] }

/-- The state after `Transfer` of 30 from account `1` to itself in `demoState`. -/
def demoSelfPending : State := (Transfer (demoEnv 0) demoState 1 1 30 "self").2

/-- The task enqueued by that self-transfer. -/
def demoSelfTask : TransferPayload :=
  { TransactionID := uuidString 1, FromUserID := uuidString 1, ToUserID := uuidString 1
    Amount := 30 }

/-! ## Call sequences -/

/-- One call of the ledger service. -/
inductive Op where
  | topUp (userID : UUID) (amount : F64)
  | payment (userID : UUID) (amount : F64) (remarks : String)
  | transfer (fromUserID toUserID : UUID) (amount : F64) (remarks : String)
  | processTransfer (transactionID fromUserID toUserID : IDText) (amount : F64)
  deriving DecidableEq, Repr

/-- The state a call leaves behind, whatever it returns. -/
def step (env : Env) (s : State) : Op → State
  | Op.topUp userID amount => (TopUp env s userID amount).2
  | Op.payment userID amount remarks => (Payment env s userID amount remarks).2
  | Op.transfer fromUserID toUserID amount remarks =>
    (Transfer env s fromUserID toUserID amount remarks).2
  | Op.processTransfer transactionID fromUserID toUserID amount =>
    (ProcessTransfer env s transactionID fromUserID toUserID amount).2

/-- The state after a sequence of calls, each with its own environment, run one after the
other. -/
def run (s : State) : List (Env × Op) → State
  | [] => s
  | (env, op) :: rest => run (step env s op) rest

/-- Whether a call is a settlement. -/
def Op.isSettlement : Op → Bool
  | Op.processTransfer _ _ _ _ => true
  | _ => false

/-- Every entry stored in `s` is stored in `s2` with the same status or, when
`settling` holds, possibly with status SUCCESS or FAILED instead. -/
def StatusStep (settling : Bool) (s s2 : State) : Prop :=
  ∀ id st, statusOf s id = some st →
    statusOf s2 id = some st ∨
      (settling = true ∧
        (statusOf s2 id = some TransactionStatus.Success ∨
          statusOf s2 id = some TransactionStatus.Failed))

/-! ## Balance overwrites carried out by a call

The usecase operations again, each returning in addition the list of the balance
overwrites `(account, new balance)` it carried out: the `UpdateBalance` calls that
returned no error, in order.  Forgetting the list gives back the operation
(`TopUpTraced_fst`, `PaymentTraced_fst`, `ProcessTransferTraced_fst`). -/

/-- The method `TransactionUsecase.TopUp`, with the overwrites it carried out. -/
def TopUpTraced (env : Env) (s : State) (userID : UUID) (amount : F64) :
    (Except Err Transaction × State) × List (UUID × F64) :=
  match userGetByID env.userGetErr s userID with
  | Except.error e => ((Except.error e, s), [])
  | Except.ok user =>
    let tx : Transaction :=
      { ID := uuidNew env.idSeed
        UserID := userID
        TxType := TransactionType.Credit
        Status := TransactionStatus.Success
        Amount := amount
        BalanceBefore := user.Balance
        BalanceAfter := user.Balance + amount
        CreatedAt := env.createdAt
        UpdatedAt := env.updatedAt }
    match txCreate env.txCreateErr env.repoIdSeed s tx with
    | Except.error e => ((Except.error e, s), [])
    | Except.ok (tx, s1) =>
      match userUpdateBalance env.balanceWriteErr env.balanceWriteAt s1 userID
            tx.BalanceAfter with
      | Except.error e => ((Except.error e, s1), [])
      | Except.ok s2 => ((Except.ok tx, s2), [(userID, tx.BalanceAfter)])

/-- The method `TransactionUsecase.Payment`, with the overwrites it carried out. -/
def PaymentTraced (env : Env) (s : State) (userID : UUID) (amount : F64) (remarks : String) :
    (Except Err Transaction × State) × List (UUID × F64) :=
  match userGetByID env.userGetErr s userID with
  | Except.error e => ((Except.error e, s), [])
  | Except.ok user =>
    if user.Balance < amount then
      ((Except.error (Err.text "balance is not enough"), s), [])
    else
      let tx : Transaction :=
        { ID := uuidNew env.idSeed
          UserID := userID
          TxType := TransactionType.Debit
          Status := TransactionStatus.Success
          Amount := amount
          Remarks := remarks
          BalanceBefore := user.Balance
          BalanceAfter := user.Balance - amount
          CreatedAt := env.createdAt
          UpdatedAt := env.updatedAt }
      match txCreate env.txCreateErr env.repoIdSeed s tx with
      | Except.error e => ((Except.error e, s), [])
      | Except.ok (tx, s1) =>
        match userUpdateBalance env.balanceWriteErr env.balanceWriteAt s1 userID
            tx.BalanceAfter with
        | Except.error e => ((Except.error e, s1), [])
        | Except.ok s2 => ((Except.ok tx, s2), [(userID, tx.BalanceAfter)])

/-- The method `TransactionUsecase.ProcessTransfer`, with the overwrites it carried out. -/
def ProcessTransferTraced (env : Env) (s : State)
    (transactionID fromUserID toUserID : IDText) (amount : F64) :
    (Option Err × State) × List (UUID × F64) :=
  match uuidParse transactionID with
  | Except.error e => ((some e, s), [])
  | Except.ok txID =>
  match uuidParse fromUserID with
  | Except.error e => ((some e, s), [])
  | Except.ok fromUID =>
  match uuidParse toUserID with
  | Except.error e => ((some e, s), [])
  | Except.ok toUID =>
  match txGetByID env.txGetErr s txID with
  | Except.error e => ((some e, s), [])
  | Except.ok tx =>
  match userUpdateBalance env.balanceWriteErr env.balanceWriteAt s fromUID tx.BalanceAfter with
  | Except.error e =>
    let tx := { tx with Status := TransactionStatus.Failed }
    match txUpdate env.txUpdateErr env.txUpdateAt s tx with
    | Except.error _ => ((some e, s), [])
    | Except.ok s1 => ((some e, s1), [])
  | Except.ok s1 =>
    let recipientTx : Transaction :=
      { ID := uuidNew env.idSeed
        UserID := toUID
        TxType := TransactionType.Credit
        Status := TransactionStatus.Success
        Amount := amount
        Remarks := tx.Remarks
        ReferenceID := tx.ID
        ReferenceType := "transfer"
        CreatedAt := env.createdAt
        UpdatedAt := env.updatedAt }
    match userGetByID env.userGetErr s1 toUID with
    | Except.error e => ((some e, s1), [(fromUID, tx.BalanceAfter)])
    | Except.ok toUser =>
      let recipientTx :=
        { recipientTx with
          BalanceBefore := toUser.Balance
          BalanceAfter := toUser.Balance + amount }
      match txCreate env.txCreateErr env.repoIdSeed s1 recipientTx with
      | Except.error e => ((some e, s1), [(fromUID, tx.BalanceAfter)])
      | Except.ok (recipientTx, s2) =>
        match userUpdateBalance env.balanceWrite2Err env.balanceWrite2At s2 toUID
            recipientTx.BalanceAfter with
        | Except.error e => ((some e, s2), [(fromUID, tx.BalanceAfter)])
        | Except.ok s3 =>
          let tx := { tx with Status := TransactionStatus.Success }
          match txUpdate env.txUpdateErr env.txUpdateAt s3 tx with
          | Except.error e =>
            ((some e, s3), [(fromUID, tx.BalanceAfter), (toUID, recipientTx.BalanceAfter)])
          | Except.ok s4 =>
            ((none, s4), [(fromUID, tx.BalanceAfter), (toUID, recipientTx.BalanceAfter)])

/-- The balance overwrites one call carries out (`Transfer` makes none). -/
def stepWrites (env : Env) (s : State) : Op → List (UUID × F64)
  | Op.topUp userID amount => (TopUpTraced env s userID amount).2
  | Op.payment userID amount remarks => (PaymentTraced env s userID amount remarks).2
  | Op.transfer _ _ _ _ => []
  | Op.processTransfer transactionID fromUserID toUserID amount =>
    (ProcessTransferTraced env s transactionID fromUserID toUserID amount).2

/-- The balance overwrites carried out by a sequence of calls, in order. -/
def runWrites (s : State) : List (Env × Op) → List (UUID × F64)
  | [] => []
  | (env, op) :: rest => stepWrites env s op ++ runWrites (step env s op) rest

/-- The balance write that follows the insert of a SUCCESS entry goes through: the write
of `TopUp` and of `Payment`, and the recipient's write of `ProcessTransfer`. -/
def entryWriteOk (env : Env) : Op → Bool
  | Op.topUp _ _ => env.balanceWriteErr.isNone
  | Op.payment _ _ _ => env.balanceWriteErr.isNone
  | Op.transfer _ _ _ _ => true
  | Op.processTransfer _ _ _ _ => env.balanceWrite2Err.isNone

/-- A settlement task names as sender the account of the entry it names (when that entry
is stored); the tasks enqueued by `Transfer` are of this kind. -/
def senderAddressed (s : State) : Op → Bool
  | Op.processTransfer transactionID fromUserID _ _ =>
    match uuidParse transactionID, uuidParse fromUserID with
    | Except.ok txID, Except.ok fromUID =>
      match findTx s txID with
      | some tx => decide (tx.UserID = fromUID)
      | none => true
    | _, _ => true
  | _ => true

/-- Every call of the sequence, in the state it is made in, satisfies `entryWriteOk` and
`senderAddressed`. -/
def writesFollowEntries (s : State) : List (Env × Op) → Bool
  | [] => true
  | (env, op) :: rest =>
    entryWriteOk env op && senderAddressed s op && writesFollowEntries (step env s op) rest

/-- Every stored entry with status SUCCESS has its overwrite in `log`: the balance of the
entry's account was overwritten with the entry's `BalanceAfter`. -/
def SuccessApplied (log : List (UUID × F64)) (s : State) : Prop :=
  ∀ t ∈ s.transactions, t.Status = TransactionStatus.Success → (t.UserID, t.BalanceAfter) ∈ log

/-! ## Non-negative balances -/

/-- The amount argument of a call. -/
def Op.amount : Op → F64
  | Op.topUp _ amount => amount
  | Op.payment _ amount _ => amount
  | Op.transfer _ _ amount _ => amount
  | Op.processTransfer _ _ _ amount => amount

/-- The amount of a `Payment` or of a `Transfer` is not an infinity or NaN; no condition
on the other calls. -/
def Op.debitFinite : Op → Bool
  | Op.payment _ amount _ => amount.isFinite
  | Op.transfer _ _ amount _ => amount.isFinite
  | _ => true

/-- Every stored balance and the `BalanceAfter` of every stored entry is at least zero. -/
def NonNegative (s : State) : Prop :=
  (∀ u ∈ s.users, 0 ≤ u.Balance) ∧ (∀ t ∈ s.transactions, 0 ≤ t.BalanceAfter)

/-! ## HTTP adapter (`internal/delivery/http/handler.go`)

A request is taken after JSON decoding: the amount as a number, the remarks as a string
and the target user as identifier text.  The authenticated user id comes from the
request context. -/

/-- What a handler answers. -/
inductive Reply where
  /-- Status 400 with the error of `ShouldBindJSON`: a binding rule is violated. -/
  | bindingError
  /-- Status 400 with "invalid target user ID". -/
  | invalidTarget
  /-- Status `code` with the text of the error returned by the usecase. -/
  | failed (code : Nat) (e : Err)
  /-- Status 200 with the entry as result. -/
  | success (tx : Transaction)
  deriving DecidableEq, Repr

/-- The binding rule `required,gt=0` of the `Amount` field of `TopUpRequest`,
`PaymentRequest` and `TransferRequest`. -/
def bindAmount (amount : F64) : Bool := decide (0 < amount)

/-- The binding rule `required` of a string field. -/
def bindRequired (text : String) : Bool := decide (text ≠ "")

/-- The method `Handler.TopUp`. -/
def Handler.TopUp (env : Env) (s : State) (userID : UUID) (amount : F64) : Reply × State :=
  if bindAmount amount = false then (Reply.bindingError, s)
  else
    match Wallet.TopUp env s userID amount with
    | (Except.error e, s1) => (Reply.failed 500 e, s1)
    | (Except.ok tx, s1) => (Reply.success tx, s1)

/-- The method `Handler.Payment`. -/
def Handler.Payment (env : Env) (s : State) (userID : UUID) (amount : F64)
    (remarks : String) : Reply × State :=
  if bindAmount amount = false ∨ bindRequired remarks = false then (Reply.bindingError, s)
  else
    match Wallet.Payment env s userID amount remarks with
    | (Except.error e, s1) => (Reply.failed 400 e, s1)
    | (Except.ok tx, s1) => (Reply.success tx, s1)

/-- The method `Handler.Transfer`.  The target user is `none` when the field is the empty
string, which violates `required`, and otherwise the text handed to `uuid.Parse`. -/
def Handler.Transfer (env : Env) (s : State) (userID : UUID) (targetUser : Option IDText)
    (amount : F64) (remarks : String) : Reply × State :=
  match targetUser with
  | none => (Reply.bindingError, s)
  | some targetText =>
  if bindAmount amount = false ∨ bindRequired remarks = false then (Reply.bindingError, s)
  else
    match uuidParse targetText with
    | Except.error _ => (Reply.invalidTarget, s)
    | Except.ok targetUserID =>
      match Wallet.Transfer env s userID targetUserID amount remarks with
      | (Except.error e, s1) => (Reply.failed 400 e, s1)
      | (Except.ok tx, s1) => (Reply.success tx, s1)

/-! ## User usecase (`internal/usecase/user_usecase.go`, `pkg/auth/jwt.go`) -/

/-- What the outside world contributes to one call of the user usecase: randomness,
clock readings, the outcome of each store call, and the outcomes of the `bcrypt` and
token-signing library calls. -/
structure UserEnv where
  /-- Randomness of the `uuid.New()` in the usecase. -/
  idSeed : Nat := 0
  /-- Randomness of the `uuid.New()` in `userRepository.Create`. -/
  repoIdSeed : Nat := 0
  /-- The reading of `time.Now()` stored in `CreatedAt`. -/
  createdAt : Nat := 0
  /-- The reading of `time.Now()` stored in `UpdatedAt`. -/
  updatedAt : Nat := 0
  /-- Fault of `userRepo.GetByPhoneNumber`. -/
  phoneGetErr : Option Err := none
  /-- Fault of `userRepo.Create`. -/
  userCreateErr : Option Err := none
  /-- The function `bcrypt.GenerateFromPassword` at the default cost: the hash of a PIN,
  or an error. -/
  generateFromPassword : String → Except Err String
  /-- The function `bcrypt.CompareHashAndPassword`: `none` when the hash (first argument)
  is a hash of the PIN (second argument), an error otherwise. -/
  compareHashAndPassword : String → String → Option Err
  /-- The outcome of `SignedString` for the access token. -/
  signAccess : Except Err String
  /-- The outcome of `SignedString` for the refresh token. -/
  signRefresh : Except Err String

/-- The method `userRepository.GetByPhoneNumber`: `First` on `phone_number = ?`. -/
def userGetByPhoneNumber (fault : Option Err) (s : State) (phoneNumber : String) :
    Except Err User :=
  match fault with
  | some e => Except.error e
  | none =>
    match s.users.find? (fun u => decide (u.PhoneNumber = phoneNumber)) with
    | some u => Except.ok u
    | none => Except.error Err.recordNotFound

/-- The method `userRepository.Create`: gives the user a new id when it has none, then
inserts it.  The id is the primary key and the phone number is unique, so inserting a
stored id or a stored phone number fails. -/
def userCreate (fault : Option Err) (repoIdSeed : Nat) (s : State) (user : User) :
    Except Err (User × State) :=
  let user := if user.ID = uuidNil then { user with ID := uuidNew repoIdSeed } else user
  match fault with
  | some e => Except.error e
  | none =>
    if (s.users.any (fun u => decide (u.ID = user.ID ∨ u.PhoneNumber = user.PhoneNumber))) = true
    then Except.error Err.duplicatedKey
    else Except.ok (user, { s with users := s.users ++ [user] })

/-- The method `UserUsecase.Register`.  The repository returns a user exactly when it
returns no error, so the test `err == nil && existingUser != nil` is the `ok` case. -/
def Register (env : UserEnv) (s : State)
    (firstName lastName phoneNumber address pin : String) : Except Err User × State :=
  match userGetByPhoneNumber env.phoneGetErr s phoneNumber with
  | Except.ok _ => (Except.error (Err.text "phone number already registered"), s)
  | Except.error _ =>
    match env.generateFromPassword pin with
    | Except.error e => (Except.error e, s)
    | Except.ok hashedPin =>
      let user : User :=
        { ID := uuidNew env.idSeed
          FirstName := firstName
          LastName := lastName
          PhoneNumber := phoneNumber
          Address := address
          Pin := hashedPin
          Balance := 0
          CreatedAt := env.createdAt
          UpdatedAt := env.updatedAt }
      match userCreate env.userCreateErr env.repoIdSeed s user with
      | Except.error e => (Except.error e, s)
      | Except.ok (user, s1) => (Except.ok user, s1)

/-- A call of a method of the user repository. -/
inductive UserRepoCall where
  | GetByPhoneNumber (phoneNumber : String)
  | Create (user : User)
  deriving DecidableEq, Repr

/-- The method `UserUsecase.Register`, with the calls it makes on the user repository, in
order.  Forgetting the calls gives back `Register` (`RegisterTraced_fst`). -/
def RegisterTraced (env : UserEnv) (s : State)
    (firstName lastName phoneNumber address pin : String) :
    (Except Err User × State) × List UserRepoCall :=
  match userGetByPhoneNumber env.phoneGetErr s phoneNumber with
  | Except.ok _ =>
    ((Except.error (Err.text "phone number already registered"), s),
      [UserRepoCall.GetByPhoneNumber phoneNumber])
  | Except.error _ =>
    match env.generateFromPassword pin with
    | Except.error e => ((Except.error e, s), [UserRepoCall.GetByPhoneNumber phoneNumber])
    | Except.ok hashedPin =>
      let user : User :=
        { ID := uuidNew env.idSeed
          FirstName := firstName
          LastName := lastName
          PhoneNumber := phoneNumber
          Address := address
          Pin := hashedPin
          Balance := 0
          CreatedAt := env.createdAt
          UpdatedAt := env.updatedAt }
      match userCreate env.userCreateErr env.repoIdSeed s user with
      | Except.error e =>
        ((Except.error e, s),
          [UserRepoCall.GetByPhoneNumber phoneNumber, UserRepoCall.Create user])
      | Except.ok (user2, s1) =>
        ((Except.ok user2, s1),
          [UserRepoCall.GetByPhoneNumber phoneNumber, UserRepoCall.Create user])

/-- The method `JWTService.GenerateToken`: access token, refresh token, error. -/
def GenerateToken (env : UserEnv) (_userID : UUID) : String × String × Option Err :=
  match env.signAccess with
  | Except.error e => ("", "", some e)
  | Except.ok accessToken =>
    match env.signRefresh with
    | Except.error e => ("", "", some e)
    | Except.ok refreshToken => (accessToken, refreshToken, none)

/-- The method `UserUsecase.Login`: access token, refresh token, error. -/
def Login (env : UserEnv) (s : State) (phoneNumber pin : String) :
    String × String × Option Err :=
  match userGetByPhoneNumber env.phoneGetErr s phoneNumber with
  | Except.error _ => ("", "", some (Err.text "phone number and PIN don't match"))
  | Except.ok user =>
    match env.compareHashAndPassword user.Pin pin with
    | some _ => ("", "", some (Err.text "phone number and PIN don't match"))
    | none =>
      match GenerateToken env user.ID with
      | (_, _, some e) => ("", "", some e)
      | (accessToken, refreshToken, none) => (accessToken, refreshToken, none)

/-- A user environment with a toy hash: the hash of a PIN is the PIN behind the marker
`h:`, and the tokens are fixed strings. -/
def demoUserEnv : UserEnv :=
  { generateFromPassword := fun pin => Except.ok ("h:" ++ pin)
    compareHashAndPassword := fun hash pin =>
      if hash = "h:" ++ pin then none else some (Err.text "hashedPassword is not the hash")
    signAccess := Except.ok "access"
    signRefresh := Except.ok "refresh" }

/-- A users table with one registered phone number, whose PIN is `123456`. -/
def demoUsers : State :=
  { users := [{ ID := 7, FirstName := "Existing", LastName := "User"
                PhoneNumber := "1234567890", Pin := "h:123456" }] }

/-! ## Arithmetic of `float64` -/

theorem dropBitsFrom_lower (i k m : Nat) (h1 : 2 ^ (52 + k) ≤ m) :
    2 ^ (52 + dropBitsFrom i k m) ≤ m := by
  induction i generalizing k with
  | zero => exact h1
  | succ i ih =>
    unfold dropBitsFrom
    split
    · next h =>
      apply ih
      rw [Nat.one_shiftLeft, Nat.one_shiftLeft] at h
      rw [Nat.one_shiftLeft, ← Nat.add_assoc]
      exact h
    · exact ih k h1

theorem dropBitsFrom_upper (i k m : Nat) (h2 : m < 2 ^ (52 + k + 2 ^ i)) :
    m < 2 ^ (53 + dropBitsFrom i k m) := by
  induction i generalizing k with
  | zero =>
    have : 52 + k + 2 ^ 0 = 53 + k := by omega
    rw [this] at h2
    exact h2
  | succ i ih =>
    unfold dropBitsFrom
    split
    · apply ih
      rw [Nat.one_shiftLeft]
      have : 52 + (k + 2 ^ i) + 2 ^ i = 52 + k + 2 ^ (i + 1) := by
        rw [Nat.pow_succ]
        omega
      rw [this]
      exact h2
    · next h =>
      apply ih
      rw [Nat.one_shiftLeft, Nat.one_shiftLeft] at h
      exact Nat.lt_of_not_le h

/-- The binary search finds the position of the leading bit: for `2^52 ≤ m < 2^2100` the
`53` leading bits of `m` are `m` shifted right by `dropBits m`. -/
theorem dropBits_spec (m : Nat) (h1 : 2 ^ (52 + 0) ≤ m) (h2 : m < 2 ^ (52 + 0 + 2 ^ 11)) :
    2 ^ (52 + dropBits m) ≤ m ∧ m < 2 ^ (53 + dropBits m) :=
  ⟨dropBitsFrom_lower 11 0 m h1, dropBitsFrom_upper 11 0 m h2⟩

/-- Rounding leaves a magnitude with at most 53 significant bits as it is. -/
theorem roundNat_exact (m q j : Nat) (hm : m = q * 2 ^ j) (hq : q < 2 ^ 53) :
    roundNat m = m := by
  unfold roundNat
  split
  · rfl
  · next hbig =>
    rw [Nat.one_shiftLeft] at hbig
    have hbig : 2 ^ 53 ≤ m := Nat.le_of_not_lt hbig
    have h52 : 2 ^ (52 + 0) ≤ m :=
      le_trans (Nat.pow_le_pow_right (by norm_num) (by norm_num)) hbig
    have hlow : 2 ^ (52 + dropBits m) ≤ m := dropBitsFrom_lower 11 0 m h52
    have hup : m < 2 ^ (53 + j) := by
      rw [hm, Nat.pow_add]
      exact Nat.mul_lt_mul_of_pos_right hq (Nat.two_pow_pos _)
    have hkj : dropBits m ≤ j := by
      have := lt_of_le_of_lt hlow hup
      have := (Nat.pow_lt_pow_iff_right (by norm_num : 1 < 2)).mp this
      omega
    have hdvd : 2 ^ dropBits m ∣ m := by
      have h : 2 ^ dropBits m ∣ q * 2 ^ j := Dvd.dvd.mul_left (Nat.pow_dvd_pow 2 hkj) q
      rw [← hm] at h
      exact h
    have hr : m - (m >>> dropBits m) <<< dropBits m = 0 := by
      rw [Nat.shiftRight_eq_div_pow, Nat.shiftLeft_eq, Nat.div_mul_cancel hdvd]
      exact Nat.sub_self m
    have hpos : 0 < 1 <<< (dropBits m - 1) := by
      rw [Nat.one_shiftLeft]
      exact Nat.two_pow_pos _
    simp only [hr]
    have hc : ¬ (1 <<< (dropBits m - 1) < 0 ∨
        (0 = 1 <<< (dropBits m - 1) ∧ (m >>> dropBits m) % 2 = 1)) := by
      intro h
      rcases h with h | ⟨h, _⟩
      · exact Nat.not_lt_zero _ h
      · rw [← h] at hpos
        exact Nat.lt_irrefl 0 hpos
    rw [if_neg hc, Nat.shiftRight_eq_div_pow, Nat.shiftLeft_eq, Nat.div_mul_cancel hdvd]

/-- Rounding a magnitude with more than 53 bits gives a multiple of `2^k`, for `k` the
number of bits dropped, that is at most half of `2^k` away from the magnitude: a nearest
number with 53 significant bits. -/
theorem roundNat_nearest (m : Nat) (h1 : 2 ^ 53 ≤ m) (h2 : m < 2 ^ (52 + 0 + 2 ^ 11)) :
    (∃ q, roundNat m = q * 2 ^ dropBits m ∧ 2 ^ 52 ≤ q ∧ q ≤ 2 ^ 53) ∧
      roundNat m ≤ m + 2 ^ (dropBits m - 1) ∧ m ≤ roundNat m + 2 ^ (dropBits m - 1) := by
  have h52 : 2 ^ (52 + 0) ≤ m :=
    le_trans (Nat.pow_le_pow_right (by norm_num) (by norm_num)) h1
  obtain ⟨hlow, hup⟩ := dropBits_spec m h52 h2
  have hk : 0 < dropBits m := by
    have := lt_of_le_of_lt h1 hup
    have := (Nat.pow_lt_pow_iff_right (by norm_num : 1 < 2)).mp this
    omega
  have hP : 2 ^ dropBits m = 2 * 2 ^ (dropBits m - 1) := by
    rw [← Nat.pow_succ']
    congr 1
    omega
  have hPpos : 0 < 2 ^ dropBits m := Nat.two_pow_pos _
  have hdiv : m / 2 ^ dropBits m * 2 ^ dropBits m + m % 2 ^ dropBits m = m :=
    Nat.div_add_mod' m _
  have hmod : m % 2 ^ dropBits m < 2 ^ dropBits m := Nat.mod_lt _ hPpos
  have hqlow : 2 ^ 52 ≤ m / 2 ^ dropBits m := by
    rw [Nat.le_div_iff_mul_le hPpos, ← Nat.pow_add]
    exact hlow
  have hqup : m / 2 ^ dropBits m < 2 ^ 53 := by
    rw [Nat.div_lt_iff_lt_mul hPpos, ← Nat.pow_add]
    exact hup
  have hnot : ¬ m < 1 <<< 53 := by
    rw [Nat.one_shiftLeft]
    omega
  unfold roundNat
  rw [if_neg hnot]
  simp only [Nat.shiftRight_eq_div_pow, Nat.shiftLeft_eq, Nat.one_shiftLeft, Nat.one_mul]
  have hr : m - m / 2 ^ dropBits m * 2 ^ dropBits m = m % 2 ^ dropBits m := by omega
  rw [hr]
  split
  · next hc =>
    have hge : 2 ^ (dropBits m - 1) ≤ m % 2 ^ dropBits m := by
      rcases hc with hc | ⟨hc, _⟩ <;> omega
    refine ⟨⟨m / 2 ^ dropBits m + 1, rfl, by omega, by omega⟩, ?_, ?_⟩
    · rw [Nat.add_mul, Nat.one_mul]
      omega
    · rw [Nat.add_mul, Nat.one_mul]
      omega
  · next hc =>
    have hle : m % 2 ^ dropBits m ≤ 2 ^ (dropBits m - 1) := by
      by_contra hlt
      exact hc (Or.inl (by omega))
    exact ⟨⟨m / 2 ^ dropBits m, rfl, hqlow, by omega⟩, by omega, by omega⟩

/-- A sum of two finite numbers that is itself a `float64` (at most 53 significant bits,
below the overflow bound) is computed exactly. -/
theorem F64.add_exact (x y : Int) (q j : Nat) (hq : (x + y).natAbs = q * 2 ^ j)
    (hq53 : q < 2 ^ 53) (hb : (x + y).natAbs < F64.overflowBound) :
    F64.finite x + F64.finite y = F64.finite (x + y) := by
  show F64.round (x + y) = F64.finite (x + y)
  unfold F64.round
  rw [roundNat_exact _ q j hq hq53]
  have hno : ¬ (F64.overflowBound ≤ (x + y).natAbs ∨ F64.overflowBound ≤ (x + y).natAbs) := by
    omega
  rw [if_neg hno]
  congr 1
  split <;> omega

/-- A difference of two finite numbers that is itself a `float64` is computed exactly. -/
theorem F64.sub_exact (x y : Int) (q j : Nat)
    (hq : (x - y).natAbs = q * 2 ^ j) (hq53 : q < 2 ^ 53)
    (hb : (x - y).natAbs < F64.overflowBound) :
    F64.finite x - F64.finite y = F64.finite (x - y) := by
  show F64.add (F64.finite x) (F64.neg (F64.finite y)) = F64.finite (x - y)
  by_cases hy : y = 0
  · subst hy
    simp [F64.neg, F64.add]
  · simp only [F64.neg, hy, if_false]
    rw [Int.sub_eq_add_neg] at hq hb ⊢
    exact F64.add_exact x (-y) q j hq hq53 hb

theorem F64.zero_def : (0 : F64) = F64.finite 0 := by decide

theorem F64.zero_le_iff (x : F64) :
    (0 : F64) ≤ x ↔ (∃ n, 0 ≤ n ∧ x = F64.finite n) ∨ x = F64.negZero ∨ x = F64.posInf := by
  rw [F64.zero_def]
  show F64.le (F64.finite 0) x = true ↔ _
  cases x <;> simp [F64.le, F64.rank]

theorem F64.zero_lt_iff (x : F64) :
    (0 : F64) < x ↔ (∃ n, 0 < n ∧ x = F64.finite n) ∨ x = F64.posInf := by
  rw [F64.zero_def]
  show F64.lt (F64.finite 0) x = true ↔ _
  cases x <;> simp [F64.lt, F64.rank]

theorem F64.not_lt_of_le {a b : F64} (h : a ≤ b) : ¬ b < a := by
  intro h2
  have h : F64.le a b = true := h
  have h2 : F64.lt b a = true := h2
  cases a <;> cases b <;> simp [F64.le, F64.lt, F64.rank] at h h2 <;> omega

theorem F64.le_of_lt {a b : F64} (h : a < b) : a ≤ b := by
  have h : F64.lt a b = true := h
  show F64.le a b = true
  cases a <;> cases b <;> simp [F64.le, F64.lt, F64.rank] at h ⊢ <;> omega

theorem F64.round_nonneg (n : Int) (h : 0 ≤ n) : (0 : F64) ≤ F64.round n := by
  rw [F64.zero_le_iff]
  unfold F64.round
  have hn : ¬ n < 0 := by omega
  simp only [hn, if_false]
  split
  · exact Or.inr (Or.inr rfl)
  · exact Or.inl ⟨_, Int.natCast_nonneg _, rfl⟩

/-- A sum of two numbers that are at least zero is at least zero. -/
theorem F64.add_nonneg {b a : F64} (hb : (0 : F64) ≤ b) (ha : (0 : F64) ≤ a) :
    (0 : F64) ≤ b + a := by
  rw [F64.zero_le_iff] at hb ha
  show (0 : F64) ≤ F64.add b a
  rcases hb with ⟨n, hn, rfl⟩ | rfl | rfl <;> rcases ha with ⟨m, hm, rfl⟩ | rfl | rfl
  · exact F64.round_nonneg _ (by omega)
  · rw [F64.zero_le_iff]
    exact Or.inl ⟨n, hn, rfl⟩
  · rw [F64.zero_le_iff]
    exact Or.inr (Or.inr rfl)
  · rw [F64.zero_le_iff]
    exact Or.inl ⟨m, hm, rfl⟩
  · rw [F64.zero_le_iff]
    exact Or.inr (Or.inl rfl)
  · rw [F64.zero_le_iff]
    exact Or.inr (Or.inr rfl)
  · rw [F64.zero_le_iff]
    exact Or.inr (Or.inr rfl)
  · rw [F64.zero_le_iff]
    exact Or.inr (Or.inr rfl)
  · rw [F64.zero_le_iff]
    exact Or.inr (Or.inr rfl)

/-- A difference `b - a` that passes the guard `b < a` is at least zero when `b` is at
least zero and `a` is a finite number above zero. -/
theorem F64.sub_nonneg {b a : F64} (hb : (0 : F64) ≤ b) (hguard : ¬ b < a)
    (ha : (0 : F64) < a) (hfin : a.isFinite = true) : (0 : F64) ≤ b - a := by
  rw [F64.zero_le_iff] at hb
  rw [F64.zero_lt_iff] at ha
  show (0 : F64) ≤ F64.add b (F64.neg a)
  rcases ha with ⟨m, hm, rfl⟩ | rfl
  · have hm0 : ¬ m = 0 := by omega
    have hg : ¬ F64.lt b (F64.finite m) = true := hguard
    rcases hb with ⟨n, hn, rfl⟩ | rfl | rfl
    · simp [F64.lt, F64.rank] at hg
      simp only [F64.neg, hm0, if_false, F64.add]
      exact F64.round_nonneg _ (by omega)
    · simp [F64.lt, F64.rank] at hg
      omega
    · simp only [F64.neg, hm0, if_false, F64.add]
      rw [F64.zero_le_iff]
      exact Or.inr (Or.inr rfl)
  · simp [F64.isFinite] at hfin

/-! ## Store lemmas -/

theorem uuidNew_ne_nil (seed : Nat) : uuidNew seed ≠ uuidNil := by
  simp [uuidNew, uuidNil]

theorem setBalance_ID (userID : UUID) (amount : F64) (now : Nat) (u : User) :
    (setBalance userID amount now u).ID = u.ID := by
  unfold setBalance
  split <;> rfl

theorem setBalance_Balance (userID : UUID) (amount : F64) (now : Nat) (u : User) :
    (setBalance userID amount now u).Balance =
      if u.ID = userID then amount else u.Balance := by
  unfold setBalance
  split <;> rfl

theorem replaceTx_ID (tx t : Transaction) : (replaceTx tx t).ID = t.ID := by
  unfold replaceTx
  split
  · next h => exact h.symm
  · rfl

/-- Looking a row up by key in a table that was rewritten row by row without touching the
keys: the row found is the rewritten old row. -/
theorem find_map_key {α : Type} (k : α → UUID) (f : α → α) (hk : ∀ x, k (f x) = k x)
    (l : List α) (id : UUID) :
    (l.map f).find? (fun x => decide (k x = id)) =
      (l.find? (fun x => decide (k x = id))).map f := by
  rw [List.find?_map]
  have h : ((fun x => decide (k x = id)) ∘ f) = (fun x => decide (k x = id)) := by
    funext x
    simp [hk]
  rw [h]

/-- Looking a user up after a balance overwrite: the row found is the old row, with the
new balance when it is the overwritten account. -/
theorem find_setBalance (l : List User) (id userID : UUID) (amount : F64) (now : Nat) :
    (l.map (setBalance userID amount now)).find? (fun u => decide (u.ID = id)) =
      (l.find? (fun u => decide (u.ID = id))).map (setBalance userID amount now) :=
  find_map_key (fun u : User => u.ID) _ (setBalance_ID userID amount now) l id

/-- Looking an entry up after a row was appended. -/
theorem find_append_tx (l : List Transaction) (tx : Transaction) (id : UUID) :
    (l ++ [tx]).find? (fun t => decide (t.ID = id)) =
      ((l.find? (fun t => decide (t.ID = id))).or (if tx.ID = id then some tx else none)) := by
  rw [List.find?_append]
  by_cases h : tx.ID = id <;> simp [List.find?, h]

/-- Looking an entry up after the rows with the id of `tx` were overwritten by `tx`. -/
theorem find_replace_tx (l : List Transaction) (tx : Transaction) (id : UUID) :
    (l.map (replaceTx tx)).find? (fun t => decide (t.ID = id)) =
      (l.find? (fun t => decide (t.ID = id))).map (replaceTx tx) :=
  find_map_key (fun t : Transaction => t.ID) _ (replaceTx_ID tx) l id

/-- Overwriting the rows with the id of `tx` changes nothing in a table without that id. -/
theorem map_replace_fresh (l : List Transaction) (tx : Transaction)
    (h : l.find? (fun t => decide (t.ID = tx.ID)) = none) :
    l.map (replaceTx tx) = l := by
  rw [List.find?_eq_none] at h
  have h2 : ∀ t ∈ l, replaceTx tx t = id t := by
    intro t ht
    have := h t ht
    simp at this
    simp [replaceTx, this]
  rw [List.map_congr_left h2, List.map_id]

/-- The balances after a balance overwrite, read off any state whose users table is the
overwritten table. -/
theorem balanceOf_of_users (s s2 : State) (id userID : UUID) (amount : F64) {now : Nat}
    (h : s2.users = s.users.map (setBalance userID amount now)) :
    balanceOf s2 id =
      if id = userID then (balanceOf s id).map (fun _ => amount) else balanceOf s id := by
  unfold balanceOf findUser
  rw [h, find_setBalance]
  cases hf : s.users.find? (fun u => decide (u.ID = id)) with
  | none => simp
  | some u =>
    have hid : u.ID = id := by simpa using List.find?_some hf
    by_cases hu : id = userID
    · simp [setBalance_Balance, hid, hu]
    · simp [setBalance_Balance, hid, hu]

theorem findUser_mk (us : List User) (ts : List Transaction) (q : List TransferPayload)
    (id : UUID) :
    findUser { users := us, transactions := ts, queue := q } id =
      us.find? (fun u => decide (u.ID = id)) := rfl

theorem findTx_mk (us : List User) (ts : List Transaction) (q : List TransferPayload)
    (id : UUID) :
    findTx { users := us, transactions := ts, queue := q } id =
      ts.find? (fun t => decide (t.ID = id)) := rfl

theorem findTx_id {s : State} {id : UUID} {tx : Transaction} (h : findTx s id = some tx) :
    tx.ID = id := by
  simpa using List.find?_some h

theorem findUser_id {s : State} {id : UUID} {u : User} (h : findUser s id = some u) :
    u.ID = id := by
  simpa using List.find?_some h

/-! ## Synchronous operations -/

/-- C1, as stated, fails: the sum is a `float64` sum.  On account `1` of `demoLarge`, whose
balance is `2^53`, a `TopUp` of 1 with every call going through returns an entry whose
`BalanceAfter` is `2^53` again and stores `2^53`, not `2^53 + 1`. -/
theorem topUp_sum_is_rounded :
    balanceOf demoLarge 1 = some (F64.finite (9007199254740992 * F64.unitsPerOne)) ∧
      (1 : F64) = F64.finite (1 * F64.unitsPerOne) ∧
      (TopUp (demoEnv 0) demoLarge 1 1).1 =
        Except.ok
          { ID := 1, UserID := 1, TxType := TransactionType.Credit
            Status := TransactionStatus.Success, Amount := 1
            BalanceBefore := F64.finite (9007199254740992 * F64.unitsPerOne)
            BalanceAfter := F64.finite (9007199254740992 * F64.unitsPerOne)
            CreatedAt := 0, UpdatedAt := 0 } ∧
      balanceOf (TopUp (demoEnv 0) demoLarge 1 1).2 1 =
        some (F64.finite (9007199254740992 * F64.unitsPerOne)) ∧
      F64.finite (9007199254740992 * F64.unitsPerOne) ≠
        F64.finite (9007199254740992 * F64.unitsPerOne + 1 * F64.unitsPerOne) :=
  ⟨by decide, by decide, by decide, by decide, by decide⟩

/-- C1, amended.  On an existing account with stored balance `u.Balance`, when the lookup,
the entry insert (with an unused new id) and the balance write all go through, `TopUp`
returns a CREDIT entry with status SUCCESS, `BalanceBefore` the old balance and
`BalanceAfter` the `float64` sum of the old balance and the amount; that entry is stored,
and the account's stored balance is that sum.  The `float64` sum is the exact sum whenever
the exact sum is a `float64`. -/
theorem topUp_success (env : Env) (s : State) (userID : UUID) (a : F64) (u : User)
    (hget : env.userGetErr = none) (hu : findUser s userID = some u)
    (hcreate : env.txCreateErr = none) (hfresh : findTx s (uuidNew env.idSeed) = none)
    (hwrite : env.balanceWriteErr = none) :
    ∃ tx, (TopUp env s userID a).1 = Except.ok tx ∧
      tx.ID = uuidNew env.idSeed ∧ tx.UserID = userID ∧
      tx.TxType = TransactionType.Credit ∧ tx.Status = TransactionStatus.Success ∧
      tx.Amount = a ∧ tx.BalanceBefore = u.Balance ∧ tx.BalanceAfter = u.Balance + a ∧
      findTx (TopUp env s userID a).2 tx.ID = some tx ∧
      balanceOf (TopUp env s userID a).2 userID = some (u.Balance + a) ∧
      (∀ (x y : Int) (q j : Nat), u.Balance = F64.finite x → a = F64.finite y →
        (x + y).natAbs = q * 2 ^ j → q < 2 ^ 53 → (x + y).natAbs < F64.overflowBound →
        tx.BalanceAfter = F64.finite (x + y)) := by
  have hb : balanceOf s userID = some u.Balance := by simp [balanceOf, hu]
  simp only [TopUp, userGetByID, hget, hu, txCreate, hcreate, uuidNew_ne_nil, if_false, hfresh,
    userUpdateBalance, hwrite]
  refine ⟨_, rfl, rfl, rfl, rfl, rfl, rfl, rfl, rfl, ?_, ?_, ?_⟩
  · simp only [findTx] at hfresh ⊢
    rw [find_append_tx, hfresh]
    simp
  · rw [balanceOf_of_users s _ userID userID _ rfl]
    simp [hb]
  · intro x y q j hx hy hq hq53 hbound
    show u.Balance + a = F64.finite (x + y)
    rw [hx, hy]
    exact F64.add_exact x y q j hq hq53 hbound

/-- C2. On an existing account whose stored balance is below the amount, `Payment` fails
with the error "balance is not enough" and leaves the whole state (entries, balances,
queue) as it was. -/
theorem payment_insufficient (env : Env) (s : State) (userID : UUID) (a : F64)
    (remarks : String) (u : User)
    (hget : env.userGetErr = none) (hu : findUser s userID = some u)
    (hlt : u.Balance < a) :
    Payment env s userID a remarks = (Except.error (Err.text "balance is not enough"), s) := by
  simp [Payment, userGetByID, hget, hu, hlt]

/-- C3, as stated, fails: the difference is a `float64` difference.  On account `2` of
`demoLarge`, whose balance is `2^53 + 2`, a `Payment` of 1 with every call going through
returns an entry whose `BalanceAfter` is `2^53` and stores `2^53`, not `2^53 + 1`. -/
theorem payment_difference_is_rounded :
    balanceOf demoLarge 2 = some (F64.finite (9007199254740994 * F64.unitsPerOne)) ∧
      (1 : F64) = F64.finite (1 * F64.unitsPerOne) ∧
      (Payment (demoEnv 0) demoLarge 2 1 "fee").1 =
        Except.ok
          { ID := 1, UserID := 2, TxType := TransactionType.Debit
            Status := TransactionStatus.Success, Amount := 1, Remarks := "fee"
            BalanceBefore := F64.finite (9007199254740994 * F64.unitsPerOne)
            BalanceAfter := F64.finite (9007199254740992 * F64.unitsPerOne)
            CreatedAt := 0, UpdatedAt := 0 } ∧
      balanceOf (Payment (demoEnv 0) demoLarge 2 1 "fee").2 2 =
        some (F64.finite (9007199254740992 * F64.unitsPerOne)) ∧
      F64.finite (9007199254740992 * F64.unitsPerOne) ≠
        F64.finite (9007199254740994 * F64.unitsPerOne - 1 * F64.unitsPerOne) :=
  ⟨by decide, by decide, by decide, by decide, by decide⟩

/-- C3, amended.  On an existing account whose stored balance is at least the amount
(equality included), when the lookup, the entry insert (with an unused new id) and the
balance write all go through, `Payment` returns a DEBIT entry with status SUCCESS,
`BalanceBefore` the old balance and `BalanceAfter` the `float64` difference of the old
balance and the amount; that entry is stored, and the account's stored balance is that
difference.  The `float64` difference is the exact difference whenever the exact
difference is a `float64`. -/
theorem payment_success (env : Env) (s : State) (userID : UUID) (a : F64)
    (remarks : String) (u : User)
    (hget : env.userGetErr = none) (hu : findUser s userID = some u)
    (hle : a ≤ u.Balance)
    (hcreate : env.txCreateErr = none) (hfresh : findTx s (uuidNew env.idSeed) = none)
    (hwrite : env.balanceWriteErr = none) :
    ∃ tx, (Payment env s userID a remarks).1 = Except.ok tx ∧
      tx.ID = uuidNew env.idSeed ∧ tx.UserID = userID ∧
      tx.TxType = TransactionType.Debit ∧ tx.Status = TransactionStatus.Success ∧
      tx.Amount = a ∧ tx.BalanceBefore = u.Balance ∧ tx.BalanceAfter = u.Balance - a ∧
      findTx (Payment env s userID a remarks).2 tx.ID = some tx ∧
      balanceOf (Payment env s userID a remarks).2 userID = some (u.Balance - a) ∧
      (∀ (x y : Int) (q j : Nat), u.Balance = F64.finite x → a = F64.finite y →
        (x - y).natAbs = q * 2 ^ j → q < 2 ^ 53 → (x - y).natAbs < F64.overflowBound →
        tx.BalanceAfter = F64.finite (x - y)) := by
  have hb : balanceOf s userID = some u.Balance := by simp [balanceOf, hu]
  have hnlt : ¬ u.Balance < a := F64.not_lt_of_le hle
  simp only [Payment, userGetByID, hget, hu, hnlt, if_false, txCreate, hcreate, uuidNew_ne_nil,
    hfresh, userUpdateBalance, hwrite]
  refine ⟨_, rfl, rfl, rfl, rfl, rfl, rfl, rfl, rfl, ?_, ?_, ?_⟩
  · simp only [findTx] at hfresh ⊢
    rw [find_append_tx, hfresh]
    simp
  · rw [balanceOf_of_users s _ userID userID _ rfl]
    simp [hb]
  · intro x y q j hx hy hq hq53 hbound
    show u.Balance - a = F64.finite (x - y)
    rw [hx, hy]
    exact F64.sub_exact x y q j hq hq53 hbound

/-! ## Transfer initiation -/

theorem jsonMarshalErr_finite {a : F64} (h : a.isFinite = true) : jsonMarshalErr a = none := by
  cases a <;> simp [F64.isFinite] at h <;> rfl

theorem jsonMarshalErr_some {a : F64} {m : Err} (h : jsonMarshalErr a = some m) :
    a.isFinite = false := by
  cases a <;> simp [jsonMarshalErr] at h <;> rfl

/-- The result of `Transfer` when every call goes through. -/
theorem transfer_result (env : Env) (s : State) (fromUserID toUserID : UUID) (a : F64)
    (remarks : String) (u : User)
    (hget : env.userGetErr = none) (hu : findUser s fromUserID = some u)
    (hle : a ≤ u.Balance)
    (hcreate : env.txCreateErr = none) (hfresh : findTx s (uuidNew env.idSeed) = none)
    (hfin : a.isFinite = true) (henq : env.enqueueErr = none) :
    Transfer env s fromUserID toUserID a remarks =
      (Except.ok
          { ID := uuidNew env.idSeed
            UserID := fromUserID
            TxType := TransactionType.Debit
            Status := TransactionStatus.Pending
            Amount := a
            Remarks := remarks
            BalanceBefore := u.Balance
            BalanceAfter := u.Balance - a
            TargetUserID := some toUserID
            CreatedAt := env.createdAt
            UpdatedAt := env.updatedAt },
        { users := s.users
          transactions := s.transactions ++
            [{ ID := uuidNew env.idSeed
               UserID := fromUserID
               TxType := TransactionType.Debit
               Status := TransactionStatus.Pending
               Amount := a
               Remarks := remarks
               BalanceBefore := u.Balance
               BalanceAfter := u.Balance - a
               TargetUserID := some toUserID
               CreatedAt := env.createdAt
               UpdatedAt := env.updatedAt }]
          queue := s.queue ++
            [{ TransactionID := uuidString (uuidNew env.idSeed)
               FromUserID := uuidString fromUserID
               ToUserID := uuidString toUserID
               Amount := a }] }) := by
  have hnlt : ¬ u.Balance < a := F64.not_lt_of_le hle
  have hm : jsonMarshalErr a = none := jsonMarshalErr_finite hfin
  simp only [Transfer, userGetByID, hget, hu, hnlt, if_false, txCreate, hcreate, uuidNew_ne_nil,
    hfresh, EnqueueTransfer, hm, henq]

/-- C4, as stated, fails: the recorded difference is a `float64` difference.  On account
`2` of `demoLarge`, whose balance is `2^53 + 2`, a `Transfer` of 1 with every call going
through records `BalanceAfter` `2^53`, not `2^53 + 1`. -/
theorem transfer_difference_is_rounded :
    balanceOf demoLarge 2 = some (F64.finite (9007199254740994 * F64.unitsPerOne)) ∧
      (1 : F64) = F64.finite (1 * F64.unitsPerOne) ∧
      (Transfer (demoEnv 0) demoLarge 2 1 1 "fee").1 =
        Except.ok
          { ID := 1, UserID := 2, TxType := TransactionType.Debit
            Status := TransactionStatus.Pending, Amount := 1, Remarks := "fee"
            BalanceBefore := F64.finite (9007199254740994 * F64.unitsPerOne)
            BalanceAfter := F64.finite (9007199254740992 * F64.unitsPerOne)
            TargetUserID := some 1, CreatedAt := 0, UpdatedAt := 0 } ∧
      F64.finite (9007199254740992 * F64.unitsPerOne) ≠
        F64.finite (9007199254740994 * F64.unitsPerOne - 1 * F64.unitsPerOne) :=
  ⟨by decide, by decide, by decide, by decide⟩

/-- C4, amended.  On a sender whose stored balance is at least the amount, when the
lookup, the entry insert (with an unused new id) and the enqueue all go through (the
amount is finite, so the payload can be marshalled, and the queue client accepts it),
`Transfer` returns a DEBIT entry with status PENDING, `BalanceBefore` the sender's
balance, `BalanceAfter` the `float64` difference of that balance and the amount, and the
recipient as target; the entry is stored, one task carrying the entry id, sender,
recipient and amount is added to the queue, and the users table (hence every stored
balance) is unchanged.  The `float64` difference is the exact difference whenever the
exact difference is a `float64`. -/
theorem transfer_pending (env : Env) (s : State) (fromUserID toUserID : UUID) (a : F64)
    (remarks : String) (u : User)
    (hget : env.userGetErr = none) (hu : findUser s fromUserID = some u)
    (hle : a ≤ u.Balance)
    (hcreate : env.txCreateErr = none) (hfresh : findTx s (uuidNew env.idSeed) = none)
    (hfin : a.isFinite = true) (henq : env.enqueueErr = none) :
    ∃ tx, (Transfer env s fromUserID toUserID a remarks).1 = Except.ok tx ∧
      tx.ID = uuidNew env.idSeed ∧ tx.UserID = fromUserID ∧
      tx.TxType = TransactionType.Debit ∧ tx.Status = TransactionStatus.Pending ∧
      tx.Amount = a ∧ tx.BalanceBefore = u.Balance ∧ tx.BalanceAfter = u.Balance - a ∧
      tx.TargetUserID = some toUserID ∧
      findTx (Transfer env s fromUserID toUserID a remarks).2 tx.ID = some tx ∧
      (Transfer env s fromUserID toUserID a remarks).2.transactions = s.transactions ++ [tx] ∧
      (Transfer env s fromUserID toUserID a remarks).2.queue =
        s.queue ++ [{ TransactionID := uuidString tx.ID
                      FromUserID := uuidString fromUserID
                      ToUserID := uuidString toUserID
                      Amount := a }] ∧
      (Transfer env s fromUserID toUserID a remarks).2.users = s.users ∧
      (∀ (x y : Int) (q j : Nat), u.Balance = F64.finite x → a = F64.finite y →
        (x - y).natAbs = q * 2 ^ j → q < 2 ^ 53 → (x - y).natAbs < F64.overflowBound →
        tx.BalanceAfter = F64.finite (x - y)) := by
  rw [transfer_result env s fromUserID toUserID a remarks u hget hu hle hcreate hfresh hfin
    henq]
  refine ⟨_, rfl, rfl, rfl, rfl, rfl, rfl, rfl, rfl, rfl, ?_, rfl, rfl, rfl, ?_⟩
  · simp only [findTx] at hfresh ⊢
    rw [find_append_tx, hfresh]
    simp
  · intro x y q j hx hy hq hq53 hbound
    show u.Balance - a = F64.finite (x - y)
    rw [hx, hy]
    exact F64.sub_exact x y q j hq hq53 hbound

/-- C7. On a sender whose stored balance is at least the amount, when the lookup and the
entry insert go through but the enqueue fails (the queue client fails, or the amount is
not finite and the payload cannot be marshalled), `Transfer` returns an error and no
entry: for a finite amount and a queue client failing with `e`, the error "failed to
enqueue transfer task" wrapping `e`; for an amount that cannot be marshalled, the error
"failed to marshal transfer payload" wrapping the marshalling error.  The PENDING debit
entry it inserted stays stored with status PENDING and is listed by
`GetTransactionsByUserID` for the sender; nothing is enqueued and the users table (hence
every stored balance) is unchanged. -/
theorem transfer_enqueue_failure (env env2 : Env) (s : State) (fromUserID toUserID : UUID)
    (a : F64) (remarks : String) (u : User)
    (hget : env.userGetErr = none) (hu : findUser s fromUserID = some u)
    (hle : a ≤ u.Balance)
    (hcreate : env.txCreateErr = none) (hfresh : findTx s (uuidNew env.idSeed) = none)
    (hfail : env.enqueueErr ≠ none ∨ a.isFinite = false) (hlist : env2.txGetErr = none) :
    (∃ err, (Transfer env s fromUserID toUserID a remarks).1 = Except.error err ∧
        (∀ e, a.isFinite = true → env.enqueueErr = some e →
          err = Err.wrap "failed to enqueue transfer task" e) ∧
        (∀ m, jsonMarshalErr a = some m →
          err = Err.wrap "failed to marshal transfer payload" m)) ∧
      ∃ tx, tx.ID = uuidNew env.idSeed ∧ tx.UserID = fromUserID ∧
        tx.TxType = TransactionType.Debit ∧ tx.Status = TransactionStatus.Pending ∧
        tx.Amount = a ∧ tx.BalanceBefore = u.Balance ∧ tx.BalanceAfter = u.Balance - a ∧
        tx.TargetUserID = some toUserID ∧
        findTx (Transfer env s fromUserID toUserID a remarks).2 tx.ID = some tx ∧
        statusOf (Transfer env s fromUserID toUserID a remarks).2 tx.ID =
          some TransactionStatus.Pending ∧
        (∃ l, GetTransactionsByUserID env2 (Transfer env s fromUserID toUserID a remarks).2
            fromUserID = Except.ok l ∧ tx ∈ l) ∧
        (Transfer env s fromUserID toUserID a remarks).2.transactions = s.transactions ++ [tx] ∧
        (Transfer env s fromUserID toUserID a remarks).2.queue = s.queue ∧
        (Transfer env s fromUserID toUserID a remarks).2.users = s.users := by
  have hnlt : ¬ u.Balance < a := F64.not_lt_of_le hle
  have hT : ∃ err, Transfer env s fromUserID toUserID a remarks =
      (Except.error err,
        { users := s.users
          transactions := s.transactions ++
            [{ ID := uuidNew env.idSeed
               UserID := fromUserID
               TxType := TransactionType.Debit
               Status := TransactionStatus.Pending
               Amount := a
               Remarks := remarks
               BalanceBefore := u.Balance
               BalanceAfter := u.Balance - a
               TargetUserID := some toUserID
               CreatedAt := env.createdAt
               UpdatedAt := env.updatedAt }]
          queue := s.queue }) ∧
      (∀ e, a.isFinite = true → env.enqueueErr = some e →
        err = Err.wrap "failed to enqueue transfer task" e) ∧
      (∀ m, jsonMarshalErr a = some m →
        err = Err.wrap "failed to marshal transfer payload" m) := by
    cases hm : jsonMarshalErr a with
    | none =>
      have hfin : a.isFinite = true := by
        cases a <;> simp [jsonMarshalErr] at hm <;> rfl
      cases henq : env.enqueueErr with
      | none =>
        rcases hfail with h | h
        · exact absurd henq h
        · rw [hfin] at h
          exact Bool.noConfusion h
      | some e =>
        refine ⟨Err.wrap "failed to enqueue transfer task" e, ?_, ?_, ?_⟩
        · simp only [Transfer, userGetByID, hget, hu, hnlt, if_false, txCreate, hcreate,
            uuidNew_ne_nil, hfresh, EnqueueTransfer, hm, henq]
        · intro e2 _ h
          rw [Option.some.inj h]
        · intro m h
          exact Option.noConfusion h
    | some m0 =>
      refine ⟨Err.wrap "failed to marshal transfer payload" m0, ?_, ?_, ?_⟩
      · simp only [Transfer, userGetByID, hget, hu, hnlt, if_false, txCreate, hcreate,
          uuidNew_ne_nil, hfresh, EnqueueTransfer, hm]
      · intro e hfin _
        rw [jsonMarshalErr_some hm] at hfin
        exact Bool.noConfusion hfin
      · intro m h
        rw [Option.some.inj h]
  obtain ⟨err, hT, h1, h2⟩ := hT
  rw [hT]
  refine ⟨⟨err, rfl, h1, h2⟩,
    { ID := uuidNew env.idSeed
      UserID := fromUserID
      TxType := TransactionType.Debit
      Status := TransactionStatus.Pending
      Amount := a
      Remarks := remarks
      BalanceBefore := u.Balance
      BalanceAfter := u.Balance - a
      TargetUserID := some toUserID
      CreatedAt := env.createdAt
      UpdatedAt := env.updatedAt }, rfl, rfl, rfl, rfl, rfl, rfl, rfl, rfl, ?_⟩
  simp only [statusOf, findTx] at hfresh ⊢
  rw [find_append_tx, hfresh]
  simp only [GetTransactionsByUserID, txGetByUserID, hlist]
  refine ⟨by simp, by simp, ⟨_, rfl, ?_⟩, by simp⟩
  rw [(List.perm_insertionSort _ _).mem_iff]
  simp

/-! ## Transfer settlement -/

/-- The settlement with every store call going through, on a stored entry `tx` and an
existing recipient: the sender's balance is overwritten with `tx.BalanceAfter`, a SUCCESS
credit entry for the recipient is appended, the recipient's balance is overwritten with
the balance read after the sender's write plus the amount, and the entry is stored again
with status SUCCESS. -/
theorem processTransfer_all_ok (env : Env) (s : State) (txID fromUID toUID : UUID)
    (amount : F64) (tx : Transaction) (toUser : User)
    (hget : env.txGetErr = none) (htx : findTx s txID = some tx)
    (hw1 : env.balanceWriteErr = none)
    (huget : env.userGetErr = none) (hto : findUser s toUID = some toUser)
    (hcreate : env.txCreateErr = none) (hfresh : findTx s (uuidNew env.idSeed) = none)
    (hw2 : env.balanceWrite2Err = none) (hupd : env.txUpdateErr = none) :
    ProcessTransfer env s (IDText.wellFormed txID) (IDText.wellFormed fromUID)
        (IDText.wellFormed toUID) amount =
      (none,
        { users :=
            (s.users.map (setBalance fromUID tx.BalanceAfter env.balanceWriteAt)).map
              (setBalance toUID
                ((if toUID = fromUID then tx.BalanceAfter else toUser.Balance) + amount)
                env.balanceWrite2At)
          transactions :=
            s.transactions.map
              (replaceTx
                { tx with Status := TransactionStatus.Success, UpdatedAt := env.txUpdateAt }) ++
              [({ ID := uuidNew env.idSeed
                  UserID := toUID
                  TxType := TransactionType.Credit
                  Status := TransactionStatus.Success
                  Amount := amount
                  Remarks := tx.Remarks
                  BalanceBefore := if toUID = fromUID then tx.BalanceAfter else toUser.Balance
                  BalanceAfter := (if toUID = fromUID then tx.BalanceAfter else toUser.Balance)
                    + amount
                  ReferenceID := tx.ID
                  ReferenceType := "transfer"
                  CreatedAt := env.createdAt
                  UpdatedAt := env.updatedAt } : Transaction)]
          queue := s.queue }) := by
  have hid : tx.ID = txID := findTx_id htx
  have htoid : toUser.ID = toUID := findUser_id hto
  have hne : ¬ uuidNew env.idSeed = txID := by
    intro h
    rw [h, htx] at hfresh
    exact Option.noConfusion hfresh
  have hto1 : findUser
      { users := s.users.map (setBalance fromUID tx.BalanceAfter env.balanceWriteAt)
        transactions := s.transactions
        queue := s.queue } toUID =
      some (setBalance fromUID tx.BalanceAfter env.balanceWriteAt toUser) := by
    rw [findUser_mk, find_setBalance]
    simp only [findUser] at hto
    rw [hto]
    rfl
  have hbal : (setBalance fromUID tx.BalanceAfter env.balanceWriteAt toUser).Balance =
      if toUID = fromUID then tx.BalanceAfter else toUser.Balance := by
    rw [setBalance_Balance, htoid]
  simp only [ProcessTransfer, uuidParse, txGetByID, hget, htx, userUpdateBalance, hw1,
    userGetByID, huget, hto1, txCreate, hcreate, uuidNew_ne_nil, if_false, findTx_mk, hbal]
  simp only [findTx] at hfresh htx
  rw [hfresh]
  simp only [userUpdateBalance, hw2, txUpdate, hupd, findTx_mk]
  rw [find_append_tx, hid, htx]
  simp [replaceTx, hid, hne]

/-- What a settlement with every store call going through leaves behind, on a stored
entry `tx` (of any status) and an existing recipient. -/
theorem processTransfer_settles (env : Env) (s : State) (txID fromUID toUID : UUID)
    (amount : F64) (tx : Transaction) (toUser : User)
    (hget : env.txGetErr = none) (htx : findTx s txID = some tx)
    (hw1 : env.balanceWriteErr = none)
    (huget : env.userGetErr = none) (hto : findUser s toUID = some toUser)
    (hcreate : env.txCreateErr = none) (hfresh : findTx s (uuidNew env.idSeed) = none)
    (hw2 : env.balanceWrite2Err = none) (hupd : env.txUpdateErr = none) :
    (ProcessTransfer env s (IDText.wellFormed txID) (IDText.wellFormed fromUID)
        (IDText.wellFormed toUID) amount).1 = none ∧
      balanceOf (ProcessTransfer env s (IDText.wellFormed txID) (IDText.wellFormed fromUID)
        (IDText.wellFormed toUID) amount).2 toUID =
        some ((if toUID = fromUID then tx.BalanceAfter else toUser.Balance) + amount) ∧
      (fromUID ≠ toUID →
        balanceOf (ProcessTransfer env s (IDText.wellFormed txID) (IDText.wellFormed fromUID)
          (IDText.wellFormed toUID) amount).2 fromUID =
          (balanceOf s fromUID).map (fun _ => tx.BalanceAfter)) ∧
      (∀ id, id ≠ fromUID → id ≠ toUID →
        balanceOf (ProcessTransfer env s (IDText.wellFormed txID) (IDText.wellFormed fromUID)
          (IDText.wellFormed toUID) amount).2 id = balanceOf s id) ∧
      statusOf (ProcessTransfer env s (IDText.wellFormed txID) (IDText.wellFormed fromUID)
        (IDText.wellFormed toUID) amount).2 txID = some TransactionStatus.Success := by
  have hid : tx.ID = txID := findTx_id htx
  have hbto : balanceOf s toUID = some toUser.Balance := by simp [balanceOf, hto]
  rw [processTransfer_all_ok env s txID fromUID toUID amount tx toUser hget htx hw1 huget hto
    hcreate hfresh hw2 hupd]
  have hmid : ∀ id, balanceOf
      { users := s.users.map (setBalance fromUID tx.BalanceAfter env.balanceWriteAt)
        transactions := s.transactions
        queue := s.queue } id =
      if id = fromUID then (balanceOf s id).map (fun _ => tx.BalanceAfter)
      else balanceOf s id :=
    fun id => balanceOf_of_users s _ id fromUID tx.BalanceAfter rfl
  have hfin : ∀ (id : UUID) (r : F64) (ts : List Transaction), balanceOf
      { users :=
          (s.users.map (setBalance fromUID tx.BalanceAfter env.balanceWriteAt)).map
            (setBalance toUID r env.balanceWrite2At)
        transactions := ts
        queue := s.queue } id =
      if id = toUID then
        (balanceOf
          { users := s.users.map (setBalance fromUID tx.BalanceAfter env.balanceWriteAt)
            transactions := s.transactions
            queue := s.queue } id).map (fun _ => r)
      else
        balanceOf
          { users := s.users.map (setBalance fromUID tx.BalanceAfter env.balanceWriteAt)
            transactions := s.transactions
            queue := s.queue } id :=
    fun id r ts => balanceOf_of_users
      { users := s.users.map (setBalance fromUID tx.BalanceAfter env.balanceWriteAt)
        transactions := s.transactions
        queue := s.queue } _ id toUID r rfl
  refine ⟨rfl, ?_, ?_, ?_, ?_⟩
  · rw [hfin, hmid]
    by_cases hft : toUID = fromUID
    · simp [hft, hft ▸ hbto]
    · simp [hft, hbto]
  · intro hft
    rw [hfin, hmid]
    simp [hft]
  · intro id h1 h2
    rw [hfin, hmid]
    simp [h1, h2]
  · simp only [statusOf, findTx] at htx ⊢
    rw [List.find?_append, find_replace_tx, htx]
    simp [replaceTx, hid]

/-- C5, as stated, fails: the balances are `float64` results.  In `demoLarge`, a `Transfer`
of 1 from account `2` (balance `2^53 + 2`) to account `1` (balance `2^53`) and the
settlement of its task, every call going through, leave account `2` at `2^53`, not
`2^53 + 1`, and account `1` at `2^53`, not `2^53 + 1`. -/
theorem happy_path_balances_are_rounded :
    balanceOf demoLarge 2 = some (F64.finite (9007199254740994 * F64.unitsPerOne)) ∧
      balanceOf demoLarge 1 = some (F64.finite (9007199254740992 * F64.unitsPerOne)) ∧
      (1 : F64) = F64.finite (1 * F64.unitsPerOne) ∧
      (Transfer (demoEnv 0) demoLarge 2 1 1 "fee").2.queue =
        [{ TransactionID := uuidString 1, FromUserID := uuidString 2, ToUserID := uuidString 1
           Amount := 1 }] ∧
      (processPayload (demoEnv 1) (Transfer (demoEnv 0) demoLarge 2 1 1 "fee").2
        { TransactionID := uuidString 1, FromUserID := uuidString 2, ToUserID := uuidString 1
          Amount := 1 }).1 = none ∧
      balanceOf (processPayload (demoEnv 1) (Transfer (demoEnv 0) demoLarge 2 1 1 "fee").2
        { TransactionID := uuidString 1, FromUserID := uuidString 2, ToUserID := uuidString 1
          Amount := 1 }).2 2 = some (F64.finite (9007199254740992 * F64.unitsPerOne)) ∧
      balanceOf (processPayload (demoEnv 1) (Transfer (demoEnv 0) demoLarge 2 1 1 "fee").2
        { TransactionID := uuidString 1, FromUserID := uuidString 2, ToUserID := uuidString 1
          Amount := 1 }).2 1 = some (F64.finite (9007199254740992 * F64.unitsPerOne)) ∧
      F64.finite (9007199254740992 * F64.unitsPerOne) ≠
        F64.finite (9007199254740994 * F64.unitsPerOne - 1 * F64.unitsPerOne) ∧
      F64.finite (9007199254740992 * F64.unitsPerOne) ≠
        F64.finite (9007199254740992 * F64.unitsPerOne + 1 * F64.unitsPerOne) :=
  ⟨by decide, by decide, by decide, by decide, by decide, by decide, by decide, by decide,
    by decide⟩

/-- C5, amended.  Transfer happy path.  For distinct existing accounts `A` and `B` and a
finite amount not above `A`'s balance, `Transfer` followed by the settlement of the task
it enqueued, with every store and queue call going through and unused new ids, returns no
error and leaves `A` with the `float64` difference of its old balance and the amount, `B`
with the `float64` sum of its old balance and the amount, and the ledger extended by
exactly two entries: the debit entry, now with status SUCCESS and the update stamp of the
settlement, and one SUCCESS credit entry for `B` with the amount, `B`'s old and new
balance, and the debit entry's id as reference. -/
theorem transfer_then_settle (env1 env2 : Env) (s : State) (A B : UUID) (a : F64)
    (remarks : String) (uA uB : User)
    (hAB : A ≠ B) (hA : findUser s A = some uA) (hB : findUser s B = some uB)
    (hle : a ≤ uA.Balance)
    (h1get : env1.userGetErr = none) (h1create : env1.txCreateErr = none)
    (h1fresh : findTx s (uuidNew env1.idSeed) = none) (h1fin : a.isFinite = true)
    (h1enq : env1.enqueueErr = none)
    (h2get : env2.txGetErr = none) (h2w1 : env2.balanceWriteErr = none)
    (h2uget : env2.userGetErr = none) (h2create : env2.txCreateErr = none)
    (h2fresh : findTx s (uuidNew env2.idSeed) = none) (h2ne : env2.idSeed ≠ env1.idSeed)
    (h2w2 : env2.balanceWrite2Err = none) (h2upd : env2.txUpdateErr = none) :
    ∃ p debit credit,
      (Transfer env1 s A B a remarks).1 = Except.ok debit ∧
      (Transfer env1 s A B a remarks).2.queue = s.queue ++ [p] ∧
      p.TransactionID = uuidString debit.ID ∧
      (processPayload env2 (Transfer env1 s A B a remarks).2 p).1 = none ∧
      balanceOf (processPayload env2 (Transfer env1 s A B a remarks).2 p).2 A =
        some (uA.Balance - a) ∧
      balanceOf (processPayload env2 (Transfer env1 s A B a remarks).2 p).2 B =
        some (uB.Balance + a) ∧
      (processPayload env2 (Transfer env1 s A B a remarks).2 p).2.transactions =
        s.transactions ++
          [{ debit with Status := TransactionStatus.Success, UpdatedAt := env2.txUpdateAt },
            credit] ∧
      statusOf (processPayload env2 (Transfer env1 s A B a remarks).2 p).2 debit.ID =
        some TransactionStatus.Success ∧
      debit.Status = TransactionStatus.Pending ∧
      debit.BalanceBefore = uA.Balance ∧ debit.BalanceAfter = uA.Balance - a ∧
      credit.UserID = B ∧ credit.TxType = TransactionType.Credit ∧
      credit.Status = TransactionStatus.Success ∧ credit.Amount = a ∧
      credit.BalanceBefore = uB.Balance ∧ credit.BalanceAfter = uB.Balance + a ∧
      credit.ReferenceID = debit.ID := by
  have hBA : ¬ B = A := fun h => hAB h.symm
  have hbA : balanceOf s A = some uA.Balance := by simp [balanceOf, hA]
  have hT : Transfer env1 s A B a remarks =
      (Except.ok
          { ID := uuidNew env1.idSeed
            UserID := A
            TxType := TransactionType.Debit
            Status := TransactionStatus.Pending
            Amount := a
            Remarks := remarks
            BalanceBefore := uA.Balance
            BalanceAfter := uA.Balance - a
            TargetUserID := some B
            CreatedAt := env1.createdAt
            UpdatedAt := env1.updatedAt },
        { users := s.users
          transactions := s.transactions ++
            [{ ID := uuidNew env1.idSeed
               UserID := A
               TxType := TransactionType.Debit
               Status := TransactionStatus.Pending
               Amount := a
               Remarks := remarks
               BalanceBefore := uA.Balance
               BalanceAfter := uA.Balance - a
               TargetUserID := some B
               CreatedAt := env1.createdAt
               UpdatedAt := env1.updatedAt }]
          queue := s.queue ++
            [{ TransactionID := uuidString (uuidNew env1.idSeed)
               FromUserID := uuidString A
               ToUserID := uuidString B
               Amount := a }] }) :=
    transfer_result env1 s A B a remarks uA h1get hA hle h1create h1fresh h1fin h1enq
  have hseed : ¬ uuidNew env1.idSeed = uuidNew env2.idSeed := by
    intro h
    exact h2ne (Nat.succ.inj h).symm
  have h1fresh2 := h1fresh
  have h2fresh2 := h2fresh
  simp only [findTx] at h1fresh2 h2fresh2
  have htx1 : findTx (Transfer env1 s A B a remarks).2 (uuidNew env1.idSeed) =
      some
        { ID := uuidNew env1.idSeed
          UserID := A
          TxType := TransactionType.Debit
          Status := TransactionStatus.Pending
          Amount := a
          Remarks := remarks
          BalanceBefore := uA.Balance
          BalanceAfter := uA.Balance - a
          TargetUserID := some B
          CreatedAt := env1.createdAt
          UpdatedAt := env1.updatedAt } := by
    rw [hT, findTx_mk, find_append_tx, h1fresh2]
    simp
  have hto1 : findUser (Transfer env1 s A B a remarks).2 B = some uB := by
    rw [hT]
    exact hB
  have hfr1 : findTx (Transfer env1 s A B a remarks).2 (uuidNew env2.idSeed) = none := by
    rw [hT, findTx_mk, find_append_tx, h2fresh2]
    simp [hseed]
  have hbA1 : balanceOf (Transfer env1 s A B a remarks).2 A = some uA.Balance := by
    rw [hT]
    exact hbA
  have hP := processTransfer_all_ok env2 (Transfer env1 s A B a remarks).2
    (uuidNew env1.idSeed) A B a _ uB h2get htx1 h2w1 h2uget hto1 h2create hfr1 h2w2 h2upd
  have hS := processTransfer_settles env2 (Transfer env1 s A B a remarks).2
    (uuidNew env1.idSeed) A B a _ uB h2get htx1 h2w1 h2uget hto1 h2create hfr1 h2w2 h2upd
  obtain ⟨hS1, hS2, hS3, -, hS5⟩ := hS
  refine ⟨{ TransactionID := uuidString (uuidNew env1.idSeed)
            FromUserID := uuidString A
            ToUserID := uuidString B
            Amount := a },
    { ID := uuidNew env1.idSeed
      UserID := A
      TxType := TransactionType.Debit
      Status := TransactionStatus.Pending
      Amount := a
      Remarks := remarks
      BalanceBefore := uA.Balance
      BalanceAfter := uA.Balance - a
      TargetUserID := some B
      CreatedAt := env1.createdAt
      UpdatedAt := env1.updatedAt },
    { ID := uuidNew env2.idSeed
      UserID := B
      TxType := TransactionType.Credit
      Status := TransactionStatus.Success
      Amount := a
      Remarks := remarks
      BalanceBefore := uB.Balance
      BalanceAfter := uB.Balance + a
      ReferenceID := uuidNew env1.idSeed
      ReferenceType := "transfer"
      CreatedAt := env2.createdAt
      UpdatedAt := env2.updatedAt },
    by rw [hT], by rw [hT], rfl, hS1, ?_, ?_, ?_, hS5, rfl, rfl, rfl, rfl, rfl, rfl, rfl, rfl,
    rfl, rfl⟩
  · have := hS3 hAB
    rw [hbA1] at this
    exact this
  · simpa [hBA] using hS2
  · show (ProcessTransfer env2 (Transfer env1 s A B a remarks).2
      (IDText.wellFormed (uuidNew env1.idSeed)) (IDText.wellFormed A) (IDText.wellFormed B)
      a).2.transactions = _
    rw [hP, hT]
    simp only [List.map_append, List.map_cons, List.map_nil, hBA, if_false]
    rw [map_replace_fresh _ _ h1fresh2]
    simp [replaceTx]

/-- C6, as stated, fails.  In the scenario the debit entry `1` is already SUCCESS and the
recipient holds 80; delivering the task again returns success, raises the recipient to 110
and appends a second credit entry. -/
theorem processTransfer_redelivery_credits_again :
    statusOf demoSettled 1 = some TransactionStatus.Success ∧
      balanceOf demoSettled 2 = some 80 ∧
      (processPayload (demoEnv 2) demoSettled demoTask).1 = none ∧
      balanceOf (processPayload (demoEnv 2) demoSettled demoTask).2 2 = some 110 ∧
      (processPayload (demoEnv 2) demoSettled demoTask).2.transactions.length =
        demoSettled.transactions.length + 1 := by
  decide

/-- C6, amended.  `ProcessTransfer` does not look at the status of the debit entry.  On a
stored entry of any status (SUCCESS and FAILED included), with an existing recipient
different from the sender and every store call going through, it returns success and it
is not a no-op: the sender's balance is overwritten with the entry's `BalanceAfter`, the
recipient's stored balance is overwritten with the `float64` sum of its stored balance and
the amount, one more SUCCESS credit entry for the recipient, recording that sum, is
appended to the ledger, and the debit entry is stored with status SUCCESS and a new update
stamp. -/
theorem processTransfer_reapplies (env : Env) (s : State) (txID fromUID toUID : UUID)
    (amount : F64) (tx : Transaction) (toUser : User)
    (hget : env.txGetErr = none) (htx : findTx s txID = some tx)
    (hw1 : env.balanceWriteErr = none)
    (huget : env.userGetErr = none) (hto : findUser s toUID = some toUser)
    (hne : fromUID ≠ toUID)
    (hcreate : env.txCreateErr = none) (hfresh : findTx s (uuidNew env.idSeed) = none)
    (hw2 : env.balanceWrite2Err = none) (hupd : env.txUpdateErr = none) :
    (ProcessTransfer env s (IDText.wellFormed txID) (IDText.wellFormed fromUID)
        (IDText.wellFormed toUID) amount).1 = none ∧
      balanceOf (ProcessTransfer env s (IDText.wellFormed txID) (IDText.wellFormed fromUID)
        (IDText.wellFormed toUID) amount).2 toUID = some (toUser.Balance + amount) ∧
      balanceOf (ProcessTransfer env s (IDText.wellFormed txID) (IDText.wellFormed fromUID)
        (IDText.wellFormed toUID) amount).2 fromUID =
        (balanceOf s fromUID).map (fun _ => tx.BalanceAfter) ∧
      (ProcessTransfer env s (IDText.wellFormed txID) (IDText.wellFormed fromUID)
        (IDText.wellFormed toUID) amount).2.transactions =
        s.transactions.map
            (replaceTx
              { tx with Status := TransactionStatus.Success, UpdatedAt := env.txUpdateAt }) ++
          [({ ID := uuidNew env.idSeed
              UserID := toUID
              TxType := TransactionType.Credit
              Status := TransactionStatus.Success
              Amount := amount
              Remarks := tx.Remarks
              BalanceBefore := toUser.Balance
              BalanceAfter := toUser.Balance + amount
              ReferenceID := tx.ID
              ReferenceType := "transfer"
              CreatedAt := env.createdAt
              UpdatedAt := env.updatedAt } : Transaction)] ∧
      statusOf (ProcessTransfer env s (IDText.wellFormed txID) (IDText.wellFormed fromUID)
        (IDText.wellFormed toUID) amount).2 txID = some TransactionStatus.Success := by
  have hne2 : ¬ toUID = fromUID := fun h => hne h.symm
  obtain ⟨h1, h2, h3, -, h5⟩ := processTransfer_settles env s txID fromUID toUID amount tx
    toUser hget htx hw1 huget hto hcreate hfresh hw2 hupd
  refine ⟨h1, ?_, h3 hne, ?_, h5⟩
  · simpa [hne2] using h2
  · rw [processTransfer_all_ok env s txID fromUID toUID amount tx toUser hget htx hw1 huget hto
      hcreate hfresh hw2 hupd]
    simp [hne2]

/-- C8. When the entry named by the task is stored and the sender's balance write fails
with `e`, `ProcessTransfer` returns `e`; the users table (hence every balance) and the
queue are unchanged, no entry is added and no entry with another id is touched; when the
status update goes through the entry is stored with status FAILED (and the update stamp of
that write), and when the status update fails too the state is unchanged and the returned
error is still `e`. -/
theorem processTransfer_sender_write_failure (env : Env) (s : State)
    (txID fromUID toUID : UUID) (amount : F64) (tx : Transaction) (e : Err)
    (hget : env.txGetErr = none) (htx : findTx s txID = some tx)
    (hw1 : env.balanceWriteErr = some e) :
    (ProcessTransfer env s (IDText.wellFormed txID) (IDText.wellFormed fromUID)
        (IDText.wellFormed toUID) amount).1 = some e ∧
      (ProcessTransfer env s (IDText.wellFormed txID) (IDText.wellFormed fromUID)
        (IDText.wellFormed toUID) amount).2.users = s.users ∧
      (ProcessTransfer env s (IDText.wellFormed txID) (IDText.wellFormed fromUID)
        (IDText.wellFormed toUID) amount).2.queue = s.queue ∧
      (ProcessTransfer env s (IDText.wellFormed txID) (IDText.wellFormed fromUID)
        (IDText.wellFormed toUID) amount).2.transactions.length = s.transactions.length ∧
      (∀ id, id ≠ txID →
        findTx (ProcessTransfer env s (IDText.wellFormed txID) (IDText.wellFormed fromUID)
          (IDText.wellFormed toUID) amount).2 id = findTx s id) ∧
      (env.txUpdateErr = none →
        (ProcessTransfer env s (IDText.wellFormed txID) (IDText.wellFormed fromUID)
          (IDText.wellFormed toUID) amount).2.transactions =
          s.transactions.map
            (replaceTx
              { tx with Status := TransactionStatus.Failed, UpdatedAt := env.txUpdateAt }) ∧
        findTx (ProcessTransfer env s (IDText.wellFormed txID) (IDText.wellFormed fromUID)
          (IDText.wellFormed toUID) amount).2 txID =
          some { tx with Status := TransactionStatus.Failed, UpdatedAt := env.txUpdateAt } ∧
        statusOf (ProcessTransfer env s (IDText.wellFormed txID) (IDText.wellFormed fromUID)
          (IDText.wellFormed toUID) amount).2 txID = some TransactionStatus.Failed) ∧
      (env.txUpdateErr ≠ none →
        (ProcessTransfer env s (IDText.wellFormed txID) (IDText.wellFormed fromUID)
          (IDText.wellFormed toUID) amount).2 = s) := by
  have hid : tx.ID = txID := findTx_id htx
  cases hupd : env.txUpdateErr with
  | some e2 =>
    simp [ProcessTransfer, uuidParse, txGetByID, hget, htx, userUpdateBalance, hw1, txUpdate,
      hupd]
  | none =>
    have hP : ProcessTransfer env s (IDText.wellFormed txID) (IDText.wellFormed fromUID)
        (IDText.wellFormed toUID) amount =
        (some e,
          { users := s.users
            transactions :=
              s.transactions.map
                (replaceTx
                  { tx with Status := TransactionStatus.Failed, UpdatedAt := env.txUpdateAt })
            queue := s.queue }) := by
      simp [ProcessTransfer, uuidParse, txGetByID, hget, htx, userUpdateBalance, hw1, txUpdate,
        hupd, hid]
    rw [hP]
    simp only [findTx] at htx
    refine ⟨rfl, rfl, rfl, by simp, ?_, ?_, ?_⟩
    · intro id hne
      rw [findTx_mk, find_replace_tx]
      simp only [findTx]
      cases hf : s.transactions.find? (fun t => decide (t.ID = id)) with
      | none => rfl
      | some t =>
        have htid : t.ID = id := by simpa using List.find?_some hf
        have : ¬ t.ID = txID := fun h => hne (htid ▸ h)
        simp [replaceTx, hid, this]
    · intro _
      refine ⟨rfl, ?_, ?_⟩
      · rw [findTx_mk, find_replace_tx, htx]
        simp [replaceTx, hid]
      · rw [statusOf, findTx_mk, find_replace_tx, htx]
        simp [replaceTx, hid]
    · intro h
      exact absurd rfl h

/-- C9, as stated, fails.  First, when the failing step is the final status update the
recipient has already been credited: in the scenario the entry is PENDING, the recipient
holds 50, the settlement returns the update's error and the recipient holds 80.  Second,
when sender and recipient are the same account the recipient's balance is the debited
one: after a self-transfer of 30 on a balance of 100, a settlement whose recipient lookup
fails returns the error and leaves the account at 70. -/
theorem processTransfer_late_failure_credits :
    statusOf demoPending 1 = some TransactionStatus.Pending ∧
      balanceOf demoPending 2 = some 50 ∧
      (processPayload { idSeed := 1, txUpdateErr := some (Err.backend 7) } demoPending
        demoTask).1 = some (Err.backend 7) ∧
      balanceOf (processPayload { idSeed := 1, txUpdateErr := some (Err.backend 7) }
        demoPending demoTask).2 2 = some 80 ∧
      statusOf demoSelfPending 1 = some TransactionStatus.Pending ∧
      balanceOf demoSelfPending 1 = some 100 ∧
      (processPayload { idSeed := 1, userGetErr := some (Err.backend 7) } demoSelfPending
        demoSelfTask).1 = some (Err.backend 7) ∧
      balanceOf (processPayload { idSeed := 1, userGetErr := some (Err.backend 7) }
        demoSelfPending demoSelfTask).2 1 = some 70 := by
  decide

/-- The status of a stored entry read off a state whose ledger is the old ledger, or the
old ledger with one entry appended. -/
theorem statusOf_of_transactions (s s2 : State) (id : UUID) (tx c : Transaction)
    (htx : findTx s id = some tx)
    (h : s2.transactions = s.transactions ∨ s2.transactions = s.transactions ++ [c]) :
    statusOf s2 id = some tx.Status := by
  simp only [findTx] at htx
  unfold statusOf findTx
  rcases h with h | h
  · rw [h, htx]
    rfl
  · rw [h, find_append_tx, htx]
    rfl

/-- A settlement that gets past the sender's balance write and then fails at the recipient
lookup, the credit-entry insert or the recipient's balance write returns an error, and
leaves the users table with only the sender's overwrite and the ledger with at most the
credit entry appended. -/
theorem processTransfer_fails_before_credit (env : Env) (s : State)
    (txID fromUID toUID : UUID) (amount : F64) (tx : Transaction)
    (hget : env.txGetErr = none) (htx : findTx s txID = some tx)
    (hw1 : env.balanceWriteErr = none)
    (hfail : env.userGetErr ≠ none ∨ findUser s toUID = none ∨ env.txCreateErr ≠ none ∨
      findTx s (uuidNew env.idSeed) ≠ none ∨ env.balanceWrite2Err ≠ none) :
    ∃ e c,
      (ProcessTransfer env s (IDText.wellFormed txID) (IDText.wellFormed fromUID)
        (IDText.wellFormed toUID) amount).1 = some e ∧
      (ProcessTransfer env s (IDText.wellFormed txID) (IDText.wellFormed fromUID)
        (IDText.wellFormed toUID) amount).2.users =
        s.users.map (setBalance fromUID tx.BalanceAfter env.balanceWriteAt) ∧
      ((ProcessTransfer env s (IDText.wellFormed txID) (IDText.wellFormed fromUID)
          (IDText.wellFormed toUID) amount).2.transactions = s.transactions ∨
        (ProcessTransfer env s (IDText.wellFormed txID) (IDText.wellFormed fromUID)
          (IDText.wellFormed toUID) amount).2.transactions = s.transactions ++ [c]) := by
  have hfu1 : findUser
      { users := s.users.map (setBalance fromUID tx.BalanceAfter env.balanceWriteAt)
        transactions := s.transactions
        queue := s.queue } toUID =
      (findUser s toUID).map (setBalance fromUID tx.BalanceAfter env.balanceWriteAt) := by
    rw [findUser_mk, find_setBalance]
    rfl
  cases hug : env.userGetErr with
  | some e =>
    exact ⟨e, tx, by
      simp [ProcessTransfer, uuidParse, txGetByID, hget, htx, userUpdateBalance, hw1,
        userGetByID, hug]⟩
  | none =>
    cases hfu : findUser s toUID with
    | none =>
      rw [hfu] at hfu1
      exact ⟨Err.recordNotFound, tx, by
        simp [ProcessTransfer, uuidParse, txGetByID, hget, htx, userUpdateBalance, hw1,
          userGetByID, hug, hfu1]⟩
    | some toUser =>
      rw [hfu] at hfu1
      cases hc : env.txCreateErr with
      | some e =>
        exact ⟨e, tx, by
          simp [ProcessTransfer, uuidParse, txGetByID, hget, htx, userUpdateBalance, hw1,
            userGetByID, hug, hfu1, txCreate, hc]⟩
      | none =>
        cases hf : findTx s (uuidNew env.idSeed) with
        | some t =>
          have hf2 : findTx
              { users := s.users.map (setBalance fromUID tx.BalanceAfter env.balanceWriteAt)
                transactions := s.transactions
                queue := s.queue } (uuidNew env.idSeed) = some t := hf
          exact ⟨Err.duplicatedKey, tx, by
            simp [ProcessTransfer, uuidParse, txGetByID, hget, htx, userUpdateBalance, hw1,
              userGetByID, hug, hfu1, txCreate, hc, uuidNew_ne_nil, hf2]⟩
        | none =>
          have hf2 : findTx
              { users := s.users.map (setBalance fromUID tx.BalanceAfter env.balanceWriteAt)
                transactions := s.transactions
                queue := s.queue } (uuidNew env.idSeed) = none := hf
          cases hw2 : env.balanceWrite2Err with
          | some e =>
            exact ⟨e, _, by
              simp only [ProcessTransfer, uuidParse, txGetByID, hget, htx, userUpdateBalance,
                hw1, userGetByID, hug, hfu1, Option.map, txCreate, hc, uuidNew_ne_nil,
                if_false, hf2, hw2]
              exact ⟨trivial, trivial, Or.inr rfl⟩⟩
          | none =>
            rw [hug, hfu, hc, hf, hw2] at hfail
            simp at hfail

/-- A settlement in which every call goes through except the final status update: the
error of the update is returned, both balance overwrites and the credit entry are in
place, and the entry named by the task is not rewritten. -/
theorem processTransfer_fails_at_final_update (env : Env) (s : State)
    (txID fromUID toUID : UUID) (amount : F64) (tx : Transaction) (toUser : User) (e : Err)
    (hget : env.txGetErr = none) (htx : findTx s txID = some tx)
    (hw1 : env.balanceWriteErr = none)
    (huget : env.userGetErr = none) (hto : findUser s toUID = some toUser)
    (hcreate : env.txCreateErr = none) (hfresh : findTx s (uuidNew env.idSeed) = none)
    (hw2 : env.balanceWrite2Err = none) (hupd : env.txUpdateErr = some e) :
    ProcessTransfer env s (IDText.wellFormed txID) (IDText.wellFormed fromUID)
        (IDText.wellFormed toUID) amount =
      (some e,
        { users :=
            (s.users.map (setBalance fromUID tx.BalanceAfter env.balanceWriteAt)).map
              (setBalance toUID
                ((if toUID = fromUID then tx.BalanceAfter else toUser.Balance) + amount)
                env.balanceWrite2At)
          transactions :=
            s.transactions ++
              [({ ID := uuidNew env.idSeed
                  UserID := toUID
                  TxType := TransactionType.Credit
                  Status := TransactionStatus.Success
                  Amount := amount
                  Remarks := tx.Remarks
                  BalanceBefore := if toUID = fromUID then tx.BalanceAfter else toUser.Balance
                  BalanceAfter := (if toUID = fromUID then tx.BalanceAfter else toUser.Balance)
                    + amount
                  ReferenceID := tx.ID
                  ReferenceType := "transfer"
                  CreatedAt := env.createdAt
                  UpdatedAt := env.updatedAt } : Transaction)]
          queue := s.queue }) := by
  have htoid : toUser.ID = toUID := findUser_id hto
  have hto1 : findUser
      { users := s.users.map (setBalance fromUID tx.BalanceAfter env.balanceWriteAt)
        transactions := s.transactions
        queue := s.queue } toUID =
      some (setBalance fromUID tx.BalanceAfter env.balanceWriteAt toUser) := by
    rw [findUser_mk, find_setBalance]
    simp only [findUser] at hto
    rw [hto]
    rfl
  have hbal : (setBalance fromUID tx.BalanceAfter env.balanceWriteAt toUser).Balance =
      if toUID = fromUID then tx.BalanceAfter else toUser.Balance := by
    rw [setBalance_Balance, htoid]
  simp only [ProcessTransfer, uuidParse, txGetByID, hget, htx, userUpdateBalance, hw1,
    userGetByID, huget, hto1, txCreate, hcreate, uuidNew_ne_nil, if_false, findTx_mk, hbal]
  simp only [findTx] at hfresh
  rw [hfresh]
  simp only [userUpdateBalance, hw2, txUpdate, hupd]

/-- C9, amended.  Take a task whose debit entry is stored with status PENDING, whose
sender balance write goes through and whose recipient is not the sender.  If the
recipient lookup, the credit-entry insert or the recipient's balance write fails, then
`ProcessTransfer` returns an error, the sender's stored balance (when the sender exists)
is the entry's `BalanceAfter`, the recipient's stored balance is unchanged and the entry
is still PENDING.  If those go through and the final status update fails with `e`, then
`ProcessTransfer` returns `e`, the sender's stored balance is the entry's `BalanceAfter`
and the entry is still PENDING, but the recipient's stored balance has already been
overwritten with the `float64` sum of its old balance and the amount. -/
theorem processTransfer_failure_after_debit (env : Env) (s : State)
    (txID fromUID toUID : UUID) (amount : F64) (tx : Transaction)
    (hget : env.txGetErr = none) (htx : findTx s txID = some tx)
    (hpend : tx.Status = TransactionStatus.Pending)
    (hw1 : env.balanceWriteErr = none) (hne : fromUID ≠ toUID) :
    ((env.userGetErr ≠ none ∨ findUser s toUID = none ∨ env.txCreateErr ≠ none ∨
        findTx s (uuidNew env.idSeed) ≠ none ∨ env.balanceWrite2Err ≠ none) →
      (ProcessTransfer env s (IDText.wellFormed txID) (IDText.wellFormed fromUID)
        (IDText.wellFormed toUID) amount).1 ≠ none ∧
      balanceOf (ProcessTransfer env s (IDText.wellFormed txID) (IDText.wellFormed fromUID)
        (IDText.wellFormed toUID) amount).2 fromUID =
        (balanceOf s fromUID).map (fun _ => tx.BalanceAfter) ∧
      balanceOf (ProcessTransfer env s (IDText.wellFormed txID) (IDText.wellFormed fromUID)
        (IDText.wellFormed toUID) amount).2 toUID = balanceOf s toUID ∧
      statusOf (ProcessTransfer env s (IDText.wellFormed txID) (IDText.wellFormed fromUID)
        (IDText.wellFormed toUID) amount).2 txID = some TransactionStatus.Pending) ∧
    (∀ (toUser : User) (e : Err),
      env.userGetErr = none → findUser s toUID = some toUser → env.txCreateErr = none →
      findTx s (uuidNew env.idSeed) = none → env.balanceWrite2Err = none →
      env.txUpdateErr = some e →
      (ProcessTransfer env s (IDText.wellFormed txID) (IDText.wellFormed fromUID)
        (IDText.wellFormed toUID) amount).1 = some e ∧
      balanceOf (ProcessTransfer env s (IDText.wellFormed txID) (IDText.wellFormed fromUID)
        (IDText.wellFormed toUID) amount).2 fromUID =
        (balanceOf s fromUID).map (fun _ => tx.BalanceAfter) ∧
      balanceOf (ProcessTransfer env s (IDText.wellFormed txID) (IDText.wellFormed fromUID)
        (IDText.wellFormed toUID) amount).2 toUID = some (toUser.Balance + amount) ∧
      statusOf (ProcessTransfer env s (IDText.wellFormed txID) (IDText.wellFormed fromUID)
        (IDText.wellFormed toUID) amount).2 txID = some TransactionStatus.Pending) := by
  have hne2 : ¬ toUID = fromUID := fun h => hne h.symm
  constructor
  · intro hfail
    obtain ⟨e, c, h1, h2, h3⟩ := processTransfer_fails_before_credit env s txID fromUID toUID
      amount tx hget htx hw1 hfail
    refine ⟨by rw [h1]; simp, ?_, ?_, ?_⟩
    · rw [balanceOf_of_users s _ fromUID fromUID _ h2]
      simp
    · rw [balanceOf_of_users s _ toUID fromUID _ h2]
      simp [hne2]
    · rw [statusOf_of_transactions s _ txID tx c htx h3, hpend]
  · intro toUser e huget hto hcreate hfresh hw2 hupd
    have hbto : balanceOf s toUID = some toUser.Balance := by simp [balanceOf, hto]
    rw [processTransfer_fails_at_final_update env s txID fromUID toUID amount tx toUser e hget
      htx hw1 huget hto hcreate hfresh hw2 hupd]
    have hmid : ∀ id, balanceOf
        { users := s.users.map (setBalance fromUID tx.BalanceAfter env.balanceWriteAt)
          transactions := s.transactions
          queue := s.queue } id =
        if id = fromUID then (balanceOf s id).map (fun _ => tx.BalanceAfter)
        else balanceOf s id :=
      fun id => balanceOf_of_users s _ id fromUID tx.BalanceAfter rfl
    refine ⟨rfl, ?_, ?_, ?_⟩
    · rw [balanceOf_of_users
        { users := s.users.map (setBalance fromUID tx.BalanceAfter env.balanceWriteAt)
          transactions := s.transactions
          queue := s.queue } _ fromUID toUID _ rfl, hmid]
      simp [hne]
    · rw [balanceOf_of_users
        { users := s.users.map (setBalance fromUID tx.BalanceAfter env.balanceWriteAt)
          transactions := s.transactions
          queue := s.queue } _ toUID toUID _ rfl, hmid]
      simp [hne2, hbto]
    · rw [statusOf_of_transactions s _ txID tx _ htx (Or.inr rfl), hpend]

/-! ## Status transitions over call sequences -/

theorem statusStep_refl (b : Bool) (s : State) : StatusStep b s s :=
  fun _ _ h => Or.inl h

theorem statusStep_of_eq (b : Bool) (s s2 : State) (h : s2.transactions = s.transactions) :
    StatusStep b s s2 := by
  intro id st hst
  left
  unfold statusOf findTx at hst ⊢
  rw [h]
  exact hst

theorem statusStep_append (b : Bool) (s s2 : State) (c : Transaction)
    (h : s2.transactions = s.transactions ++ [c]) : StatusStep b s s2 := by
  intro id st hst
  left
  unfold statusOf findTx at hst ⊢
  rw [h, find_append_tx]
  cases hf : s.transactions.find? (fun t => decide (t.ID = id)) with
  | none => simp [hf] at hst
  | some t =>
    rw [hf] at hst
    exact hst

theorem statusStep_replace (s s2 : State) (tx : Transaction)
    (h : s2.transactions = s.transactions.map (replaceTx tx))
    (hst : tx.Status = TransactionStatus.Success ∨ tx.Status = TransactionStatus.Failed) :
    StatusStep true s s2 := by
  intro id st hs
  unfold statusOf findTx at hs ⊢
  rw [h, find_replace_tx]
  cases hf : s.transactions.find? (fun t => decide (t.ID = id)) with
  | none => simp [hf] at hs
  | some t =>
    rw [hf] at hs
    by_cases ht : t.ID = tx.ID
    · right
      refine ⟨rfl, ?_⟩
      rcases hst with h1 | h1
      · left
        simp [replaceTx, ht, h1]
      · right
        simp [replaceTx, ht, h1]
    · left
      simpa [replaceTx, ht] using hs

theorem statusStep_trans {b : Bool} {s s2 s3 : State} (h1 : StatusStep b s s2)
    (h2 : StatusStep b s2 s3) : StatusStep b s s3 := by
  intro id st hst
  rcases h1 id st hst with h | ⟨hb, h | h⟩
  · exact h2 id st h
  · rcases h2 id _ h with h3 | ⟨_, h3⟩
    · exact Or.inr ⟨hb, Or.inl h3⟩
    · exact Or.inr ⟨hb, h3⟩
  · rcases h2 id _ h with h3 | ⟨_, h3⟩
    · exact Or.inr ⟨hb, Or.inr h3⟩
    · exact Or.inr ⟨hb, h3⟩

theorem userUpdateBalance_statusStep (b : Bool) (fault : Option Err) (s s2 : State)
    (userID : UUID) (amount : F64) (now : Nat)
    (h : userUpdateBalance fault now s userID amount = Except.ok s2) :
    StatusStep b s s2 := by
  unfold userUpdateBalance at h
  cases fault with
  | some e => simp at h
  | none =>
    simp only [Except.ok.injEq] at h
    subst h
    exact statusStep_of_eq b _ _ rfl

theorem txCreate_statusStep (b : Bool) (fault : Option Err) (seed : Nat) (s s2 : State)
    (tx tx2 : Transaction) (h : txCreate fault seed s tx = Except.ok (tx2, s2)) :
    StatusStep b s s2 := by
  unfold txCreate at h
  cases fault with
  | some e => simp at h
  | none =>
    simp only at h
    split at h
    · simp at h
    · simp only [Except.ok.injEq, Prod.mk.injEq] at h
      obtain ⟨_, h2⟩ := h
      subst h2
      exact statusStep_append b _ _ _ rfl

theorem txUpdate_statusStep (fault : Option Err) (s s2 : State) (tx : Transaction)
    (now : Nat)
    (h : txUpdate fault now s tx = Except.ok s2)
    (hst : tx.Status = TransactionStatus.Success ∨ tx.Status = TransactionStatus.Failed) :
    StatusStep true s s2 := by
  unfold txUpdate at h
  cases fault with
  | some e => simp at h
  | none =>
    simp only at h
    split at h
    · simp only [Except.ok.injEq] at h
      subst h
      exact statusStep_replace _ _ { tx with UpdatedAt := now } rfl hst
    · simp only [Except.ok.injEq] at h
      subst h
      exact statusStep_append true _ _ _ rfl

theorem enqueueTransfer_statusStep (b : Bool) (fault : Option Err) (s s2 : State)
    (p : TransferPayload) (h : EnqueueTransfer fault s p = Except.ok s2) :
    StatusStep b s s2 := by
  unfold EnqueueTransfer at h
  cases hm : jsonMarshalErr p.Amount with
  | some m => simp [hm] at h
  | none =>
    cases fault with
    | some e => simp [hm] at h
    | none =>
      simp only [hm, Except.ok.injEq] at h
      subst h
      exact statusStep_of_eq b _ _ rfl

theorem topUp_statusStep (env : Env) (s : State) (userID : UUID) (amount : F64) :
    StatusStep false s (TopUp env s userID amount).2 := by
  unfold TopUp
  try dsimp only
  split
  · exact statusStep_refl _ _
  · try dsimp only
    split
    · exact statusStep_refl _ _
    · next hc =>
      have h1 := txCreate_statusStep false _ _ _ _ _ _ hc
      try dsimp only
      split
      · exact h1
      · next hu => exact statusStep_trans h1 (userUpdateBalance_statusStep false _ _ _ _ _ _ hu)

theorem payment_statusStep (env : Env) (s : State) (userID : UUID) (amount : F64)
    (remarks : String) : StatusStep false s (Payment env s userID amount remarks).2 := by
  unfold Payment
  try dsimp only
  split
  · exact statusStep_refl _ _
  · try dsimp only
    split
    · exact statusStep_refl _ _
    · try dsimp only
      split
      · exact statusStep_refl _ _
      · next hc =>
        have h1 := txCreate_statusStep false _ _ _ _ _ _ hc
        try dsimp only
        split
        · exact h1
        · next hu => exact statusStep_trans h1 (userUpdateBalance_statusStep false _ _ _ _ _ _ hu)

theorem transfer_statusStep (env : Env) (s : State) (fromUserID toUserID : UUID)
    (amount : F64) (remarks : String) :
    StatusStep false s (Transfer env s fromUserID toUserID amount remarks).2 := by
  unfold Transfer
  try dsimp only
  split
  · exact statusStep_refl _ _
  · try dsimp only
    split
    · exact statusStep_refl _ _
    · try dsimp only
      split
      · exact statusStep_refl _ _
      · next hc =>
        have h1 := txCreate_statusStep false _ _ _ _ _ _ hc
        try dsimp only
        split
        · exact h1
        · next hu => exact statusStep_trans h1 (enqueueTransfer_statusStep false _ _ _ _ hu)

theorem processTransfer_statusStep (env : Env) (s : State)
    (transactionID fromUserID toUserID : IDText) (amount : F64) :
    StatusStep true s (ProcessTransfer env s transactionID fromUserID toUserID amount).2 := by
  unfold ProcessTransfer
  try dsimp only
  split
  · exact statusStep_refl _ _
  try dsimp only
  split
  · exact statusStep_refl _ _
  try dsimp only
  split
  · exact statusStep_refl _ _
  try dsimp only
  split
  · exact statusStep_refl _ _
  try dsimp only
  split
  · try dsimp only
    split
    · exact statusStep_refl _ _
    · next hu => exact txUpdate_statusStep _ _ _ _ _ hu (Or.inr rfl)
  · next hw =>
    have h1 := userUpdateBalance_statusStep true _ _ _ _ _ _ hw
    try dsimp only
    split
    · exact h1
    · try dsimp only
      split
      · exact h1
      · next hc =>
        have h2 := statusStep_trans h1 (txCreate_statusStep true _ _ _ _ _ _ hc)
        try dsimp only
        split
        · exact h2
        · next hw2 =>
          have h3 := statusStep_trans h2 (userUpdateBalance_statusStep true _ _ _ _ _ _ hw2)
          try dsimp only
          split
          · exact h3
          · next hu => exact statusStep_trans h3 (txUpdate_statusStep _ _ _ _ _ hu (Or.inl rfl))

theorem step_statusStep (env : Env) (s : State) (op : Op) :
    StatusStep op.isSettlement s (step env s op) := by
  cases op with
  | topUp u a => exact topUp_statusStep env s u a
  | payment u a r => exact payment_statusStep env s u a r
  | transfer f t a r => exact transfer_statusStep env s f t a r
  | processTransfer i f t a => exact processTransfer_statusStep env s i f t a

theorem statusStep_mono {b c : Bool} {s s2 : State} (h : StatusStep b s s2)
    (hbc : b = true → c = true) : StatusStep c s s2 := by
  intro id st hst
  rcases h id st hst with h1 | ⟨hb, h1⟩
  · exact Or.inl h1
  · exact Or.inr ⟨hbc hb, h1⟩

theorem run_statusStep (ops : List (Env × Op)) (s : State) :
    StatusStep (ops.any (fun x => x.2.isSettlement)) s (run s ops) := by
  induction ops generalizing s with
  | nil => exact statusStep_refl _ _
  | cons x rest ih =>
    obtain ⟨env, op⟩ := x
    have h1 : StatusStep (((env, op) :: rest).any (fun x => x.2.isSettlement)) s
        (step env s op) :=
      statusStep_mono (step_statusStep env s op) (by
        intro h
        simp [List.any_cons, h])
    have h2 : StatusStep (((env, op) :: rest).any (fun x => x.2.isSettlement))
        (step env s op) (run (step env s op) rest) :=
      statusStep_mono (ih (step env s op)) (by
        intro h
        simp only [List.any_cons, h, Bool.or_true])
    exact statusStep_trans h1 h2

/-- C10, as stated, fails: SUCCESS and FAILED are not terminal.  In the scenario, entry
`1` is FAILED after a settlement whose sender write failed, and SUCCESS after the task is
delivered again; and it is SUCCESS after a clean settlement, and FAILED after the task is
delivered again with a failing sender write. -/
theorem status_not_terminal :
    statusOf
        (run demoState
          [(demoEnv 0, Op.transfer 1 2 30 "rent"),
            ({ idSeed := 1, balanceWriteErr := some (Err.backend 1) },
              Op.processTransfer (uuidString 1) (uuidString 1) (uuidString 2) 30)]) 1 =
        some TransactionStatus.Failed ∧
      statusOf
        (run demoState
          [(demoEnv 0, Op.transfer 1 2 30 "rent"),
            ({ idSeed := 1, balanceWriteErr := some (Err.backend 1) },
              Op.processTransfer (uuidString 1) (uuidString 1) (uuidString 2) 30),
            (demoEnv 1,
              Op.processTransfer (uuidString 1) (uuidString 1) (uuidString 2) 30)]) 1 =
        some TransactionStatus.Success ∧
      statusOf
        (run demoState
          [(demoEnv 0, Op.transfer 1 2 30 "rent"),
            (demoEnv 1,
              Op.processTransfer (uuidString 1) (uuidString 1) (uuidString 2) 30)]) 1 =
        some TransactionStatus.Success ∧
      statusOf
        (run demoState
          [(demoEnv 0, Op.transfer 1 2 30 "rent"),
            (demoEnv 1,
              Op.processTransfer (uuidString 1) (uuidString 1) (uuidString 2) 30),
            ({ idSeed := 2, balanceWriteErr := some (Err.backend 1) },
              Op.processTransfer (uuidString 1) (uuidString 1) (uuidString 2) 30)]) 1 =
        some TransactionStatus.Failed := by
  decide

/-- C10, amended.  Over every sequence of `TopUp`, `Payment`, `Transfer` and
`ProcessTransfer` calls, with any arguments and any store failures, an entry stored with
status `st` is afterwards stored with status `st`, SUCCESS or FAILED: a status only ever
changes to SUCCESS or to FAILED.  A sequence without `ProcessTransfer` changes no stored
status, and an entry that is SUCCESS or FAILED never becomes PENDING again (it may still
move between SUCCESS and FAILED). -/
theorem status_changes_only_to_settled (s : State) (ops : List (Env × Op)) (id : UUID)
    (st : TransactionStatus) (h : statusOf s id = some st) :
    (statusOf (run s ops) id = some st ∨
        statusOf (run s ops) id = some TransactionStatus.Success ∨
        statusOf (run s ops) id = some TransactionStatus.Failed) ∧
      ((∀ x ∈ ops, x.2.isSettlement = false) → statusOf (run s ops) id = some st) ∧
      (st ≠ TransactionStatus.Pending →
        statusOf (run s ops) id ≠ some TransactionStatus.Pending) := by
  have hrun := run_statusStep ops s id st h
  have h1 : statusOf (run s ops) id = some st ∨
      statusOf (run s ops) id = some TransactionStatus.Success ∨
      statusOf (run s ops) id = some TransactionStatus.Failed := by
    rcases hrun with h1 | ⟨_, h1⟩
    · exact Or.inl h1
    · exact Or.inr h1
  refine ⟨h1, ?_, ?_⟩
  · intro hall
    rcases hrun with h2 | ⟨hb, _⟩
    · exact h2
    · rw [List.any_eq_true] at hb
      obtain ⟨x, hx, hxs⟩ := hb
      rw [hall x hx] at hxs
      exact absurd hxs (by decide)
  · intro hne
    rcases h1 with h2 | h2 | h2
    · rw [h2]
      intro h3
      exact hne (Option.some.inj h3)
    · rw [h2]
      decide
    · rw [h2]
      decide

/-! ## The theorems at the concrete scenario -/

/-- Topping account `1` (balance 100) up by 25 leaves a stored balance of 125. -/
theorem topUp_success_witness :
    findUser demoState 1 = some demoSender ∧
      findTx demoState (uuidNew (demoEnv 0).idSeed) = none ∧
      balanceOf (TopUp (demoEnv 0) demoState 1 25).2 1 = some 125 := by
  obtain ⟨tx, h⟩ := topUp_success (demoEnv 0) demoState 1 25 demoSender rfl (by decide) rfl
    (by decide) rfl
  exact ⟨by decide, by decide, h.2.2.2.2.2.2.2.2.2.1⟩

/-- A payment of 101 from account `1` (balance 100) is refused and changes nothing. -/
theorem payment_insufficient_witness :
    findUser demoState 1 = some demoSender ∧ demoSender.Balance < 101 ∧
      Payment (demoEnv 0) demoState 1 101 "rent" =
        (Except.error (Err.text "balance is not enough"), demoState) :=
  ⟨by decide, by decide,
    payment_insufficient (demoEnv 0) demoState 1 101 "rent" demoSender rfl (by decide)
      (by decide)⟩

/-- A payment of the whole balance of account `1` leaves a stored balance of 0. -/
theorem payment_success_witness :
    findUser demoState 1 = some demoSender ∧ (100 : F64) ≤ demoSender.Balance ∧
      balanceOf (Payment (demoEnv 0) demoState 1 100 "rent").2 1 = some 0 := by
  obtain ⟨tx, h⟩ := payment_success (demoEnv 0) demoState 1 100 "rent" demoSender rfl
    (by decide) (by decide) rfl (by decide) rfl
  exact ⟨by decide, by decide, h.2.2.2.2.2.2.2.2.2.1⟩

/-- A transfer of 30 from account `1` to account `2` enqueues `demoTask` and leaves the
users table alone. -/
theorem transfer_pending_witness :
    findUser demoState 1 = some demoSender ∧ (30 : F64) ≤ demoSender.Balance ∧
      (30 : F64).isFinite = true ∧
      (Transfer (demoEnv 0) demoState 1 2 30 "rent").2.queue = demoState.queue ++ [demoTask] ∧
      (Transfer (demoEnv 0) demoState 1 2 30 "rent").2.users = demoState.users := by
  obtain ⟨tx, h⟩ := transfer_pending (demoEnv 0) demoState 1 2 30 "rent" demoSender rfl
    (by decide) (by decide) rfl (by decide) (by decide) rfl
  obtain ⟨-, hid, -, -, -, -, -, -, -, -, -, hq, hu, -⟩ := h
  rw [hid] at hq
  exact ⟨by decide, by decide, by decide, hq, hu⟩

/-- The happy path at balances 100 and 50 and amount 30: the sender ends at 70 and the
recipient at 80. -/
theorem transfer_then_settle_witness :
    ∃ p, (Transfer (demoEnv 0) demoState 1 2 30 "rent").2.queue = demoState.queue ++ [p] ∧
      (processPayload (demoEnv 1) (Transfer (demoEnv 0) demoState 1 2 30 "rent").2 p).1 = none ∧
      balanceOf (processPayload (demoEnv 1)
        (Transfer (demoEnv 0) demoState 1 2 30 "rent").2 p).2 1 = some 70 ∧
      balanceOf (processPayload (demoEnv 1)
        (Transfer (demoEnv 0) demoState 1 2 30 "rent").2 p).2 2 = some 80 := by
  obtain ⟨p, debit, credit, -, hq, -, hr, hA, hB, -⟩ :=
    transfer_then_settle (demoEnv 0) (demoEnv 1) demoState 1 2 30 "rent" demoSender
      demoRecipient (by decide) (by decide) (by decide) (by decide) rfl rfl (by decide)
      (by decide) rfl rfl rfl rfl rfl (by decide) (by decide) rfl rfl
  exact ⟨p, hq, hr, hA, hB⟩

/-- Delivering `demoTask` again on the settled scenario raises the recipient from 80 to
110. -/
theorem processTransfer_reapplies_witness :
    statusOf demoSettled 1 = some TransactionStatus.Success ∧
      balanceOf demoSettled 2 = some 80 ∧
      balanceOf (ProcessTransfer (demoEnv 2) demoSettled (IDText.wellFormed 1)
        (IDText.wellFormed 1) (IDText.wellFormed 2) 30).2 2 = some 110 :=
  ⟨by decide, by decide,
    (processTransfer_reapplies (demoEnv 2) demoSettled 1 1 2 30
      { ID := 1, UserID := 1, TxType := TransactionType.Debit
        Status := TransactionStatus.Success, Amount := 30, Remarks := "rent"
        BalanceBefore := 100, BalanceAfter := 70, TargetUserID := some 2, CreatedAt := 0
        UpdatedAt := 0 }
      { ID := 2, Balance := 80 } rfl (by decide) rfl rfl (by decide) (by decide) rfl
      (by decide) rfl rfl).2.1⟩

/-- A transfer of 30 whose enqueue fails leaves the PENDING entry `1` in the ledger. -/
theorem transfer_enqueue_failure_witness :
    (Transfer { enqueueErr := some (Err.backend 3) } demoState 1 2 30 "rent").1 =
        Except.error (Err.wrap "failed to enqueue transfer task" (Err.backend 3)) ∧
      ∃ tx : Transaction, tx.ID = 1 ∧
        statusOf (Transfer { enqueueErr := some (Err.backend 3) } demoState 1 2 30 "rent").2
          tx.ID = some TransactionStatus.Pending ∧
        (Transfer { enqueueErr := some (Err.backend 3) } demoState 1 2 30 "rent").2.users =
          demoState.users := by
  obtain ⟨⟨err, herr, hwrap, -⟩, tx, hid, -, -, -, -, -, -, -, -, hst, -, -, -, hu⟩ :=
    transfer_enqueue_failure { enqueueErr := some (Err.backend 3) } (demoEnv 0) demoState 1 2
      30 "rent" demoSender rfl (by decide) (by decide) rfl (by decide) (Or.inl (by decide))
      rfl
  rw [hwrap (Err.backend 3) (by decide) rfl] at herr
  exact ⟨herr, tx, hid, hst, hu⟩

/-- A settlement of `demoTask` whose sender write fails returns that error and marks the
entry FAILED. -/
theorem processTransfer_sender_write_failure_witness :
    (ProcessTransfer { idSeed := 1, balanceWriteErr := some (Err.backend 1) } demoPending
        (IDText.wellFormed 1) (IDText.wellFormed 1) (IDText.wellFormed 2) 30).1 =
        some (Err.backend 1) ∧
      (ProcessTransfer { idSeed := 1, balanceWriteErr := some (Err.backend 1) } demoPending
        (IDText.wellFormed 1) (IDText.wellFormed 1) (IDText.wellFormed 2) 30).2.users =
        demoPending.users ∧
      statusOf (ProcessTransfer { idSeed := 1, balanceWriteErr := some (Err.backend 1) }
        demoPending (IDText.wellFormed 1) (IDText.wellFormed 1) (IDText.wellFormed 2) 30).2 1 =
        some TransactionStatus.Failed := by
  obtain ⟨h1, h2, -, -, -, h6, -⟩ :=
    processTransfer_sender_write_failure
      { idSeed := 1, balanceWriteErr := some (Err.backend 1) } demoPending 1 1 2 30
      { ID := 1, UserID := 1, TxType := TransactionType.Debit
        Status := TransactionStatus.Pending, Amount := 30, Remarks := "rent"
        BalanceBefore := 100, BalanceAfter := 70, TargetUserID := some 2, CreatedAt := 0
        UpdatedAt := 0 }
      (Err.backend 1) rfl (by decide) rfl
  exact ⟨h1, h2, (h6 rfl).2.2⟩

/-- A settlement of `demoTask` whose recipient write fails leaves 70 and 50; one whose
final status update fails leaves 70 and 80; the entry stays PENDING in both. -/
theorem processTransfer_failure_after_debit_witness :
    (balanceOf (ProcessTransfer { idSeed := 1, balanceWrite2Err := some (Err.backend 1) }
        demoPending (IDText.wellFormed 1) (IDText.wellFormed 1) (IDText.wellFormed 2) 30).2 1 =
        some 70 ∧
      balanceOf (ProcessTransfer { idSeed := 1, balanceWrite2Err := some (Err.backend 1) }
        demoPending (IDText.wellFormed 1) (IDText.wellFormed 1) (IDText.wellFormed 2) 30).2 2 =
        some 50 ∧
      statusOf (ProcessTransfer { idSeed := 1, balanceWrite2Err := some (Err.backend 1) }
        demoPending (IDText.wellFormed 1) (IDText.wellFormed 1) (IDText.wellFormed 2) 30).2 1 =
        some TransactionStatus.Pending) ∧
    (balanceOf (ProcessTransfer { idSeed := 1, txUpdateErr := some (Err.backend 1) }
        demoPending (IDText.wellFormed 1) (IDText.wellFormed 1) (IDText.wellFormed 2) 30).2 1 =
        some 70 ∧
      balanceOf (ProcessTransfer { idSeed := 1, txUpdateErr := some (Err.backend 1) }
        demoPending (IDText.wellFormed 1) (IDText.wellFormed 1) (IDText.wellFormed 2) 30).2 2 =
        some 80 ∧
      statusOf (ProcessTransfer { idSeed := 1, txUpdateErr := some (Err.backend 1) }
        demoPending (IDText.wellFormed 1) (IDText.wellFormed 1) (IDText.wellFormed 2) 30).2 1 =
        some TransactionStatus.Pending) := by
  have ha := (processTransfer_failure_after_debit
    { idSeed := 1, balanceWrite2Err := some (Err.backend 1) } demoPending 1 1 2 30
    { ID := 1, UserID := 1, TxType := TransactionType.Debit
      Status := TransactionStatus.Pending, Amount := 30, Remarks := "rent"
      BalanceBefore := 100, BalanceAfter := 70, TargetUserID := some 2, CreatedAt := 0
      UpdatedAt := 0 }
    rfl (by decide) rfl rfl (by decide)).1 (by decide)
  have hb := (processTransfer_failure_after_debit
    { idSeed := 1, txUpdateErr := some (Err.backend 1) } demoPending 1 1 2 30
    { ID := 1, UserID := 1, TxType := TransactionType.Debit
      Status := TransactionStatus.Pending, Amount := 30, Remarks := "rent"
      BalanceBefore := 100, BalanceAfter := 70, TargetUserID := some 2, CreatedAt := 0
      UpdatedAt := 0 }
    rfl (by decide) rfl rfl (by decide)).2 demoRecipient (Err.backend 1) rfl (by decide) rfl
    (by decide) rfl rfl
  exact ⟨⟨ha.2.1, ha.2.2.1, ha.2.2.2⟩, ⟨hb.2.1, hb.2.2.1, hb.2.2.2⟩⟩

/-- The settled entry `1` of the scenario keeps its status through a top-up and a payment,
and is SUCCESS or FAILED after any further settlement attempt. -/
theorem status_changes_only_to_settled_witness :
    statusOf demoSettled 1 = some TransactionStatus.Success ∧
      statusOf (run demoSettled [(demoEnv 5, Op.topUp 1 10), (demoEnv 6, Op.payment 2 5 "tea")])
        1 = some TransactionStatus.Success ∧
      statusOf
        (run demoSettled
          [({ idSeed := 2, balanceWriteErr := some (Err.backend 1) },
            Op.processTransfer (uuidString 1) (uuidString 1) (uuidString 2) 30)]) 1 ≠
        some TransactionStatus.Pending :=
  ⟨by decide,
    (status_changes_only_to_settled demoSettled
      [(demoEnv 5, Op.topUp 1 10), (demoEnv 6, Op.payment 2 5 "tea")] 1
      TransactionStatus.Success (by decide)).2.1 (by decide),
    (status_changes_only_to_settled demoSettled
      [({ idSeed := 2, balanceWriteErr := some (Err.backend 1) },
        Op.processTransfer (uuidString 1) (uuidString 1) (uuidString 2) 30)] 1
      TransactionStatus.Success (by decide)).2.2 (by decide)⟩

/-! ## What the store calls do to the tables -/

theorem userGetByID_mem {fault : Option Err} {s : State} {id : UUID} {u : User}
    (h : userGetByID fault s id = Except.ok u) : u ∈ s.users ∧ u.ID = id := by
  unfold userGetByID at h
  cases fault with
  | some e => simp at h
  | none =>
    simp only at h
    split at h
    · next hf =>
      simp only [Except.ok.injEq] at h
      subst h
      exact ⟨List.mem_of_find?_eq_some hf, findUser_id hf⟩
    · simp at h

theorem txGetByID_mem {fault : Option Err} {s : State} {id : UUID} {tx : Transaction}
    (h : txGetByID fault s id = Except.ok tx) : tx ∈ s.transactions ∧ findTx s id = some tx := by
  unfold txGetByID at h
  cases fault with
  | some e => simp at h
  | none =>
    simp only at h
    split at h
    · next hf =>
      simp only [Except.ok.injEq] at h
      subst h
      exact ⟨List.mem_of_find?_eq_some hf, hf⟩
    · simp at h

theorem userUpdateBalance_shape {fault : Option Err} {now : Nat} {s s2 : State}
    {userID : UUID} {amount : F64}
    (h : userUpdateBalance fault now s userID amount = Except.ok s2) :
    s2.users = s.users.map (setBalance userID amount now) ∧ s2.transactions = s.transactions ∧
      s2.queue = s.queue ∧ fault = none := by
  unfold userUpdateBalance at h
  cases fault with
  | some e => simp at h
  | none =>
    simp only [Except.ok.injEq] at h
    subst h
    exact ⟨rfl, rfl, rfl, rfl⟩

theorem txCreate_shape {fault : Option Err} {seed : Nat} {s s2 : State} {tx tx2 : Transaction}
    (h : txCreate fault seed s tx = Except.ok (tx2, s2)) :
    s2.users = s.users ∧ s2.transactions = s.transactions ++ [tx2] ∧ s2.queue = s.queue ∧
      tx2.UserID = tx.UserID ∧ tx2.BalanceAfter = tx.BalanceAfter ∧ tx2.Status = tx.Status := by
  unfold txCreate at h
  cases fault with
  | some e => simp at h
  | none =>
    simp only at h
    split at h
    · simp at h
    · simp only [Except.ok.injEq, Prod.mk.injEq] at h
      obtain ⟨h1, h2⟩ := h
      subst h2
      subst h1
      refine ⟨rfl, rfl, rfl, ?_, ?_, ?_⟩ <;> split <;> rfl

theorem txUpdate_shape {fault : Option Err} {now : Nat} {s s2 : State} {tx : Transaction}
    (h : txUpdate fault now s tx = Except.ok s2) :
    s2.users = s.users ∧ s2.queue = s.queue ∧
      (s2.transactions = s.transactions.map (replaceTx { tx with UpdatedAt := now }) ∨
        s2.transactions = s.transactions ++ [{ tx with UpdatedAt := now }]) := by
  unfold txUpdate at h
  cases fault with
  | some e => simp at h
  | none =>
    simp only at h
    split at h
    · simp only [Except.ok.injEq] at h
      subst h
      exact ⟨rfl, rfl, Or.inl rfl⟩
    · simp only [Except.ok.injEq] at h
      subst h
      exact ⟨rfl, rfl, Or.inr rfl⟩

theorem enqueueTransfer_shape {fault : Option Err} {s s2 : State} {p : TransferPayload}
    (h : EnqueueTransfer fault s p = Except.ok s2) :
    s2.users = s.users ∧ s2.transactions = s.transactions := by
  unfold EnqueueTransfer at h
  cases hm : jsonMarshalErr p.Amount with
  | some m => simp [hm] at h
  | none =>
    cases fault with
    | some e => simp [hm] at h
    | none =>
      simp only [hm, Except.ok.injEq] at h
      subst h
      exact ⟨rfl, rfl⟩

/-- A row of an overwritten ledger is the written entry or a row of the old ledger. -/
theorem mem_map_replaceTx {l : List Transaction} {tx t : Transaction}
    (h : t ∈ l.map (replaceTx tx)) : t = tx ∨ t ∈ l := by
  rw [List.mem_map] at h
  obtain ⟨r, hr, hrt⟩ := h
  unfold replaceTx at hrt
  split at hrt
  · exact Or.inl hrt.symm
  · exact Or.inr (hrt ▸ hr)

/-! ## Forgetting the overwrites of a traced call -/

theorem TopUpTraced_fst (env : Env) (s : State) (userID : UUID) (amount : F64) :
    (TopUpTraced env s userID amount).1 = TopUp env s userID amount := by
  unfold TopUpTraced TopUp
  cases userGetByID env.userGetErr s userID with
  | error e => rfl
  | ok user =>
    dsimp only
    cases txCreate env.txCreateErr env.repoIdSeed s _ with
    | error e => rfl
    | ok r =>
      obtain ⟨tx, s1⟩ := r
      dsimp only
      cases userUpdateBalance env.balanceWriteErr env.balanceWriteAt s1 userID tx.BalanceAfter <;>
        rfl

theorem PaymentTraced_fst (env : Env) (s : State) (userID : UUID) (amount : F64)
    (remarks : String) :
    (PaymentTraced env s userID amount remarks).1 = Payment env s userID amount remarks := by
  unfold PaymentTraced Payment
  cases userGetByID env.userGetErr s userID with
  | error e => rfl
  | ok user =>
    dsimp only
    by_cases hlt : user.Balance < amount
    · simp only [hlt, if_true]
    · simp only [hlt, if_false]
      cases txCreate env.txCreateErr env.repoIdSeed s _ with
      | error e => rfl
      | ok r =>
        obtain ⟨tx, s1⟩ := r
        dsimp only
        cases userUpdateBalance env.balanceWriteErr env.balanceWriteAt s1 userID tx.BalanceAfter <;>
        rfl

theorem ProcessTransferTraced_fst (env : Env) (s : State)
    (transactionID fromUserID toUserID : IDText) (amount : F64) :
    (ProcessTransferTraced env s transactionID fromUserID toUserID amount).1 =
      ProcessTransfer env s transactionID fromUserID toUserID amount := by
  unfold ProcessTransferTraced ProcessTransfer
  cases uuidParse transactionID with
  | error e => rfl
  | ok txID =>
  cases uuidParse fromUserID with
  | error e => rfl
  | ok fromUID =>
  cases uuidParse toUserID with
  | error e => rfl
  | ok toUID =>
  dsimp only
  cases txGetByID env.txGetErr s txID with
  | error e => rfl
  | ok tx =>
  dsimp only
  cases userUpdateBalance env.balanceWriteErr env.balanceWriteAt s fromUID tx.BalanceAfter with
  | error e =>
    dsimp only
    cases txUpdate env.txUpdateErr env.txUpdateAt s _ <;> rfl
  | ok s1 =>
    dsimp only
    cases userGetByID env.userGetErr s1 toUID with
    | error e => rfl
    | ok toUser =>
      dsimp only
      cases txCreate env.txCreateErr env.repoIdSeed s1 _ with
      | error e => rfl
      | ok r =>
        obtain ⟨rtx, s2⟩ := r
        dsimp only
        cases userUpdateBalance env.balanceWrite2Err env.balanceWrite2At s2 toUID
            rtx.BalanceAfter with
        | error e => rfl
        | ok s3 =>
          dsimp only
          cases txUpdate env.txUpdateErr env.txUpdateAt s3 _ <;> rfl


theorem RegisterTraced_fst (env : UserEnv) (s : State)
    (firstName lastName phoneNumber address pin : String) :
    (RegisterTraced env s firstName lastName phoneNumber address pin).1 =
      Register env s firstName lastName phoneNumber address pin := by
  unfold RegisterTraced Register
  cases userGetByPhoneNumber env.phoneGetErr s phoneNumber with
  | ok u => rfl
  | error e =>
    dsimp only
    cases env.generateFromPassword pin with
    | error e2 => rfl
    | ok hashedPin =>
      dsimp only
      cases userCreate env.userCreateErr env.repoIdSeed s _ with
      | error e3 => rfl
      | ok r => rfl
/-! ## Non-negative balances over call sequences -/

theorem nonNegative_updateBalance {fault : Option Err} {now : Nat} {s s2 : State}
    {userID : UUID} {amount : F64}
    (h : userUpdateBalance fault now s userID amount = Except.ok s2)
    (hs : NonNegative s) (ha : 0 ≤ amount) : NonNegative s2 := by
  obtain ⟨hu, ht, -, -⟩ := userUpdateBalance_shape h
  constructor
  · intro u hmem
    rw [hu, List.mem_map] at hmem
    obtain ⟨v, hv, hvu⟩ := hmem
    rw [← hvu, setBalance_Balance]
    split
    · exact ha
    · exact hs.1 v hv
  · intro t hmem
    rw [ht] at hmem
    exact hs.2 t hmem

theorem nonNegative_txCreate {fault : Option Err} {seed : Nat} {s s2 : State}
    {tx tx2 : Transaction} (h : txCreate fault seed s tx = Except.ok (tx2, s2))
    (hs : NonNegative s) (ha : 0 ≤ tx.BalanceAfter) : NonNegative s2 ∧ 0 ≤ tx2.BalanceAfter := by
  obtain ⟨hu, ht, -, -, hb, -⟩ := txCreate_shape h
  refine ⟨⟨?_, ?_⟩, hb ▸ ha⟩
  · intro u hmem
    rw [hu] at hmem
    exact hs.1 u hmem
  · intro t hmem
    rw [ht, List.mem_append, List.mem_singleton] at hmem
    rcases hmem with hmem | hmem
    · exact hs.2 t hmem
    · rw [hmem, hb]
      exact ha

theorem nonNegative_txUpdate {fault : Option Err} {now : Nat} {s s2 : State}
    {tx : Transaction} (h : txUpdate fault now s tx = Except.ok s2) (hs : NonNegative s)
    (ha : 0 ≤ tx.BalanceAfter) :
    NonNegative s2 := by
  obtain ⟨hu, -, ht⟩ := txUpdate_shape h
  constructor
  · intro u hmem
    rw [hu] at hmem
    exact hs.1 u hmem
  · intro t hmem
    rcases ht with ht | ht
    · rw [ht] at hmem
      rcases mem_map_replaceTx hmem with h1 | h1
      · rw [h1]
        exact ha
      · exact hs.2 t h1
    · rw [ht, List.mem_append, List.mem_singleton] at hmem
      rcases hmem with hmem | hmem
      · exact hs.2 t hmem
      · rw [hmem]
        exact ha

theorem nonNegative_enqueue {fault : Option Err} {s s2 : State} {p : TransferPayload}
    (h : EnqueueTransfer fault s p = Except.ok s2) (hs : NonNegative s) : NonNegative s2 := by
  obtain ⟨hu, ht⟩ := enqueueTransfer_shape h
  constructor
  · intro u hmem
    rw [hu] at hmem
    exact hs.1 u hmem
  · intro t hmem
    rw [ht] at hmem
    exact hs.2 t hmem

theorem topUp_nonNegative (env : Env) (s : State) (userID : UUID) (amount : F64)
    (hs : NonNegative s) (ha : 0 < amount) : NonNegative (TopUp env s userID amount).2 := by
  unfold TopUp
  split
  · exact hs
  · next user hg =>
    have hb : 0 ≤ user.Balance := hs.1 user (userGetByID_mem hg).1
    try dsimp only
    split
    · exact hs
    · next hc =>
      obtain ⟨h1, h2⟩ := nonNegative_txCreate hc hs
        (show 0 ≤ user.Balance + amount from F64.add_nonneg hb (F64.le_of_lt ha))
      try dsimp only
      split
      · exact h1
      · next hu => exact nonNegative_updateBalance hu h1 h2

theorem payment_nonNegative (env : Env) (s : State) (userID : UUID) (amount : F64)
    (remarks : String) (hs : NonNegative s) (ha : 0 < amount)
    (hfin : amount.isFinite = true) :
    NonNegative (Payment env s userID amount remarks).2 := by
  unfold Payment
  split
  · exact hs
  · next user hg =>
    have hb : 0 ≤ user.Balance := hs.1 user (userGetByID_mem hg).1
    try dsimp only
    split
    · exact hs
    · next hlt =>
      try dsimp only
      split
      · exact hs
      · next hc =>
        obtain ⟨h1, h2⟩ := nonNegative_txCreate hc hs
          (show 0 ≤ user.Balance - amount from F64.sub_nonneg hb hlt ha hfin)
        try dsimp only
        split
        · exact h1
        · next hu => exact nonNegative_updateBalance hu h1 h2

theorem transfer_nonNegative (env : Env) (s : State) (fromUserID toUserID : UUID)
    (amount : F64) (remarks : String) (hs : NonNegative s) (ha : 0 < amount)
    (hfin : amount.isFinite = true) :
    NonNegative (Transfer env s fromUserID toUserID amount remarks).2 := by
  unfold Transfer
  split
  · exact hs
  · next user hg =>
    have hb : 0 ≤ user.Balance := hs.1 user (userGetByID_mem hg).1
    try dsimp only
    split
    · exact hs
    · next hlt =>
      try dsimp only
      split
      · exact hs
      · next hc =>
        obtain ⟨h1, -⟩ := nonNegative_txCreate hc hs
          (show 0 ≤ user.Balance - amount from F64.sub_nonneg hb hlt ha hfin)
        try dsimp only
        split
        · exact h1
        · next hq => exact nonNegative_enqueue hq h1

theorem processTransfer_nonNegative (env : Env) (s : State)
    (transactionID fromUserID toUserID : IDText) (amount : F64)
    (hs : NonNegative s) (ha : 0 < amount) :
    NonNegative (ProcessTransfer env s transactionID fromUserID toUserID amount).2 := by
  unfold ProcessTransfer
  split
  · exact hs
  split
  · exact hs
  split
  · exact hs
  split
  · exact hs
  next tx hget =>
  have hba : 0 ≤ tx.BalanceAfter := hs.2 tx (txGetByID_mem hget).1
  split
  · try dsimp only
    split
    · exact hs
    · next hu => exact nonNegative_txUpdate hu hs hba
  · next hw =>
    have h1 := nonNegative_updateBalance hw hs hba
    try dsimp only
    split
    · exact h1
    · next toUser hg =>
      have hb : 0 ≤ toUser.Balance := h1.1 toUser (userGetByID_mem hg).1
      try dsimp only
      split
      · exact h1
      · next hc =>
        obtain ⟨h2, h2b⟩ := nonNegative_txCreate hc h1
          (show 0 ≤ toUser.Balance + amount from F64.add_nonneg hb (F64.le_of_lt ha))
        try dsimp only
        split
        · exact h2
        · next hw2 =>
          have h3 := nonNegative_updateBalance hw2 h2 h2b
          try dsimp only
          split
          · exact h3
          · next hu => exact nonNegative_txUpdate hu h3 hba

theorem step_nonNegative (env : Env) (s : State) (op : Op) (hs : NonNegative s)
    (ha : 0 < op.amount) (hfin : op.debitFinite = true) : NonNegative (step env s op) := by
  cases op with
  | topUp u a => exact topUp_nonNegative env s u a hs ha
  | payment u a r => exact payment_nonNegative env s u a r hs ha hfin
  | transfer f t a r => exact transfer_nonNegative env s f t a r hs ha hfin
  | processTransfer i f t a => exact processTransfer_nonNegative env s i f t a hs ha

theorem run_nonNegative (ops : List (Env × Op)) (s : State) (hs : NonNegative s)
    (ha : ∀ x ∈ ops, 0 < x.2.amount) (hfin : ∀ x ∈ ops, x.2.debitFinite = true) :
    NonNegative (run s ops) := by
  induction ops generalizing s with
  | nil => exact hs
  | cons x rest ih =>
    obtain ⟨env, op⟩ := x
    exact ih (step env s op)
      (step_nonNegative env s op hs (ha (env, op) (List.mem_cons_self _ _))
        (hfin (env, op) (List.mem_cons_self _ _)))
      (fun y hy => ha y (List.mem_cons_of_mem _ hy))
      (fun y hy => hfin y (List.mem_cons_of_mem _ hy))

/-- C12, as stated, fails: an amount may be `+Inf`.  From an empty ledger and one account
with balance 0, two `TopUp` of the largest finite `float64` make the balance `+Inf`; a
`Payment` of `+Inf` then passes the guard (`+Inf < +Inf` is false) and stores
`+Inf - +Inf`, which is NaN and not at least zero.  Every amount is above zero and every
store call goes through. -/
theorem balance_becomes_nan :
    (∀ u ∈ ({ users := [{ ID := 1, Balance := 0 }] } : State).users, (0 : F64) ≤ u.Balance) ∧
      (∀ t ∈ ({ users := [{ ID := 1, Balance := 0 }] } : State).transactions,
        (0 : F64) ≤ t.BalanceAfter) ∧
      (∀ x ∈ [(demoEnv 0, Op.topUp 1 F64.maxFloat64), (demoEnv 1, Op.topUp 1 F64.maxFloat64),
          (demoEnv 2, Op.payment 1 F64.posInf "all")], (0 : F64) < x.2.amount) ∧
      balanceOf (run { users := [{ ID := 1, Balance := 0 }] }
        [(demoEnv 0, Op.topUp 1 F64.maxFloat64),
          (demoEnv 1, Op.topUp 1 F64.maxFloat64)]) 1 = some F64.posInf ∧
      balanceOf (run { users := [{ ID := 1, Balance := 0 }] }
        [(demoEnv 0, Op.topUp 1 F64.maxFloat64), (demoEnv 1, Op.topUp 1 F64.maxFloat64),
          (demoEnv 2, Op.payment 1 F64.posInf "all")]) 1 = some F64.nan ∧
      ¬ (0 : F64) ≤ F64.nan := by
  decide

/-- C12, amended.  From a state in which every stored balance and the `BalanceAfter` of
every stored entry is at least zero, every sequence of `TopUp`, `Payment`, `Transfer` and
`ProcessTransfer` calls with amounts above zero, where the amounts of `Payment` and
`Transfer` are finite (not `+Inf`), with any store failures and any arguments of
`ProcessTransfer`, leaves every stored balance at least zero (every row of the users
table, hence every balance read by `balanceOf`); in particular no stored balance is
NaN. -/
theorem balances_stay_nonNegative (s : State) (ops : List (Env × Op))
    (hbal : ∀ u ∈ s.users, 0 ≤ u.Balance)
    (hent : ∀ t ∈ s.transactions, 0 ≤ t.BalanceAfter)
    (hpos : ∀ x ∈ ops, 0 < x.2.amount)
    (hfin : ∀ x ∈ ops, x.2.debitFinite = true) :
    (∀ u ∈ (run s ops).users, 0 ≤ u.Balance) ∧
      (∀ id b, balanceOf (run s ops) id = some b → 0 ≤ b) := by
  have h := run_nonNegative ops s ⟨hbal, hent⟩ hpos hfin
  refine ⟨h.1, ?_⟩
  intro id b hb
  unfold balanceOf at hb
  cases hf : findUser (run s ops) id with
  | none => simp [hf] at hb
  | some u =>
    rw [hf] at hb
    simp only [Option.map_some', Option.some.injEq] at hb
    rw [← hb]
    exact h.1 u (List.mem_of_find?_eq_some hf)

/-! ## SUCCESS entries and the overwrites carried out -/

/-- The invariant passes to a state whose ledger rows are old rows or rows accounted for
in the longer log. -/
theorem successApplied_of_rows {log log2 : List (UUID × F64)} {s s2 : State}
    (h : SuccessApplied log s) (hlog : ∀ x ∈ log, x ∈ log2)
    (hrows : ∀ t ∈ s2.transactions,
      t ∈ s.transactions ∨
        (t.Status = TransactionStatus.Success → (t.UserID, t.BalanceAfter) ∈ log2)) :
    SuccessApplied log2 s2 := by
  intro t ht hst
  rcases hrows t ht with h1 | h1
  · exact hlog _ (h t h1 hst)
  · exact h1 hst

theorem successApplied_same {log : List (UUID × F64)} {s s2 : State}
    (h : SuccessApplied log s) (w : List (UUID × F64))
    (ht : s2.transactions = s.transactions) : SuccessApplied (log ++ w) s2 :=
  successApplied_of_rows h (fun _ hx => List.mem_append_left _ hx)
    (fun _ hmem => Or.inl (ht ▸ hmem))

theorem updateBalance_no_fault {now : Nat} {s : State} {userID : UUID} {amount : F64}
    {e : Err} (h : userUpdateBalance none now s userID amount = Except.error e) : False := by
  simp [userUpdateBalance] at h

theorem senderAddressed_elim {s : State} {i f t : IDText} {a : F64} {txID fromUID : UUID}
    {tx : Transaction} (h : senderAddressed s (Op.processTransfer i f t a) = true)
    (hi : uuidParse i = Except.ok txID) (hf : uuidParse f = Except.ok fromUID)
    (htx : findTx s txID = some tx) : tx.UserID = fromUID := by
  simp only [senderAddressed, hi, hf, htx, decide_eq_true_eq] at h
  exact h

theorem topUpTraced_applied (env : Env) (s : State) (userID : UUID) (amount : F64)
    (log : List (UUID × F64)) (h : SuccessApplied log s) (hw : env.balanceWriteErr = none) :
    SuccessApplied (log ++ (TopUpTraced env s userID amount).2)
      (TopUpTraced env s userID amount).1.2 := by
  unfold TopUpTraced
  rw [hw]
  split
  · exact successApplied_same h _ rfl
  · next user hg =>
    try dsimp only
    split
    · exact successApplied_same h _ rfl
    · next tx2 s1 hc =>
      obtain ⟨-, ht1, -, hu1, -, -⟩ := txCreate_shape hc
      try dsimp only
      split
      · next hu => exact absurd hu (fun hu => updateBalance_no_fault hu)
      · next s2 hu =>
        obtain ⟨-, ht2, -, -⟩ := userUpdateBalance_shape hu
        refine successApplied_of_rows h (fun x hx => List.mem_append_left _ hx) ?_
        intro t hmem
        simp only [ht2, ht1, List.mem_append, List.mem_singleton] at hmem
        rcases hmem with hmem | hmem
        · exact Or.inl hmem
        · right
          intro _
          rw [hmem, hu1]
          simp

theorem paymentTraced_applied (env : Env) (s : State) (userID : UUID) (amount : F64)
    (remarks : String) (log : List (UUID × F64)) (h : SuccessApplied log s)
    (hw : env.balanceWriteErr = none) :
    SuccessApplied (log ++ (PaymentTraced env s userID amount remarks).2)
      (PaymentTraced env s userID amount remarks).1.2 := by
  unfold PaymentTraced
  rw [hw]
  split
  · exact successApplied_same h _ rfl
  · next user hg =>
    try dsimp only
    split
    · exact successApplied_same h _ rfl
    · try dsimp only
      split
      · exact successApplied_same h _ rfl
      · next tx2 s1 hc =>
        obtain ⟨-, ht1, -, hu1, -, -⟩ := txCreate_shape hc
        try dsimp only
        split
        · next hu => exact absurd hu (fun hu => updateBalance_no_fault hu)
        · next s2 hu =>
          obtain ⟨-, ht2, -, -⟩ := userUpdateBalance_shape hu
          refine successApplied_of_rows h (fun x hx => List.mem_append_left _ hx) ?_
          intro t hmem
          simp only [ht2, ht1, List.mem_append, List.mem_singleton] at hmem
          rcases hmem with hmem | hmem
          · exact Or.inl hmem
          · right
            intro _
            rw [hmem, hu1]
            simp

theorem transfer_applied (env : Env) (s : State) (fromUserID toUserID : UUID) (amount : F64)
    (remarks : String) (log : List (UUID × F64)) (h : SuccessApplied log s) :
    SuccessApplied (log ++ []) (Transfer env s fromUserID toUserID amount remarks).2 := by
  unfold Transfer
  split
  · exact successApplied_same h _ rfl
  · next user hg =>
    try dsimp only
    split
    · exact successApplied_same h _ rfl
    · try dsimp only
      split
      · exact successApplied_same h _ rfl
      · next tx2 s1 hc =>
        obtain ⟨-, ht1, -, -, -, hst⟩ := txCreate_shape hc
        have hrows : ∀ t ∈ s1.transactions,
            t ∈ s.transactions ∨
              (t.Status = TransactionStatus.Success →
                (t.UserID, t.BalanceAfter) ∈ log ++ []) := by
          intro t hmem
          simp only [ht1, List.mem_append, List.mem_singleton] at hmem
          rcases hmem with hmem | hmem
          · exact Or.inl hmem
          · right
            intro hs
            rw [hmem, hst] at hs
            exact TransactionStatus.noConfusion hs
        try dsimp only
        split
        · exact successApplied_of_rows h (fun x hx => List.mem_append_left _ hx) hrows
        · next s2 hq =>
          obtain ⟨-, ht2⟩ := enqueueTransfer_shape hq
          exact successApplied_of_rows h (fun x hx => List.mem_append_left _ hx)
            (fun t hmem => hrows t (ht2 ▸ hmem))

theorem processTransferTraced_applied (env : Env) (s : State)
    (transactionID fromUserID toUserID : IDText) (amount : F64) (log : List (UUID × F64))
    (h : SuccessApplied log s) (hw : env.balanceWrite2Err = none)
    (haddr : senderAddressed s
      (Op.processTransfer transactionID fromUserID toUserID amount) = true) :
    SuccessApplied
      (log ++ (ProcessTransferTraced env s transactionID fromUserID toUserID amount).2)
      (ProcessTransferTraced env s transactionID fromUserID toUserID amount).1.2 := by
  unfold ProcessTransferTraced
  rw [hw]
  split
  · exact successApplied_same h _ rfl
  next txID hi =>
  split
  · exact successApplied_same h _ rfl
  next fromUID hf =>
  split
  · exact successApplied_same h _ rfl
  next toUID hto =>
  split
  · exact successApplied_same h _ rfl
  next tx hget =>
  have hacc : tx.UserID = fromUID := senderAddressed_elim haddr hi hf (txGetByID_mem hget).2
  split
  · try dsimp only
    split
    · exact successApplied_same h _ rfl
    · next s1 hu =>
      obtain ⟨-, -, ht⟩ := txUpdate_shape hu
      refine successApplied_of_rows h (fun x hx => List.mem_append_left _ hx) ?_
      intro t hmem
      have hfailed :
          t = { tx with Status := TransactionStatus.Failed, UpdatedAt := env.txUpdateAt } →
          (t.Status = TransactionStatus.Success → (t.UserID, t.BalanceAfter) ∈ log ++ []) := by
        intro h1 h2
        rw [h1] at h2
        exact TransactionStatus.noConfusion h2
      rcases ht with ht | ht
      · rw [ht] at hmem
        rcases mem_map_replaceTx hmem with h1 | h1
        · exact Or.inr (hfailed h1)
        · exact Or.inl h1
      · rw [ht, List.mem_append, List.mem_singleton] at hmem
        rcases hmem with h1 | h1
        · exact Or.inl h1
        · exact Or.inr (hfailed h1)
  · next s1 hw1 =>
    obtain ⟨-, ht1, -, -⟩ := userUpdateBalance_shape hw1
    try dsimp only
    split
    · exact successApplied_same h _ ht1
    · next toUser hg =>
      try dsimp only
      split
      · exact successApplied_same h _ ht1
      · next rtx s2 hc =>
        obtain ⟨-, ht2, -, hru, -, -⟩ := txCreate_shape hc
        try dsimp only
        split
        · next hu => exact absurd hu (fun hu => updateBalance_no_fault hu)
        · next s3 hw2 =>
          obtain ⟨-, ht3, -, -⟩ := userUpdateBalance_shape hw2
          have hrows3 : ∀ t ∈ s3.transactions,
              t ∈ s.transactions ∨
                (t.Status = TransactionStatus.Success →
                  (t.UserID, t.BalanceAfter) ∈
                    log ++ [(fromUID, tx.BalanceAfter), (toUID, rtx.BalanceAfter)]) := by
            intro t hmem
            simp only [ht3, ht2, ht1, List.mem_append, List.mem_singleton] at hmem
            rcases hmem with h1 | h1
            · exact Or.inl h1
            · right
              intro _
              rw [h1, hru]
              simp
          have hsucc : ∀ t,
              t = { tx with Status := TransactionStatus.Success
                            UpdatedAt := env.txUpdateAt } →
              (t.UserID, t.BalanceAfter) ∈
                log ++ [(fromUID, tx.BalanceAfter), (toUID, rtx.BalanceAfter)] := by
            intro t h1
            rw [h1]
            show (tx.UserID, tx.BalanceAfter) ∈ _
            rw [hacc]
            simp
          try dsimp only
          split
          · exact successApplied_of_rows h (fun x hx => List.mem_append_left _ hx) hrows3
          · next s4 hu =>
            obtain ⟨-, -, ht4⟩ := txUpdate_shape hu
            refine successApplied_of_rows h (fun x hx => List.mem_append_left _ hx) ?_
            intro t hmem
            rcases ht4 with ht4 | ht4
            · rw [ht4] at hmem
              rcases mem_map_replaceTx hmem with h1 | h1
              · exact Or.inr (fun _ => hsucc t h1)
              · exact hrows3 t h1
            · rw [ht4, List.mem_append, List.mem_singleton] at hmem
              rcases hmem with h1 | h1
              · exact hrows3 t h1
              · exact Or.inr (fun _ => hsucc t h1)

theorem step_applied (env : Env) (s : State) (op : Op) (log : List (UUID × F64))
    (h : SuccessApplied log s) (hw : entryWriteOk env op = true)
    (haddr : senderAddressed s op = true) :
    SuccessApplied (log ++ stepWrites env s op) (step env s op) := by
  cases op with
  | topUp u a =>
    have := topUpTraced_applied env s u a log h (Option.isNone_iff_eq_none.mp hw)
    rw [TopUpTraced_fst] at this
    exact this
  | payment u a r =>
    have := paymentTraced_applied env s u a r log h (Option.isNone_iff_eq_none.mp hw)
    rw [PaymentTraced_fst] at this
    exact this
  | transfer f t a r => exact transfer_applied env s f t a r log h
  | processTransfer i f t a =>
    have := processTransferTraced_applied env s i f t a log h
      (Option.isNone_iff_eq_none.mp hw) haddr
    rw [ProcessTransferTraced_fst] at this
    exact this

theorem run_applied (ops : List (Env × Op)) (s : State) (log : List (UUID × F64))
    (h : SuccessApplied log s) (hrun : writesFollowEntries s ops = true) :
    SuccessApplied (log ++ runWrites s ops) (run s ops) := by
  induction ops generalizing s log with
  | nil =>
    intro t ht hst
    exact List.mem_append_left _ (h t ht hst)
  | cons x rest ih =>
    obtain ⟨env, op⟩ := x
    simp only [writesFollowEntries, Bool.and_eq_true] at hrun
    obtain ⟨⟨hw, haddr⟩, hrest⟩ := hrun
    have h1 := ih (step env s op) (log ++ stepWrites env s op)
      (step_applied env s op log h hw haddr) hrest
    simp only [run, runWrites]
    rw [← List.append_assoc]
    exact h1

/-- C11, as stated, fails.  First, a `TopUp` of 25 on account `1` (balance 100) whose
balance write fails returns the error and leaves a SUCCESS entry with `BalanceAfter` 125
in the ledger, while no overwrite was carried out and the stored balance is still 100.
Second, with every call going through, a settlement task that names entry `1` (of account
`1`, `BalanceAfter` 70) but account `2` as sender leaves entry `1` with status SUCCESS,
while the only overwrites carried out are account `2` to 70 and account `1` to 130. -/
theorem success_entry_without_overwrite :
    (TopUp { balanceWriteErr := some (Err.backend 1) } demoState 1 25).1 =
        Except.error (Err.backend 1) ∧
      (findTx (run demoState [({ balanceWriteErr := some (Err.backend 1) }, Op.topUp 1 25)])
          1).map (fun t => (t.Status, t.UserID, t.BalanceAfter)) =
        some (TransactionStatus.Success, 1, 125) ∧
      runWrites demoState [({ balanceWriteErr := some (Err.backend 1) }, Op.topUp 1 25)] = [] ∧
      balanceOf (run demoState [({ balanceWriteErr := some (Err.backend 1) }, Op.topUp 1 25)])
        1 = some 100 ∧
      (findTx
          (run demoState
            [(demoEnv 0, Op.transfer 1 2 30 "rent"),
              (demoEnv 1,
                Op.processTransfer (uuidString 1) (uuidString 2) (uuidString 1) 30)])
          1).map (fun t => (t.Status, t.UserID, t.BalanceAfter)) =
        some (TransactionStatus.Success, 1, 70) ∧
      runWrites demoState
          [(demoEnv 0, Op.transfer 1 2 30 "rent"),
            (demoEnv 1, Op.processTransfer (uuidString 1) (uuidString 2) (uuidString 1) 30)] =
        [(2, 70), (1, 130)] :=
  ⟨rfl, by decide, by decide, by decide, by decide, by decide⟩

/-- C11, amended.  Start from a ledger without SUCCESS entries and run any sequence of
`TopUp`, `Payment`, `Transfer` and `ProcessTransfer` calls in which the balance write that
follows the insert of a SUCCESS entry never fails (every other store or queue call may
fail) and every settlement task names as sender the account of the entry it names.  Then
every stored entry with status SUCCESS corresponds to an overwrite that was carried out:
the balance of the entry's account was overwritten with the entry's `BalanceAfter` by an
`UpdateBalance` call of the run that returned no error. -/
theorem success_entries_applied (s : State) (ops : List (Env × Op))
    (h0 : ∀ t ∈ s.transactions, t.Status ≠ TransactionStatus.Success)
    (hrun : writesFollowEntries s ops = true) :
    ∀ t ∈ (run s ops).transactions, t.Status = TransactionStatus.Success →
      (t.UserID, t.BalanceAfter) ∈ runWrites s ops := by
  have h := run_applied ops s [] (fun t ht hst => absurd hst (h0 t ht)) hrun
  simpa [SuccessApplied] using h

/-! ## Amount validation -/

theorem topUp_result (env : Env) (s : State) (userID : UUID) (a : F64) (u : User)
    (hget : env.userGetErr = none) (hu : findUser s userID = some u)
    (hcreate : env.txCreateErr = none) (hfresh : findTx s (uuidNew env.idSeed) = none)
    (hwrite : env.balanceWriteErr = none) :
    TopUp env s userID a =
      (Except.ok
          { ID := uuidNew env.idSeed
            UserID := userID
            TxType := TransactionType.Credit
            Status := TransactionStatus.Success
            Amount := a
            BalanceBefore := u.Balance
            BalanceAfter := u.Balance + a
            CreatedAt := env.createdAt
            UpdatedAt := env.updatedAt },
        { users := s.users.map (setBalance userID (u.Balance + a) env.balanceWriteAt)
          transactions := s.transactions ++
            [{ ID := uuidNew env.idSeed
               UserID := userID
               TxType := TransactionType.Credit
               Status := TransactionStatus.Success
               Amount := a
               BalanceBefore := u.Balance
               BalanceAfter := u.Balance + a
               CreatedAt := env.createdAt
               UpdatedAt := env.updatedAt }]
          queue := s.queue }) := by
  simp only [TopUp, userGetByID, hget, hu, txCreate, hcreate, uuidNew_ne_nil, if_false, hfresh,
    userUpdateBalance, hwrite]

theorem payment_result (env : Env) (s : State) (userID : UUID) (a : F64) (remarks : String)
    (u : User) (hget : env.userGetErr = none) (hu : findUser s userID = some u)
    (hle : a ≤ u.Balance)
    (hcreate : env.txCreateErr = none) (hfresh : findTx s (uuidNew env.idSeed) = none)
    (hwrite : env.balanceWriteErr = none) :
    Payment env s userID a remarks =
      (Except.ok
          { ID := uuidNew env.idSeed
            UserID := userID
            TxType := TransactionType.Debit
            Status := TransactionStatus.Success
            Amount := a
            Remarks := remarks
            BalanceBefore := u.Balance
            BalanceAfter := u.Balance - a
            CreatedAt := env.createdAt
            UpdatedAt := env.updatedAt },
        { users := s.users.map (setBalance userID (u.Balance - a) env.balanceWriteAt)
          transactions := s.transactions ++
            [{ ID := uuidNew env.idSeed
               UserID := userID
               TxType := TransactionType.Debit
               Status := TransactionStatus.Success
               Amount := a
               Remarks := remarks
               BalanceBefore := u.Balance
               BalanceAfter := u.Balance - a
               CreatedAt := env.createdAt
               UpdatedAt := env.updatedAt }]
          queue := s.queue }) := by
  have hnlt : ¬ u.Balance < a := F64.not_lt_of_le hle
  simp only [Payment, userGetByID, hget, hu, hnlt, if_false, txCreate, hcreate, uuidNew_ne_nil,
    hfresh, userUpdateBalance, hwrite]

/-- The task that a successful `Transfer` enqueues names as sender the account of the
entry it names. -/
theorem transfer_task_senderAddressed (env : Env) (s : State) (fromUserID toUserID : UUID)
    (a : F64) (remarks : String) (u : User)
    (hget : env.userGetErr = none) (hu : findUser s fromUserID = some u)
    (hle : a ≤ u.Balance)
    (hcreate : env.txCreateErr = none) (hfresh : findTx s (uuidNew env.idSeed) = none)
    (hfin : a.isFinite = true) (henq : env.enqueueErr = none) (toText : IDText)
    (amount : F64) :
    senderAddressed (Transfer env s fromUserID toUserID a remarks).2
      (Op.processTransfer (uuidString (uuidNew env.idSeed)) (uuidString fromUserID) toText
        amount) = true := by
  rw [transfer_result env s fromUserID toUserID a remarks u hget hu hle hcreate hfresh hfin
    henq]
  simp only [findTx] at hfresh
  simp only [senderAddressed, uuidString, uuidParse, findTx_mk]
  rw [find_append_tx, hfresh]
  simp

/-- C13, as stated, fails: the service accepts non-positive amounts.  On account `1`
(balance 100), `TopUp` of -5 returns a SUCCESS entry and leaves a balance of 95, `TopUp`
of 0 returns a SUCCESS entry, `Payment` of -5 returns a SUCCESS entry and leaves a balance
of 105, and `Transfer` of -5 returns a PENDING entry and enqueues its task. -/
theorem nonpositive_amount_accepted :
    (TopUp (demoEnv 0) demoState 1 (-5)).1 =
        Except.ok
          { ID := 1, UserID := 1, TxType := TransactionType.Credit
            Status := TransactionStatus.Success, Amount := -5, BalanceBefore := 100
            BalanceAfter := 95, CreatedAt := 0, UpdatedAt := 0 } ∧
      balanceOf (TopUp (demoEnv 0) demoState 1 (-5)).2 1 = some 95 ∧
      (TopUp (demoEnv 0) demoState 1 0).1 =
        Except.ok
          { ID := 1, UserID := 1, TxType := TransactionType.Credit
            Status := TransactionStatus.Success, Amount := 0, BalanceBefore := 100
            BalanceAfter := 100, CreatedAt := 0, UpdatedAt := 0 } ∧
      (Payment (demoEnv 0) demoState 1 (-5) "rent").1 =
        Except.ok
          { ID := 1, UserID := 1, TxType := TransactionType.Debit
            Status := TransactionStatus.Success, Amount := -5, Remarks := "rent"
            BalanceBefore := 100, BalanceAfter := 105, CreatedAt := 0, UpdatedAt := 0 } ∧
      balanceOf (Payment (demoEnv 0) demoState 1 (-5) "rent").2 1 = some 105 ∧
      (Transfer (demoEnv 0) demoState 1 2 (-5) "rent").1 =
        Except.ok
          { ID := 1, UserID := 1, TxType := TransactionType.Debit
            Status := TransactionStatus.Pending, Amount := -5, Remarks := "rent"
            BalanceBefore := 100, BalanceAfter := 105, TargetUserID := some 2, CreatedAt := 0
            UpdatedAt := 0 } ∧
      (Transfer (demoEnv 0) demoState 1 2 (-5) "rent").2.queue.length = 1 :=
  ⟨by decide, by decide, by decide, by decide, by decide, by decide, by decide⟩

/-- C13, amended.  The service does not validate the amount.  For every existing account
and every amount that is zero or negative, when the store and queue calls go through
(with an unused new id), `TopUp` returns a SUCCESS CREDIT entry with `BalanceAfter` the
`float64` sum of the balance and the amount, and `Payment` and (for a finite amount)
`Transfer`, when the amount is not above the balance, return a DEBIT entry with
`BalanceAfter` the `float64` difference of the balance and the amount.  Such amounts are
rejected by the HTTP handlers only: their binding rule `gt=0` answers 400 without calling
the service, whatever the stores would do and whatever the target user field holds. -/
theorem nonpositive_amount_rejected_by_binding_only (env : Env) (s : State)
    (userID toUserID : UUID) (a : F64) (remarks : String) (u : User)
    (ha : a ≤ 0) (hget : env.userGetErr = none) (hu : findUser s userID = some u)
    (hcreate : env.txCreateErr = none) (hfresh : findTx s (uuidNew env.idSeed) = none)
    (hwrite : env.balanceWriteErr = none) (henq : env.enqueueErr = none) :
    (∃ tx, (TopUp env s userID a).1 = Except.ok tx ∧
        tx.TxType = TransactionType.Credit ∧ tx.Status = TransactionStatus.Success ∧
        tx.Amount = a ∧ tx.BalanceAfter = u.Balance + a) ∧
      (a ≤ u.Balance →
        ∃ tx, (Payment env s userID a remarks).1 = Except.ok tx ∧
          tx.TxType = TransactionType.Debit ∧ tx.Status = TransactionStatus.Success ∧
          tx.Amount = a ∧ tx.BalanceAfter = u.Balance - a) ∧
      (a.isFinite = true → a ≤ u.Balance →
        ∃ tx, (Transfer env s userID toUserID a remarks).1 = Except.ok tx ∧
          tx.TxType = TransactionType.Debit ∧ tx.Status = TransactionStatus.Pending ∧
          tx.Amount = a ∧ tx.BalanceAfter = u.Balance - a) ∧
      (∀ env2 : Env, Handler.TopUp env2 s userID a = (Reply.bindingError, s)) ∧
      (∀ env2 : Env, Handler.Payment env2 s userID a remarks = (Reply.bindingError, s)) ∧
      (∀ (env2 : Env) (target : Option IDText),
        Handler.Transfer env2 s userID target a remarks = (Reply.bindingError, s)) := by
  have hbind : bindAmount a = false := by
    simp only [bindAmount, decide_eq_false_iff_not]
    exact F64.not_lt_of_le ha
  refine ⟨?_, ?_, ?_, ?_, ?_, ?_⟩
  · rw [topUp_result env s userID a u hget hu hcreate hfresh hwrite]
    exact ⟨_, rfl, rfl, rfl, rfl, rfl⟩
  · intro hle
    rw [payment_result env s userID a remarks u hget hu hle hcreate hfresh hwrite]
    exact ⟨_, rfl, rfl, rfl, rfl, rfl⟩
  · intro hfin hle
    rw [transfer_result env s userID toUserID a remarks u hget hu hle hcreate hfresh hfin
      henq]
    exact ⟨_, rfl, rfl, rfl, rfl, rfl⟩
  · intro env2
    simp [Handler.TopUp, hbind]
  · intro env2
    simp [Handler.Payment, hbind]
  · intro env2 target
    cases target <;> simp [Handler.Transfer, hbind]

/-! ## Registration and login -/

/-- C14. When the lookup by phone number returns a user without error, `Register` returns
no user and the error "phone number already registered", and it does not call `Create`:
the calls it makes on the user repository are the one lookup `GetByPhoneNumber` and
nothing else, so no `Create` is among them, and the state is unchanged, whatever the
hashing and `Create` would have done. -/
theorem register_phone_taken (env : UserEnv) (s : State)
    (firstName lastName phoneNumber address pin : String) (existingUser : User)
    (h : userGetByPhoneNumber env.phoneGetErr s phoneNumber = Except.ok existingUser) :
    Register env s firstName lastName phoneNumber address pin =
        (Except.error (Err.text "phone number already registered"), s) ∧
      (RegisterTraced env s firstName lastName phoneNumber address pin).1 =
        Register env s firstName lastName phoneNumber address pin ∧
      (RegisterTraced env s firstName lastName phoneNumber address pin).2 =
        [UserRepoCall.GetByPhoneNumber phoneNumber] ∧
      ∀ user, UserRepoCall.Create user ∉
        (RegisterTraced env s firstName lastName phoneNumber address pin).2 := by
  have hT : RegisterTraced env s firstName lastName phoneNumber address pin =
      ((Except.error (Err.text "phone number already registered"), s),
        [UserRepoCall.GetByPhoneNumber phoneNumber]) := by
    simp only [RegisterTraced, h]
  refine ⟨by simp only [Register, h], RegisterTraced_fst _ _ _ _ _ _ _, by rw [hT], ?_⟩
  intro user hmem
  rw [hT] at hmem
  simp at hmem

/-- C15. When the lookup by phone number fails, or the stored PIN hash does not verify
against the given PIN, `Login` returns an empty access token, an empty refresh token and
the error "phone number and PIN don't match": one and the same result in both cases. -/
theorem login_rejected (env : UserEnv) (s : State) (phoneNumber pin : String)
    (h : (∃ e, userGetByPhoneNumber env.phoneGetErr s phoneNumber = Except.error e) ∨
      (∃ user e, userGetByPhoneNumber env.phoneGetErr s phoneNumber = Except.ok user ∧
        env.compareHashAndPassword user.Pin pin = some e)) :
    Login env s phoneNumber pin =
      ("", "", some (Err.text "phone number and PIN don't match")) := by
  rcases h with ⟨e, h⟩ | ⟨user, e, h1, h2⟩
  · simp only [Login, h]
  · simp only [Login, h1, h2]

/-! ## The sender's write is a blind overwrite -/

/-- Overwriting a balance twice leaves the second value only. -/
theorem setBalance_setBalance (userID : UUID) (c v : F64) (n m : Nat) (u : User) :
    setBalance userID v m (setBalance userID c n u) = setBalance userID v m u := by
  unfold setBalance
  by_cases h : u.ID = userID <;> simp [h]

theorem map_setBalance_twice (l : List User) (userID : UUID) (c v : F64) (n m : Nat) :
    (l.map (setBalance userID c n)).map (setBalance userID v m) =
      l.map (setBalance userID v m) := by
  rw [List.map_map]
  congr 1
  funext u
  exact setBalance_setBalance userID c v n m u

/-- Once the sender's write has gone through, the users table that `ProcessTransfer`
leaves is the old table with the sender's overwrite, possibly followed by the recipient's
overwrite. -/
theorem processTransfer_users (env : Env) (s : State) (txID fromUID toUID : UUID)
    (amount : F64) (tx : Transaction)
    (hget : env.txGetErr = none) (htx : findTx s txID = some tx)
    (hw1 : env.balanceWriteErr = none) :
    (ProcessTransfer env s (IDText.wellFormed txID) (IDText.wellFormed fromUID)
        (IDText.wellFormed toUID) amount).2.users =
        s.users.map (setBalance fromUID tx.BalanceAfter env.balanceWriteAt) ∨
      ∃ v, (ProcessTransfer env s (IDText.wellFormed txID) (IDText.wellFormed fromUID)
        (IDText.wellFormed toUID) amount).2.users =
        (s.users.map (setBalance fromUID tx.BalanceAfter env.balanceWriteAt)).map
          (setBalance toUID v env.balanceWrite2At) := by
  simp only [ProcessTransfer, uuidParse, txGetByID, hget, htx, userUpdateBalance, hw1]
  split
  · exact Or.inl rfl
  · try dsimp only
    split
    · exact Or.inl rfl
    · next rtx s2 hc =>
      obtain ⟨hu2, -, -, -, -, -⟩ := txCreate_shape hc
      try dsimp only
      split
      · exact Or.inl hu2
      · next s3 hw2 =>
        obtain ⟨hu3, -, -, -⟩ := userUpdateBalance_shape hw2
        try dsimp only
        split
        · exact Or.inr ⟨_, by rw [hu3, hu2]⟩
        · next s4 hu =>
          obtain ⟨hu4, -, -⟩ := txUpdate_shape hu
          exact Or.inr ⟨_, by rw [hu4, hu3, hu2]⟩

/-- C16, as stated, fails when sender and recipient are the same account.  After a
`Transfer` of 30 from account `1` (balance 100) to itself, the stored entry has
`BalanceAfter` 70; its settlement, every call going through, returns no error and leaves
account `1` at 100, not at 70: the recipient's write, made after the sender's, stores the
balance read after the sender's write plus the amount. -/
theorem self_transfer_settlement_ends_above_balanceAfter :
    (findTx demoSelfPending 1).map (fun t => t.BalanceAfter) = some 70 ∧
      balanceOf demoSelfPending 1 = some 100 ∧
      demoSelfTask =
        { TransactionID := uuidString 1, FromUserID := uuidString 1, ToUserID := uuidString 1
          Amount := 30 } ∧
      (processPayload (demoEnv 1) demoSelfPending demoSelfTask).1 = none ∧
      balanceOf (processPayload (demoEnv 1) demoSelfPending demoSelfTask).2 1 = some 100 ∧
      (100 : F64) ≠ 70 := by
  decide

/-- C16, amended.  The sender's write of `ProcessTransfer` is a blind overwrite.  For every
stored entry and every current sender balance `c`, once the entry is read and the sender's
write goes through, the sender's stored balance after `ProcessTransfer` is exactly the
entry's `BalanceAfter` when the recipient is another account, whatever `c` is and whatever
the later steps do; when the recipient is the sender itself and the recipient's lookup,
the credit-entry insert and the recipient's write go through, it is the `float64` sum of
the entry's `BalanceAfter` and the amount, again whatever `c` is; and the whole result of
`ProcessTransfer` is the same from two states that differ only in the sender's balance
(and the stamp of its last write).  In the run `Transfer` of 30 from account `1` (balance
100) to account `2`, then `TopUp` of 50 on account `1`, then the settlement, all going
through, account `1` holds 150 before the settlement and 70, not 120, after it. -/
theorem processTransfer_blind_overwrite (env : Env) (s : State) (txID fromUID toUID : UUID)
    (amount : F64) (tx : Transaction)
    (hget : env.txGetErr = none) (htx : findTx s txID = some tx)
    (hw1 : env.balanceWriteErr = none) :
    (∀ c, balanceOf s fromUID = some c → fromUID ≠ toUID →
        balanceOf (ProcessTransfer env s (IDText.wellFormed txID) (IDText.wellFormed fromUID)
          (IDText.wellFormed toUID) amount).2 fromUID = some tx.BalanceAfter) ∧
      (∀ c, balanceOf s fromUID = some c → fromUID = toUID →
        env.userGetErr = none → env.txCreateErr = none →
        findTx s (uuidNew env.idSeed) = none → env.balanceWrite2Err = none →
        balanceOf (ProcessTransfer env s (IDText.wellFormed txID) (IDText.wellFormed fromUID)
          (IDText.wellFormed toUID) amount).2 fromUID = some (tx.BalanceAfter + amount)) ∧
      (∀ (c c2 : F64) (n n2 : Nat),
        ProcessTransfer env { s with users := s.users.map (setBalance fromUID c n) }
            (IDText.wellFormed txID) (IDText.wellFormed fromUID) (IDText.wellFormed toUID)
            amount =
          ProcessTransfer env { s with users := s.users.map (setBalance fromUID c2 n2) }
            (IDText.wellFormed txID) (IDText.wellFormed fromUID) (IDText.wellFormed toUID)
            amount) ∧
      balanceOf
          (run demoState
            [(demoEnv 0, Op.transfer 1 2 30 "rent"), (demoEnv 1, Op.topUp 1 50)]) 1 =
        some 150 ∧
      balanceOf
          (run demoState
            [(demoEnv 0, Op.transfer 1 2 30 "rent"), (demoEnv 1, Op.topUp 1 50),
              (demoEnv 2, Op.processTransfer (uuidString 1) (uuidString 1) (uuidString 2) 30)])
          1 = some 70 := by
  refine ⟨?_, ?_, ?_, by decide, by decide⟩
  · intro c hc hne
    rcases processTransfer_users env s txID fromUID toUID amount tx hget htx hw1 with h | ⟨v, h⟩
    · rw [balanceOf_of_users s _ fromUID fromUID _ h, hc]
      simp
    · rw [balanceOf_of_users
        { users := s.users.map (setBalance fromUID tx.BalanceAfter env.balanceWriteAt)
          transactions := s.transactions
          queue := s.queue } _ fromUID toUID v h,
        balanceOf_of_users s _ fromUID fromUID tx.BalanceAfter rfl, hc]
      simp [hne]
  · intro c hc heq huget hcreate hfresh hw2
    subst heq
    have hmid : balanceOf
        { users := s.users.map (setBalance fromUID tx.BalanceAfter env.balanceWriteAt)
          transactions := s.transactions
          queue := s.queue } fromUID = some tx.BalanceAfter := by
      rw [balanceOf_of_users s _ fromUID fromUID tx.BalanceAfter rfl, hc]
      simp
    cases hf : findUser s fromUID with
    | none => simp [balanceOf, hf] at hc
    | some toUser =>
      cases hupd : env.txUpdateErr with
      | none =>
        rw [processTransfer_all_ok env s txID fromUID fromUID amount tx toUser hget htx hw1
          huget hf hcreate hfresh hw2 hupd,
          balanceOf_of_users
            { users := s.users.map (setBalance fromUID tx.BalanceAfter env.balanceWriteAt)
              transactions := s.transactions
              queue := s.queue } _ fromUID fromUID _ rfl, hmid]
        simp
      | some e =>
        rw [processTransfer_fails_at_final_update env s txID fromUID fromUID amount tx toUser e
          hget htx hw1 huget hf hcreate hfresh hw2 hupd,
          balanceOf_of_users
            { users := s.users.map (setBalance fromUID tx.BalanceAfter env.balanceWriteAt)
              transactions := s.transactions
              queue := s.queue } _ fromUID fromUID _ rfl, hmid]
        simp
  · intro c c2 n n2
    have htx1 : findTx { s with users := s.users.map (setBalance fromUID c n) } txID =
        some tx := htx
    have htx2 : findTx { s with users := s.users.map (setBalance fromUID c2 n2) } txID =
        some tx := htx
    simp only [ProcessTransfer, uuidParse, txGetByID, hget, htx1, htx2, userUpdateBalance, hw1,
      map_setBalance_twice]
/-! ## The later theorems at the concrete scenario -/

/-- In the scenario, after a transfer, its settlement, and a top-up whose entry insert
fails, every SUCCESS entry has its overwrite among those carried out. -/
theorem success_entries_applied_witness :
    writesFollowEntries demoState
        [(demoEnv 0, Op.transfer 1 2 30 "rent"),
          (demoEnv 1, Op.processTransfer (uuidString 1) (uuidString 1) (uuidString 2) 30),
          ({ idSeed := 2, txCreateErr := some (Err.backend 4) }, Op.topUp 2 10),
          (demoEnv 3, Op.payment 2 5 "tea")] = true ∧
      ∀ t ∈ (run demoState
          [(demoEnv 0, Op.transfer 1 2 30 "rent"),
            (demoEnv 1, Op.processTransfer (uuidString 1) (uuidString 1) (uuidString 2) 30),
            ({ idSeed := 2, txCreateErr := some (Err.backend 4) }, Op.topUp 2 10),
            (demoEnv 3, Op.payment 2 5 "tea")]).transactions,
        t.Status = TransactionStatus.Success →
          (t.UserID, t.BalanceAfter) ∈ runWrites demoState
            [(demoEnv 0, Op.transfer 1 2 30 "rent"),
              (demoEnv 1, Op.processTransfer (uuidString 1) (uuidString 1) (uuidString 2) 30),
              ({ idSeed := 2, txCreateErr := some (Err.backend 4) }, Op.topUp 2 10),
              (demoEnv 3, Op.payment 2 5 "tea")] :=
  ⟨by decide,
    success_entries_applied demoState
      [(demoEnv 0, Op.transfer 1 2 30 "rent"),
        (demoEnv 1, Op.processTransfer (uuidString 1) (uuidString 1) (uuidString 2) 30),
        ({ idSeed := 2, txCreateErr := some (Err.backend 4) }, Op.topUp 2 10),
        (demoEnv 3, Op.payment 2 5 "tea")]
      (by decide) (by decide)⟩

/-- In the scenario, a payment of the whole balance, a transfer, a settlement whose
recipient write fails and a second delivery of the task leave both balances at least
zero. -/
theorem balances_stay_nonNegative_witness :
    (∀ u ∈ demoState.users, 0 ≤ u.Balance) ∧
      (∀ x ∈ [(demoEnv 0, Op.transfer 1 2 30 "rent"),
          (demoEnv 1, Op.payment 1 100 "all"),
          ({ idSeed := 2, balanceWrite2Err := some (Err.backend 1) },
            Op.processTransfer (uuidString 1) (uuidString 1) (uuidString 2) 30),
          (demoEnv 3, Op.processTransfer (uuidString 1) (uuidString 1) (uuidString 2) 30)],
        0 < x.2.amount ∧ x.2.debitFinite = true) ∧
      ∀ u ∈ (run demoState
          [(demoEnv 0, Op.transfer 1 2 30 "rent"),
            (demoEnv 1, Op.payment 1 100 "all"),
            ({ idSeed := 2, balanceWrite2Err := some (Err.backend 1) },
              Op.processTransfer (uuidString 1) (uuidString 1) (uuidString 2) 30),
            (demoEnv 3,
              Op.processTransfer (uuidString 1) (uuidString 1) (uuidString 2) 30)]).users,
        0 ≤ u.Balance :=
  ⟨by decide, by decide,
    (balances_stay_nonNegative demoState
      [(demoEnv 0, Op.transfer 1 2 30 "rent"),
        (demoEnv 1, Op.payment 1 100 "all"),
        ({ idSeed := 2, balanceWrite2Err := some (Err.backend 1) },
          Op.processTransfer (uuidString 1) (uuidString 1) (uuidString 2) 30),
        (demoEnv 3, Op.processTransfer (uuidString 1) (uuidString 1) (uuidString 2) 30)]
      (by decide) (by decide) (by decide) (by decide)).1⟩

/-- On account `1` of the scenario a top-up of -5 reaches the service and is carried
out, while the handler answers the same request with a binding error. -/
theorem nonpositive_amount_rejected_by_binding_only_witness :
    (∃ tx, (TopUp (demoEnv 0) demoState 1 (-5)).1 = Except.ok tx ∧
        tx.TxType = TransactionType.Credit ∧ tx.Status = TransactionStatus.Success ∧
        tx.Amount = -5 ∧ tx.BalanceAfter = demoSender.Balance + -5) ∧
      Handler.TopUp (demoEnv 0) demoState 1 (-5) = (Reply.bindingError, demoState) :=
  ⟨(nonpositive_amount_rejected_by_binding_only (demoEnv 0) demoState 1 2 (-5) "rent"
      demoSender (by decide) rfl (by decide) rfl (by decide) rfl rfl).1,
    (nonpositive_amount_rejected_by_binding_only (demoEnv 0) demoState 1 2 (-5) "rent"
      demoSender (by decide) rfl (by decide) rfl (by decide) rfl rfl).2.2.2.1 (demoEnv 0)⟩

/-- Registering the phone number that is already in `demoUsers` is refused, leaves the
table as it was and makes the one call `GetByPhoneNumber` on the repository. -/
theorem register_phone_taken_witness :
    Register demoUserEnv demoUsers "John" "Doe" "1234567890" "Test Address" "123456" =
        (Except.error (Err.text "phone number already registered"), demoUsers) ∧
      (RegisterTraced demoUserEnv demoUsers "John" "Doe" "1234567890" "Test Address"
        "123456").2 = [UserRepoCall.GetByPhoneNumber "1234567890"] :=
  ⟨(register_phone_taken demoUserEnv demoUsers "John" "Doe" "1234567890" "Test Address"
      "123456"
      { ID := 7, FirstName := "Existing", LastName := "User", PhoneNumber := "1234567890"
        Pin := "h:123456" }
      rfl).1,
    (register_phone_taken demoUserEnv demoUsers "John" "Doe" "1234567890" "Test Address"
      "123456"
      { ID := 7, FirstName := "Existing", LastName := "User", PhoneNumber := "1234567890"
        Pin := "h:123456" }
      rfl).2.2.1⟩

/-- An unknown phone number and a wrong PIN for a known phone number get the same
answer from `Login`. -/
theorem login_rejected_witness :
    Login demoUserEnv demoUsers "0000000000" "123456" =
        ("", "", some (Err.text "phone number and PIN don't match")) ∧
      Login demoUserEnv demoUsers "1234567890" "654321" =
        ("", "", some (Err.text "phone number and PIN don't match")) :=
  ⟨login_rejected demoUserEnv demoUsers "0000000000" "123456"
      (Or.inl ⟨Err.recordNotFound, rfl⟩),
    login_rejected demoUserEnv demoUsers "1234567890" "654321"
      (Or.inr
        ⟨{ ID := 7, FirstName := "Existing", LastName := "User", PhoneNumber := "1234567890"
           Pin := "h:123456" },
          Err.text "hashedPassword is not the hash", rfl, rfl⟩)⟩

/-- After the transfer of 30 and the top-up of 50 account `1` holds 150; the settlement
of the task sets it to 70. -/
theorem processTransfer_blind_overwrite_witness :
    balanceOf
        (run demoState [(demoEnv 0, Op.transfer 1 2 30 "rent"), (demoEnv 1, Op.topUp 1 50)])
        1 = some 150 ∧
      balanceOf
        (ProcessTransfer (demoEnv 2)
          (run demoState [(demoEnv 0, Op.transfer 1 2 30 "rent"), (demoEnv 1, Op.topUp 1 50)])
          (IDText.wellFormed 1) (IDText.wellFormed 1) (IDText.wellFormed 2) 30).2 1 =
        some 70 :=
  ⟨by decide,
    (processTransfer_blind_overwrite (demoEnv 2)
      (run demoState [(demoEnv 0, Op.transfer 1 2 30 "rent"), (demoEnv 1, Op.topUp 1 50)])
      1 1 2 30
      { ID := 1, UserID := 1, TxType := TransactionType.Debit
        Status := TransactionStatus.Pending, Amount := 30, Remarks := "rent"
        BalanceBefore := 100, BalanceAfter := 70, TargetUserID := some 2, CreatedAt := 0
        UpdatedAt := 0 }
      rfl (by decide) rfl).1 150 (by decide) (by decide)⟩

end Wallet
